import Mathlib

/-!
# Seat locks and order lifecycle of the TEDx ticketing backend (backend-go)

A shallow embedding of `internal/services/seat.go`, `internal/services/order.go`,
`internal/services/cron.go` and `internal/services/admin/orders.go`.

The MySQL tables are lists of rows, a transaction is a working copy of the store that
replaces the store on commit and is dropped on rollback, and `NOW()` / `time.Now()` read the
one clock `Store.now` (seconds).  Store failures (lost connection, deadlock) are not modelled:
every statement executes.  Random values (UUIDs, order number, access token) are inputs.
-/

namespace Tedx

/-- Instants and durations, in seconds. -/
abbrev Time := Int

/-- Row of table `seats` (`models.Seat`), restricted to the columns the core reads or writes. -/
structure Seat where
  ID : String
  EventID : String
  SeatNumber : String
  SeatType : String
  Price : Rat
  Status : String
  UpdatedAt : Time
  deriving DecidableEq, Repr

/-- Row of table `seat_locks` (`models.SeatLock`). -/
structure SeatLock where
  ID : String
  SeatID : String
  EventID : String
  SessionID : String
  TicketTypeID : Option String
  ExpiresAt : Time
  CreatedAt : Time
  deriving DecidableEq, Repr

/-- Row of table `orders` (`models.Order`), restricted to the columns the core reads or writes. -/
structure Order where
  ID : String
  OrderNumber : String
  EventID : String
  CustomerName : String
  CustomerEmail : String
  CustomerPhone : String
  TotalAmount : Rat
  Status : String
  ExpiresAt : Option Time
  PaidAt : Option Time
  CancelledAt : Option Time
  CancellationReason : Option String
  AccessTokenHash : Option String
  CreatedAt : Time
  UpdatedAt : Time
  deriving DecidableEq, Repr

/-- Row of table `order_items` (`models.OrderItem`). -/
structure OrderItem where
  ID : String
  OrderID : String
  SeatID : String
  SeatNumber : String
  SeatType : String
  Price : Rat
  CreatedAt : Time
  deriving DecidableEq, Repr

/-- Row of table `audit_logs`, as written by the admin order operations. -/
structure AuditLog where
  ID : String
  UserID : String
  Action : String
  EntityType : String
  EntityID : String
  Details : String
  CreatedAt : Time
  deriving DecidableEq, Repr

/-- The database together with the clock. -/
structure Store where
  seats : List Seat
  seat_locks : List SeatLock
  orders : List Order
  order_items : List OrderItem
  audit_logs : List AuditLog
  now : Time
  deriving DecidableEq, Repr

/-- Modelled from the spec: the unique index of table `seat_locks` on which
`INSERT ... ON DUPLICATE KEY UPDATE` of `LockSeats` fires.  The table declaration is not part of
the Go sources.  `seat` is a unique index on `seat_id` (the key under which the statement's
`session_id = VALUES(session_id)` changes a row); `seatSession` is a unique index on
`(seat_id, session_id)` (the spec: "insert-or-refresh a lock row for (seat, this session)"). -/
inductive LockKey where
  | seat
  | seatSession
  deriving DecidableEq, Repr

/-- Whether inserting `new` collides with the existing row `old` on the unique index.  The
primary key `id` is a fresh UUID and never collides. -/
def LockKey.dup : LockKey → SeatLock → SeatLock → Bool
  | .seat, new, old => decide (old.SeatID = new.SeatID)
  | .seatSession, new, old => decide (old.SeatID = new.SeatID) && decide (old.SessionID = new.SessionID)

/-- The statement `INSERT INTO seat_locks ... ON DUPLICATE KEY UPDATE session_id = VALUES(session_id),
ticket_type_id = VALUES(ticket_type_id), expires_at = VALUES(expires_at)`. -/
def upsertLock (k : LockKey) (new : SeatLock) (locks : List SeatLock) : List SeatLock :=
  if locks.any (k.dup new) then
    locks.map (fun old =>
      if k.dup new old then
        { old with SessionID := new.SessionID, TicketTypeID := new.TicketTypeID,
                   ExpiresAt := new.ExpiresAt }
      else old)
  else locks ++ [new]

/-- Configuration value `cfg.SeatLockTTL` (seconds; `SEAT_LOCK_TTL`, default 600).  It is a
setting of the deployment, taken below the 9223372036 s at which `time.Duration(cfg.SeatLockTTL) *
time.Second` of `LockSeats` would leave `int64`. -/
structure Config where
  SeatLockTTL : Int
  deriving DecidableEq, Repr

/-- The query `SELECT * FROM seats WHERE id = ? AND event_id = ?`. -/
def getSeatInEvent (tx : Store) (seatID eventID : String) : Option Seat :=
  tx.seats.find? (fun s => decide (s.ID = seatID) && decide (s.EventID = eventID))

/-- The query `SELECT * FROM seat_locks WHERE seat_id = ? AND session_id != ? AND expires_at > NOW()`. -/
def getOtherLock (tx : Store) (seatID sessionID : String) : Option SeatLock :=
  tx.seat_locks.find? (fun l =>
    decide (l.SeatID = seatID) && decide (l.SessionID ≠ sessionID) && decide (l.ExpiresAt > tx.now))

/-- The body of the `for _, seatID := range seatIDs` loop of `LockSeats`, run inside the
transaction `tx`; `i` counts the UUIDs generated so far. -/
def lockLoop (k : LockKey) (eventID sessionID : String) (ticketTypeID : Option String)
    (expiresAt : Time) (uuid : Nat → String) : Nat → List String → Store → Except String Store
  | _, [], tx => .ok tx
  | i, seatID :: rest, tx =>
    match getSeatInEvent tx seatID eventID with
    | none => .error ("seat not found: " ++ seatID)
    | some seat =>
      if seat.Status ≠ "AVAILABLE" then
        .error ("seat not available: " ++ seat.SeatNumber)
      else
        match getOtherLock tx seatID sessionID with
        | some _ => .error ("seat already locked by another user: " ++ seat.SeatNumber)
        | none =>
          let row : SeatLock :=
            { ID := uuid i, SeatID := seatID, EventID := eventID, SessionID := sessionID,
              TicketTypeID := ticketTypeID, ExpiresAt := expiresAt, CreatedAt := tx.now }
          lockLoop k eventID sessionID ticketTypeID expiresAt uuid (i + 1) rest
            { tx with seat_locks := upsertLock k row tx.seat_locks }

/-- `LockSeats` of `services/seat.go`: the store after the call and the returned error. -/
def LockSeats (k : LockKey) (cfg : Config) (uuid : Nat → String) (s : Store) (eventID : String)
    (seatIDs : List String) (sessionID : String) (ticketTypeID : Option String) :
    Store × Option String :=
  if seatIDs.length = 0 then (s, some "no seats to lock")
  else
    let expiresAt := s.now + cfg.SeatLockTTL
    match lockLoop k eventID sessionID ticketTypeID expiresAt uuid 0 seatIDs s with
    | .error e => (s, some e)
    | .ok tx => (tx, none)

/-- The statement `DELETE FROM seat_locks WHERE event_id = ? AND session_id = ?`. -/
def deleteSessionLocks (eventID sessionID : String) (locks : List SeatLock) : List SeatLock :=
  locks.filter (fun l => !(decide (l.EventID = eventID) && decide (l.SessionID = sessionID)))

/-- The statement `DELETE FROM seat_locks WHERE seat_id = ? AND session_id = ?`. -/
def deleteSeatSessionLock (seatID sessionID : String) (locks : List SeatLock) : List SeatLock :=
  locks.filter (fun l => !(decide (l.SeatID = seatID) && decide (l.SessionID = sessionID)))

/-- `UnlockSeats` of `services/seat.go`. -/
def UnlockSeats (s : Store) (eventID : String) (seatIDs : List String) (sessionID : String) :
    Store × Option String :=
  if seatIDs.length = 0 then
    ({ s with seat_locks := deleteSessionLocks eventID sessionID s.seat_locks }, none)
  else
    (seatIDs.foldl
      (fun st seatID => { st with seat_locks := deleteSeatSessionLock seatID sessionID st.seat_locks })
      s, none)

/-- `GetSessionLocks` of `services/seat.go`: a read-only query. -/
def GetSessionLocks (s : Store) (eventID sessionID : String) : List SeatLock :=
  s.seat_locks.filter (fun l =>
    decide (l.EventID = eventID) && decide (l.SessionID = sessionID) && decide (l.ExpiresAt > s.now))

/-- The statement `UPDATE seat_locks SET expires_at = ? WHERE event_id = ? AND session_id = ?`. -/
def setExpirySessionLocks (expiresAt : Time) (eventID sessionID : String)
    (locks : List SeatLock) : List SeatLock :=
  locks.map (fun l =>
    if l.EventID = eventID ∧ l.SessionID = sessionID then { l with ExpiresAt := expiresAt } else l)

/-- The statement `UPDATE seat_locks SET expires_at = ? WHERE seat_id = ? AND session_id = ?`. -/
def setExpirySeatSessionLock (expiresAt : Time) (seatID sessionID : String)
    (locks : List SeatLock) : List SeatLock :=
  locks.map (fun l =>
    if l.SeatID = seatID ∧ l.SessionID = sessionID then { l with ExpiresAt := expiresAt } else l)

/-- Go's `int64` arithmetic: the value of an integer result after wrap-around to 64 bits. -/
def wrapInt64 (x : Int) : Int :=
  (x + 9223372036854775808) % 18446744073709551616 - 9223372036854775808

/-- The instant `time.Now().Add(time.Duration(durationMinutes) * time.Minute)`: a `time.Duration`
is an `int64` count of nanoseconds and `time.Minute` is 60000000000, so the product wraps around
when `durationMinutes` exceeds 153722867 in absolute value; `Add` then moves the clock by that many
nanoseconds.  The clock of the model counts whole seconds, and the result is the seconds field of
the Go value (the nanoseconds rounded down, none unless the product wrapped). -/
def extendExpiry (now : Time) (durationMinutes : Int) : Time :=
  now + wrapInt64 (durationMinutes * 60000000000) / 1000000000

/-- `ExtendSeatLock` of `services/seat.go`. -/
def ExtendSeatLock (s : Store) (eventID sessionID : String) (seatIDs : List String)
    (durationMinutes : Int) : Store × Option String :=
  let expiresAt := extendExpiry s.now durationMinutes
  if seatIDs.length = 0 then
    ({ s with seat_locks := setExpirySessionLocks expiresAt eventID sessionID s.seat_locks }, none)
  else
    (seatIDs.foldl
      (fun st seatID =>
        { st with seat_locks := setExpirySeatSessionLock expiresAt seatID sessionID st.seat_locks })
      s, none)

/-- Result of the reaper operations (`CronResult`). -/
structure CronResult where
  ExpiredOrders : Int
  CleanedLocks : Int
  ReleasedSeats : Int
  deriving DecidableEq, Repr

/-- `CleanupLocks` of `services/cron.go`: `DELETE FROM seat_locks WHERE expires_at < NOW()`. -/
def CleanupLocks (s : Store) : Store × CronResult :=
  let kept := s.seat_locks.filter (fun l => !decide (l.ExpiresAt < s.now))
  ({ s with seat_locks := kept },
   { ExpiredOrders := 0, CleanedLocks := (s.seat_locks.length - kept.length : Nat), ReleasedSeats := 0 })

/-- Values produced by the random sources during one call: the UUIDs of `utils.GenerateUUID`
in the order they are drawn, the result of `utils.GenerateOrderNumber`, and the hex token drawn
by `utils.GenerateAccessToken`. -/
structure Rand where
  uuid : Nat → String
  orderNumber : String
  token : String

/-- `utils.GenerateAccessToken`: the token and its hash, `H` being hex-encoded SHA-256. -/
def GenerateAccessToken (H : String → String) (r : Rand) : String × String :=
  (r.token, H r.token)

/-- `CreatePendingOrderInput` of `services/order.go`. -/
structure CreatePendingOrderInput where
  EventID : String
  SeatIDs : List String
  SessionID : String
  TicketTypeID : Option String
  deriving DecidableEq, Repr

/-- `CreatePendingOrderResponse` of `services/order.go`; `ExpiresAt` is the instant that the
source renders in RFC 3339. -/
structure CreatePendingOrderResponse where
  OrderID : String
  OrderNumber : String
  ExpiresAt : Time
  AccessToken : String
  deriving DecidableEq, Repr

/-- The query `SELECT * FROM seat_locks WHERE seat_id = ? AND session_id = ? AND expires_at > NOW()`. -/
def getOwnLock (tx : Store) (seatID sessionID : String) : Option SeatLock :=
  tx.seat_locks.find? (fun l =>
    decide (l.SeatID = seatID) && decide (l.SessionID = sessionID) && decide (l.ExpiresAt > tx.now))

/-- First loop of `CreatePendingOrder`: every seat must be locked by the session. -/
def verifyLocks (tx : Store) (sessionID : String) : List String → Except String Unit
  | [] => .ok ()
  | seatID :: rest =>
    match getOwnLock tx seatID sessionID with
    | none => .error ("seat not locked by your session: " ++ seatID)
    | some _ => verifyLocks tx sessionID rest

/-- The query `SELECT * FROM seats WHERE id = ?`. -/
def getSeat (tx : Store) (seatID : String) : Option Seat :=
  tx.seats.find? (fun s => decide (s.ID = seatID))

/-- Second loop of `CreatePendingOrder`: `totalAmount += seat.Price`; a missing seat row returns
the error of `tx.Get` (`sql.ErrNoRows`). -/
def sumPrices (tx : Store) : List String → Rat → Except String Rat
  | [], totalAmount => .ok totalAmount
  | seatID :: rest, totalAmount =>
    match getSeat tx seatID with
    | none => .error "sql: no rows in result set"
    | some seat => sumPrices tx rest (totalAmount + seat.Price)

/-- The zero value of `models.Seat`, which `var seat models.Seat` holds when `tx.Get` fails. -/
def zeroSeat : Seat :=
  { ID := "", EventID := "", SeatNumber := "", SeatType := "", Price := 0, Status := "",
    UpdatedAt := 0 }

/-- Third loop of `CreatePendingOrder`: one `INSERT INTO order_items` per seat id; item `i` of the
loop gets UUID number `i + 1` of the call (number 0 is the order id). -/
def insertItems (orderId : String) (uuid : Nat → String) : Nat → List String → Store → Store
  | _, [], tx => tx
  | i, seatID :: rest, tx =>
    let seat := (getSeat tx seatID).getD zeroSeat
    let item : OrderItem :=
      { ID := uuid i, OrderID := orderId, SeatID := seatID, SeatNumber := seat.SeatNumber,
        SeatType := seat.SeatType, Price := seat.Price, CreatedAt := tx.now }
    insertItems orderId uuid (i + 1) rest { tx with order_items := tx.order_items ++ [item] }

/-- The statement `UPDATE seat_locks SET expires_at = ? WHERE session_id = ? AND seat_id IN (?)`,
whose last argument is one seat id. -/
def setExpirySessionSeat (expiresAt : Time) (sessionID seatID : String)
    (locks : List SeatLock) : List SeatLock :=
  locks.map (fun l =>
    if l.SessionID = sessionID ∧ l.SeatID = seatID then { l with ExpiresAt := expiresAt } else l)

/-- `CreatePendingOrder` of `services/order.go`. -/
def CreatePendingOrder (H : String → String) (r : Rand) (s : Store)
    (input : CreatePendingOrderInput) : Store × Except String CreatePendingOrderResponse :=
  match input.SeatIDs with
  | [] => (s, .error "eventId, seatIds, and sessionId are required")
  | first :: _ =>
    if input.EventID = "" ∨ input.SessionID = "" then
      (s, .error "eventId, seatIds, and sessionId are required")
    else
      match verifyLocks s input.SessionID input.SeatIDs with
      | .error e => (s, .error e)
      | .ok _ =>
        match sumPrices s input.SeatIDs 0 with
        | .error e => (s, .error e)
        | .ok totalAmount =>
          let orderId := r.uuid 0
          let orderNumber := r.orderNumber
          let tok := GenerateAccessToken H r
          let expiresAt := s.now + 15 * 60
          let order : Order :=
            { ID := orderId, OrderNumber := orderNumber, EventID := input.EventID,
              CustomerName := "", CustomerEmail := "", CustomerPhone := "",
              TotalAmount := totalAmount, Status := "PENDING", ExpiresAt := some expiresAt,
              PaidAt := none, CancelledAt := none, CancellationReason := none,
              AccessTokenHash := some tok.2, CreatedAt := s.now, UpdatedAt := s.now }
          let tx1 : Store := { s with orders := s.orders ++ [order] }
          let tx2 := insertItems orderId r.uuid 1 input.SeatIDs tx1
          let tx3 : Store :=
            { tx2 with seat_locks :=
                setExpirySessionSeat expiresAt input.SessionID first tx2.seat_locks }
          (tx3, .ok { OrderID := orderId, OrderNumber := orderNumber, ExpiresAt := expiresAt,
                      AccessToken := tok.1 })

/-- `ConfirmPaymentInput` of `services/order.go`. -/
structure ConfirmPaymentInput where
  OrderID : String
  CustomerName : String
  CustomerEmail : String
  CustomerPhone : String
  SessionID : String
  deriving DecidableEq, Repr

/-- The statement `UPDATE seats SET status = ?, updated_at = NOW() WHERE id = ?`. -/
def setSeatStatus (status : String) (now : Time) (seatID : String) (seats : List Seat) : List Seat :=
  seats.map (fun st => if st.ID = seatID then { st with Status := status, UpdatedAt := now } else st)

/-- The statement `UPDATE seat_locks SET expires_at = DATE_ADD(NOW(), INTERVAL 24 HOUR)
WHERE seat_id = ?`. -/
def setExpirySeat (expiresAt : Time) (seatID : String) (locks : List SeatLock) : List SeatLock :=
  locks.map (fun l => if l.SeatID = seatID then { l with ExpiresAt := expiresAt } else l)

/-- The statement `DELETE FROM seat_locks WHERE seat_id = ?`. -/
def deleteSeatLocks (seatID : String) (locks : List SeatLock) : List SeatLock :=
  locks.filter (fun l => !decide (l.SeatID = seatID))

/-- The query `SELECT * FROM order_items WHERE order_id = ?`. -/
def orderItems (tx : Store) (orderID : String) : List OrderItem :=
  tx.order_items.filter (fun it => decide (it.OrderID = orderID))

/-- `ConfirmPayment` of `services/order.go`. -/
def ConfirmPayment (s : Store) (input : ConfirmPaymentInput) : Store × Except String Order :=
  if input.OrderID = "" ∨ input.CustomerName = "" ∨ input.CustomerEmail = "" ∨
      input.CustomerPhone = "" then
    (s, .error "orderId, customerName, customerEmail, and customerPhone are required")
  else
    match s.orders.find? (fun o => decide (o.ID = input.OrderID) && decide (o.Status = "PENDING")) with
    | none => (s, .error "order not found or already processed")
    | some order =>
      let tx1 : Store :=
        { s with orders := s.orders.map (fun o =>
            if o.ID = input.OrderID then
              { o with Status := "PENDING_CONFIRMATION", CustomerName := input.CustomerName,
                       CustomerEmail := input.CustomerEmail, CustomerPhone := input.CustomerPhone,
                       ExpiresAt := none, UpdatedAt := s.now }
            else o) }
      let tx2 := (orderItems tx1 input.OrderID).foldl
        (fun tx item =>
          { tx with seats := setSeatStatus "RESERVED" tx.now item.SeatID tx.seats,
                    seat_locks := setExpirySeat (tx.now + 24 * 3600) item.SeatID tx.seat_locks })
        tx1
      (tx2, .ok ((tx2.orders.find? (fun o => decide (o.ID = input.OrderID))).getD order))

/-- `ConfirmPayment` of `services/admin/orders.go`.  The confirmation email sent after the commit
writes none of the tables of the store. -/
def admin.ConfirmPayment (H : String → String) (r : Rand) (s : Store)
    (orderID adminUserID : String) : Store × Except String Order :=
  match s.orders.find? (fun o =>
      decide (o.ID = orderID) && decide (o.Status = "PENDING_CONFIRMATION")) with
  | none => (s, .error "order not found or not pending confirmation")
  | some order =>
    let tok := GenerateAccessToken H r
    let tx1 : Store :=
      { s with orders := s.orders.map (fun o =>
          if o.ID = orderID then
            { o with Status := "PAID", PaidAt := some s.now, AccessTokenHash := some tok.2,
                     UpdatedAt := s.now }
          else o) }
    let tx2 := (orderItems tx1 orderID).foldl
      (fun tx item =>
        { tx with seats := setSeatStatus "SOLD" tx.now item.SeatID tx.seats,
                  seat_locks := deleteSeatLocks item.SeatID tx.seat_locks })
      tx1
    let log : AuditLog :=
      { ID := r.uuid 0, UserID := adminUserID, Action := "CONFIRM_PAYMENT", EntityType := "ORDER",
        EntityID := orderID,
        Details := "\x7b\"orderNumber\":\"" ++ order.OrderNumber ++ "\"\x7d",
        CreatedAt := s.now }
    let tx3 : Store := { tx2 with audit_logs := tx2.audit_logs ++ [log] }
    (tx3, .ok ((tx3.orders.find? (fun o => decide (o.ID = orderID))).getD order))

/-- `RejectPayment` of `services/admin/orders.go`. -/
def admin.RejectPayment (r : Rand) (s : Store) (orderID reason adminUserID : String) :
    Store × Option String :=
  match s.orders.find? (fun o =>
      decide (o.ID = orderID) && decide (o.Status = "PENDING_CONFIRMATION")) with
  | none => (s, some "order not found or not pending confirmation")
  | some _ =>
    let tx1 : Store :=
      { s with orders := s.orders.map (fun o =>
          if o.ID = orderID then
            { o with Status := "CANCELLED", CancelledAt := some s.now,
                     CancellationReason := some reason, UpdatedAt := s.now }
          else o) }
    let tx2 := (orderItems tx1 orderID).foldl
      (fun tx item =>
        { tx with seats := setSeatStatus "AVAILABLE" tx.now item.SeatID tx.seats,
                  seat_locks := deleteSeatLocks item.SeatID tx.seat_locks })
      tx1
    let log : AuditLog :=
      { ID := r.uuid 0, UserID := adminUserID, Action := "REJECT_PAYMENT", EntityType := "ORDER",
        EntityID := orderID, Details := "\x7b\"reason\":\"" ++ reason ++ "\"\x7d",
        CreatedAt := s.now }
    ({ tx2 with audit_logs := tx2.audit_logs ++ [log] }, none)

/-- Rows changed by `UPDATE seats SET status = 'AVAILABLE', updated_at = NOW() WHERE id = ? AND
status != 'SOLD'`: `RowsAffected` of the MySQL driver counts the matched rows whose values change. -/
def releaseAffected (tx : Store) (seatID : String) : Nat :=
  (tx.seats.filter (fun st =>
    decide (st.ID = seatID) && decide (st.Status ≠ "SOLD") &&
      (decide (st.Status ≠ "AVAILABLE") || decide (st.UpdatedAt ≠ tx.now)))).length

/-- The statement `UPDATE seats SET status = 'AVAILABLE', updated_at = NOW() WHERE id = ? AND
status != 'SOLD'`. -/
def releaseSeat (now : Time) (seatID : String) (seats : List Seat) : List Seat :=
  seats.map (fun st =>
    if st.ID = seatID ∧ st.Status ≠ "SOLD" then { st with Status := "AVAILABLE", UpdatedAt := now }
    else st)

/-- Inner loop of `ExpireOrders` over the seat ids of one order; the second component counts
`releasedSeats`. -/
def expireItems : List String → Store × Nat → Store × Nat
  | [], acc => acc
  | seatID :: rest, (tx, released) =>
    let affected := releaseAffected tx seatID
    let tx1 : Store :=
      { tx with seats := releaseSeat tx.now seatID tx.seats,
                seat_locks := deleteSeatLocks seatID tx.seat_locks }
    expireItems rest (tx1, if affected > 0 then released + 1 else released)

/-- Outer loop of `ExpireOrders` over the selected order ids; the counters are `expiredCount` and
`releasedSeats`. -/
def expireLoop : List String → Store × Nat × Nat → Store × Nat × Nat
  | [], acc => acc
  | orderID :: rest, (tx, expiredCount, released) =>
    let r1 := expireItems ((orderItems tx orderID).map (fun it => it.SeatID)) (tx, released)
    let tx2 : Store :=
      { r1.1 with orders := r1.1.orders.map (fun o =>
          if o.ID = orderID then { o with Status := "EXPIRED", UpdatedAt := r1.1.now } else o) }
    expireLoop rest (tx2, expiredCount + 1, r1.2)

/-- The query `SELECT id FROM orders WHERE status = 'PENDING' AND expires_at IS NOT NULL AND
expires_at < NOW()`. -/
def expiredOrderIDs (s : Store) : List String :=
  (s.orders.filter (fun o =>
    decide (o.Status = "PENDING") &&
      (match o.ExpiresAt with
       | none => false
       | some t => decide (t < s.now)))).map (fun o => o.ID)

/-- `ExpireOrders` of `services/cron.go`. -/
def ExpireOrders (s : Store) : Store × CronResult :=
  let r := expireLoop (expiredOrderIDs s) (s, 0, 0)
  (r.1, { ExpiredOrders := r.2.1, CleanedLocks := 0, ReleasedSeats := r.2.2 })

/-- One call of a core operation with its arguments, or an advance of the clock. -/
inductive Op where
  | lockSeats (uuid : Nat → String) (eventID : String) (seatIDs : List String)
      (sessionID : String) (ticketTypeID : Option String)
  | unlockSeats (eventID : String) (seatIDs : List String) (sessionID : String)
  | extendSeatLock (eventID sessionID : String) (seatIDs : List String) (durationMinutes : Int)
  | createPendingOrder (r : Rand) (input : CreatePendingOrderInput)
  | confirmPayment (input : ConfirmPaymentInput)
  | adminConfirmPayment (r : Rand) (orderID adminUserID : String)
  | adminRejectPayment (r : Rand) (orderID reason adminUserID : String)
  | expireOrders
  | cleanupLocks
  | advance (seconds : Nat)

/-- The store after one operation of the sequential model. -/
def step (k : LockKey) (cfg : Config) (H : String → String) (s : Store) : Op → Store
  | .lockSeats uuid eventID seatIDs sessionID ticketTypeID =>
      (LockSeats k cfg uuid s eventID seatIDs sessionID ticketTypeID).1
  | .unlockSeats eventID seatIDs sessionID => (UnlockSeats s eventID seatIDs sessionID).1
  | .extendSeatLock eventID sessionID seatIDs durationMinutes =>
      (ExtendSeatLock s eventID sessionID seatIDs durationMinutes).1
  | .createPendingOrder r input => (CreatePendingOrder H r s input).1
  | .confirmPayment input => (ConfirmPayment s input).1
  | .adminConfirmPayment r orderID adminUserID => (admin.ConfirmPayment H r s orderID adminUserID).1
  | .adminRejectPayment r orderID reason adminUserID =>
      (admin.RejectPayment r s orderID reason adminUserID).1
  | .expireOrders => (ExpireOrders s).1
  | .cleanupLocks => (CleanupLocks s).1
  | .advance seconds => { s with now := s.now + seconds }

/-- The store after a finite sequence of operations. -/
def run (k : LockKey) (cfg : Config) (H : String → String) (s : Store) (ops : List Op) : Store :=
  ops.foldl (step k cfg H) s

/-- Lock rows of seat `seatID` that have not expired (`expires_at > NOW()`). -/
def activeLocks (s : Store) (seatID : String) : List SeatLock :=
  s.seat_locks.filter (fun l => decide (l.SeatID = seatID) && decide (l.ExpiresAt > s.now))

/-- Ids of the orders with one of the given statuses that have an order item on seat `seatID`. -/
def ordersOnSeat (s : Store) (statuses : List String) (seatID : String) : List String :=
  (s.orders.filter (fun o =>
    decide (o.Status ∈ statuses) &&
      s.order_items.any (fun it => decide (it.OrderID = o.ID) && decide (it.SeatID = seatID)))).map
    (fun o => o.ID)

/-- The `seat_id` column of a list of lock rows. -/
def lockSeatIDs (locks : List SeatLock) : List String :=
  locks.map (fun l => l.SeatID)

/-! ### Sample data used by the closed statements -/

/-- A seat `A` of event `E`. -/
def seatA : Seat :=
  { ID := "A", EventID := "E", SeatNumber := "A-01", SeatType := "VIP", Price := 100,
    Status := "AVAILABLE", UpdatedAt := 0 }

/-- A seat `B` of event `E`. -/
def seatB : Seat :=
  { ID := "B", EventID := "E", SeatNumber := "B-01", SeatType := "STANDARD", Price := 50,
    Status := "AVAILABLE", UpdatedAt := 0 }

/-- Two available seats, no lock, no order, clock at 0. -/
def store0 : Store :=
  { seats := [seatA, seatB], seat_locks := [], orders := [], order_items := [], audit_logs := [],
    now := 0 }

/-- The default configuration: `SEAT_LOCK_TTL` = 600. -/
def cfg600 : Config := { SeatLockTTL := 600 }

/-- A stand-in for hex-encoded SHA-256 in the sample runs. -/
def sampleHash (token : String) : String := "sha256:" ++ token

/-- A source of UUIDs `p-0`, `p-1`, `p-2`, ... for the sample runs. -/
def sampleUUID (p : String) (i : Nat) : String :=
  (["0", "1", "2", "3"].map (fun d => p ++ "-" ++ d)).getD i p

/-- Random values of one sample call. -/
def sampleRand (p : String) : Rand :=
  { uuid := sampleUUID p, orderNumber := "TDX-20260101-" ++ p, token := "token-" ++ p }

/-- Session S1 locks A; after 700 s session S2 locks A; then S1 extends its lock by 15 minutes. -/
def opsRevive : List Op :=
  [.lockSeats (sampleUUID "l") "E" ["A"] "S1" none,
   .advance 700,
   .lockSeats (sampleUUID "m") "E" ["A"] "S2" none,
   .extendSeatLock "E" "S1" ["A"] 15]

/-- S1 locks A and B and starts an order for both (only the lock on A is extended to the order's
deadline); after 601 s the lock on B has expired while B is still AVAILABLE, so S2 locks B and
starts an order for B. -/
def opsTwoPending : List Op :=
  [.lockSeats (sampleUUID "l") "E" ["A", "B"] "S1" none,
   .createPendingOrder (sampleRand "o") { EventID := "E", SeatIDs := ["A", "B"], SessionID := "S1",
                                          TicketTypeID := none },
   .advance 601,
   .lockSeats (sampleUUID "m") "E" ["B"] "S2" none,
   .createPendingOrder (sampleRand "p") { EventID := "E", SeatIDs := ["B"], SessionID := "S2",
                                          TicketTypeID := none }]

/-- The run `opsTwoPending`, after which both customers confirm and staff confirm both payments. -/
def opsTwoPaid : List Op :=
  opsTwoPending ++
  [.confirmPayment { OrderID := "o-0", CustomerName := "An", CustomerEmail := "an@example.com",
                     CustomerPhone := "0900000001", SessionID := "S1" },
   .confirmPayment { OrderID := "p-0", CustomerName := "Binh", CustomerEmail := "binh@example.com",
                     CustomerPhone := "0900000002", SessionID := "S2" },
   .adminConfirmPayment (sampleRand "x") "o-0" "admin-1",
   .adminConfirmPayment (sampleRand "y") "p-0" "admin-1"]

/-- All seats AVAILABLE, no lock, no order and no order item. -/
def Store.fresh (s : Store) : Prop :=
  (∀ st ∈ s.seats, st.Status = "AVAILABLE") ∧ s.seat_locks = [] ∧ s.orders = [] ∧
    s.order_items = []

/-- The store `store0` in which session S2 holds a lock on seat B until second 500. -/
def storeBLocked : Store :=
  { store0 with seat_locks :=
      [{ ID := "k-0", SeatID := "B", EventID := "E", SessionID := "S2", TicketTypeID := none,
         ExpiresAt := 500, CreatedAt := 0 }] }

/-- The rows that UnlockSeats deletes: those of the session whose seat is listed, or, for an empty
list, those of the session in the event. -/
def unlockMatches (eventID : String) (seatIDs : List String) (sessionID : String)
    (l : SeatLock) : Bool :=
  decide (l.SessionID = sessionID) &&
    (if seatIDs = [] then decide (l.EventID = eventID) else decide (l.SeatID ∈ seatIDs))

/-- The rows that UnlockSeats should delete according to the claim: those of the session in the
event whose seat is listed (every seat, for an empty list). -/
def unlockClaimed (eventID : String) (seatIDs : List String) (sessionID : String)
    (l : SeatLock) : Bool :=
  decide (l.SessionID = sessionID) && decide (l.EventID = eventID) &&
    (decide (seatIDs = []) || decide (l.SeatID ∈ seatIDs))

/-- The store `store0` in which session S1 holds a lock on seat A of event E. -/
def storeALocked : Store :=
  { store0 with seat_locks :=
      [{ ID := "k-0", SeatID := "A", EventID := "E", SessionID := "S1", TicketTypeID := none,
         ExpiresAt := 600, CreatedAt := 0 }] }

/-- The rows that ExtendSeatLock updates: those of the session whose seat is listed, or, for an
empty list, those of the session in the event. -/
def extendMatches (eventID sessionID : String) (seatIDs : List String) (l : SeatLock) : Bool :=
  decide (l.SessionID = sessionID) &&
    (if seatIDs = [] then decide (l.EventID = eventID) else decide (l.SeatID ∈ seatIDs))

/-- The store `storeALocked` 700 s later: the lock of S1 on seat A expired 100 s ago. -/
def storeAExpired : Store :=
  { storeALocked with now := 700 }

/-- Seat `seatID` is a row of event `eventID`. -/
def seatInEvent (s : Store) (eventID seatID : String) : Prop :=
  ∃ st ∈ s.seats, st.ID = seatID ∧ st.EventID = eventID

/-- Seat `seatID` is a row of event `eventID` with durable status AVAILABLE. -/
def seatAvailable (s : Store) (eventID seatID : String) : Prop :=
  ∃ st ∈ s.seats, st.ID = seatID ∧ st.EventID = eventID ∧ st.Status = "AVAILABLE"

/-- A session other than `sessionID` owns a lock row on the seat whose expiresAt is later than
now. -/
def lockedByOther (s : Store) (seatID sessionID : String) : Prop :=
  ∃ l ∈ s.seat_locks, l.SeatID = seatID ∧ l.SessionID ≠ sessionID ∧ l.ExpiresAt > s.now

/-- The reason for which LockSeats rejects seat `seatID` with error `e`. -/
def lockRefusal (s : Store) (eventID sessionID seatID e : String) : Prop :=
  (¬ seatInEvent s eventID seatID ∧ e = "seat not found: " ++ seatID) ∨
  (∃ st ∈ s.seats, st.ID = seatID ∧ st.EventID = eventID ∧ st.Status ≠ "AVAILABLE" ∧
    e = "seat not available: " ++ st.SeatNumber) ∨
  (∃ st ∈ s.seats, st.ID = seatID ∧ st.EventID = eventID ∧ lockedByOther s seatID sessionID ∧
    e = "seat already locked by another user: " ++ st.SeatNumber)

/-- The columns of a lock row that make up the unique index. -/
def LockKey.cols : LockKey → SeatLock → String × String
  | .seat, l => (l.SeatID, "")
  | .seatSession, l => (l.SeatID, l.SessionID)

/-- The unique index of `seat_locks` holds: no two rows agree on its columns. -/
def uniqueLocks (k : LockKey) (locks : List SeatLock) : Prop :=
  (locks.map k.cols).Nodup

/-- Session `sessionID` owns a lock row on seat `seatID` that expires at `t`. -/
def holdsUntil (locks : List SeatLock) (sessionID : String) (t : Time) (seatID : String) : Prop :=
  ∃ l ∈ locks, l.SeatID = seatID ∧ l.SessionID = sessionID ∧ l.ExpiresAt = t

/-- Session `sessionID` owns a lock row on seat `seatID` whose expiresAt is later than now. -/
def heldBy (s : Store) (sessionID seatID : String) : Prop :=
  ∃ l ∈ s.seat_locks, l.SeatID = seatID ∧ l.SessionID = sessionID ∧ l.ExpiresAt > s.now

/-- The value of `seat` after `tx.Get(&seat, "SELECT * FROM seats WHERE id = ?", seatID)`. -/
def seatRow (s : Store) (seatID : String) : Seat :=
  (getSeat s seatID).getD zeroSeat

/-- A request with an empty event id for the unlocked seat A. -/
def inputNoEvent : CreatePendingOrderInput :=
  { EventID := "", SeatIDs := ["A"], SessionID := "S1", TicketTypeID := none }

/-- A request of S1 for seats A and B of event E. -/
def inputAB : CreatePendingOrderInput :=
  { EventID := "E", SeatIDs := ["A", "B"], SessionID := "S1", TicketTypeID := none }

/-- A request of S1 for seat A that names event F, while A is a seat of event E. -/
def inputOtherEvent : CreatePendingOrderInput :=
  { EventID := "F", SeatIDs := ["A"], SessionID := "S1", TicketTypeID := none }

/-- The sample store after S1 locked seats A and B at time 0 (both locks expire at 600). -/
def storeABLocked : Store :=
  (LockSeats .seat cfg600 (sampleUUID "l") store0 "E" ["A", "B"] "S1" none).1

/-- S1 locks A and B and starts an order for both at the same instant. -/
def opsLockAndOrder : List Op :=
  [.lockSeats (sampleUUID "l") "E" ["A", "B"] "S1" none,
   .createPendingOrder (sampleRand "o") inputAB]

/-- The response to the sample order of S1 placed at time 0 with the random values `o`. -/
def respO : CreatePendingOrderResponse :=
  { OrderID := "o-0", OrderNumber := "TDX-20260101-o", ExpiresAt := 900, AccessToken := "token-o" }

/-- The sample store after the run `opsTwoPaid`: orders `o-0` and `p-0` are PAID. -/
def storePaid : Store :=
  run .seat cfg600 sampleHash store0 opsTwoPaid

/-- A confirmation request with customer fields but an empty order id. -/
def confirmNoOrderID : ConfirmPaymentInput :=
  { OrderID := "", CustomerName := "An", CustomerEmail := "an@example.com",
    CustomerPhone := "0900000001", SessionID := "S1" }

/-- The confirmation request of the customer of order `o-0`. -/
def confirmO : ConfirmPaymentInput :=
  { OrderID := "o-0", CustomerName := "An", CustomerEmail := "an@example.com",
    CustomerPhone := "0900000001", SessionID := "S1" }

/-- The sample store after S1 locked A and B and started the order `o-0` for both at time 0. -/
def storeOrdered : Store :=
  (CreatePendingOrder sampleHash (sampleRand "o") storeABLocked inputAB).1

/-- The order `o-0` as ConfirmPayment returns it for the request `confirmO`. -/
def orderOConfirmed : Order :=
  { ID := "o-0", OrderNumber := "TDX-20260101-o", EventID := "E", CustomerName := "An",
    CustomerEmail := "an@example.com", CustomerPhone := "0900000001", TotalAmount := 0 + 100 + 50,
    Status := "PENDING_CONFIRMATION", ExpiresAt := none, PaidAt := none, CancelledAt := none,
    CancellationReason := none, AccessTokenHash := some "sha256:token-o", CreatedAt := 0,
    UpdatedAt := 0 }

/-- The seat row left by `UPDATE seats SET status = 'AVAILABLE', updated_at = NOW() WHERE
status != 'SOLD'` applied for each of the seat ids `ids`. -/
def releaseRow (now : Time) (ids : List String) (st : Seat) : Seat :=
  if st.ID ∈ ids ∧ st.Status ≠ "SOLD" then { st with Status := "AVAILABLE", UpdatedAt := now }
  else st

/-- The seat ids of the order items of the orders `orderIDs`, in the order in which the loops of
ExpireOrders visit them. -/
def seatIDsOfOrders (s : Store) (orderIDs : List String) : List String :=
  orderIDs.flatMap (fun oid => (orderItems s oid).map (fun it => it.SeatID))

/-- An order that is PENDING with a non-null expiresAt earlier than `now`. -/
def Order.stale (now : Time) (o : Order) : Bool :=
  decide (o.Status = "PENDING") &&
    (match o.ExpiresAt with
     | none => false
     | some t => decide (t < now))

/-- Seat `seatID` is referenced by an order item of an order that is stale at the time of the
store. -/
def seatOfStaleOrder (s : Store) (seatID : String) : Prop :=
  ∃ o ∈ s.orders, o.stale s.now = true ∧ ∃ it ∈ s.order_items, it.OrderID = o.ID ∧ it.SeatID = seatID

/-- The store `storeOrdered` at second 901: the never-confirmed order `o-0` for seats A and B
expired one second ago. -/
def storeOrderedLate : Store :=
  { storeOrdered with now := 901 }

/-- The store after the run `opsTwoPending` at second 1000: order `o-0` (deadline 900) is stale,
order `p-0` (deadline 1501) is not. -/
def storeTwoPendingLate : Store :=
  { run .seat cfg600 sampleHash store0 opsTwoPending with now := 1000 }

/-- The run `opsTwoPending`, after which the customer of `o-0` confirms and staff confirm the
payment of `o-0`: seats A and B are SOLD while order `p-0` on seat B is still PENDING. -/
def opsSoldWhilePending : List Op :=
  opsTwoPending ++
  [.confirmPayment confirmO,
   .adminConfirmPayment (sampleRand "x") "o-0" "admin-1"]

/-- The confirmation request of the customer of order `p-0`. -/
def confirmP : ConfirmPaymentInput :=
  { OrderID := "p-0", CustomerName := "Binh", CustomerEmail := "binh@example.com",
    CustomerPhone := "0900000002", SessionID := "S2" }

/-- The run `opsTwoPending`, after which both customers confirm and staff confirm the payment of
`o-0`: seats A and B are SOLD while order `p-0` on seat B is PENDING_CONFIRMATION. -/
def opsSoldWhileConfirming : List Op :=
  opsTwoPending ++
  [.confirmPayment confirmO,
   .confirmPayment confirmP,
   .adminConfirmPayment (sampleRand "x") "o-0" "admin-1"]

/-- The changes of the status of an existing order that the operation `op` may make: from
`before` to `after`. -/
def statusStep : Op → String → String → Prop
  | .confirmPayment _, before, after =>
      after = before ∨ (before = "PENDING" ∧ after = "PENDING_CONFIRMATION")
  | .adminConfirmPayment _ _ _, before, after =>
      after = before ∨ (before = "PENDING_CONFIRMATION" ∧ after = "PAID")
  | .adminRejectPayment _ _ _ _, before, after =>
      after = before ∨ (before = "PENDING_CONFIRMATION" ∧ after = "CANCELLED")
  | .expireOrders, before, after => after = before ∨ (before = "PENDING" ∧ after = "EXPIRED")
  | _, before, after => after = before

/-- Whether the operation writes `expires_at` of lock rows without reading it first:
`ExtendSeatLock` and `ConfirmPayment` run their `UPDATE seat_locks SET expires_at` with no
`expires_at > NOW()` condition and no earlier query on the rows; `CreatePendingOrder` writes only
after its lock check, and the other operations insert, check or delete. -/
def Op.setsExpiryUnchecked : Op → Bool
  | .extendSeatLock _ _ _ _ => true
  | .confirmPayment _ => true
  | _ => false

/-- Session S1 locks A; after 700 s session S2 locks A. -/
def opsRelock : List Op :=
  [.lockSeats (sampleUUID "l") "E" ["A"] "S1" none,
   .advance 700,
   .lockSeats (sampleUUID "m") "E" ["A"] "S2" none]

/-- Session S1 locks A and starts an order for it (lock and order end at second 900); after 901 s
session S2 locks A; then the customer of the first order confirms the payment. -/
def opsConfirmLate : List Op :=
  [.lockSeats (sampleUUID "l") "E" ["A"] "S1" none,
   .createPendingOrder (sampleRand "o") { EventID := "E", SeatIDs := ["A"], SessionID := "S1",
                                          TicketTypeID := none },
   .advance 901,
   .lockSeats (sampleUUID "m") "E" ["A"] "S2" none,
   .confirmPayment confirmO]

/-! ### Access tokens and the ticket lookup -/

/-- Bytes of a Go string (`[]byte(s)`): the model takes one unit per character of the string. -/
def strBytes (s : String) : List Nat :=
  s.data.map Char.toNat

/-- The digit table `hextable` of Go's `encoding/hex`. -/
def hextable : List Char :=
  ['0', '1', '2', '3', '4', '5', '6', '7', '8', '9', 'a', 'b', 'c', 'd', 'e', 'f']

/-- Go's `hex.EncodeToString`: two lowercase digits per byte, high nibble first. -/
def hexEncodeToString (src : List Nat) : String :=
  String.mk (src.flatMap (fun b => [hextable.getD (b / 16 % 16) '0', hextable.getD (b % 16) '0']))

/-- Go's `subtle.ConstantTimeCompare`: 1 if the two slices have equal contents, 0 otherwise;
slices of different lengths give 0 at once, otherwise the differences of all positions are
accumulated with or and the accumulator is compared with 0. -/
def ConstantTimeCompare (x y : List Nat) : Nat :=
  if x.length ≠ y.length then 0
  else
    let v := (List.zip x y).foldl (fun v p => v ||| (p.1 ^^^ p.2)) 0
    if v = 0 then 1 else 0

/-- `utils.VerifyAccessToken`, `sha` being SHA-256 from the token to the digest bytes. -/
def VerifyAccessToken (sha : String → List Nat) (token storedHash : String) : Bool :=
  let hashBytes := sha token
  let tokenHash := hexEncodeToString hashBytes
  ConstantTimeCompare (strBytes tokenHash) (strBytes storedHash) == 1

/-- Hex-encoded SHA-256, the function the order operations take as `H`. -/
def sha256Hex (sha : String → List Nat) (token : String) : String :=
  hexEncodeToString (sha token)

/-- Row of table `events` (`models.Event`), restricted to the columns of the ticket header. -/
structure Event where
  ID : String
  Name : String
  Venue : String
  deriving DecidableEq, Repr

/-- `SeatInfo` of `services/ticket.go`, restricted to the seat columns of the model. -/
structure SeatInfo where
  ID : String
  SeatNumber : String
  SeatType : String
  Price : Rat
  deriving DecidableEq, Repr

/-- `TicketDetails` of `services/ticket.go`. -/
structure TicketDetails where
  Order : Tedx.Order
  Event : Tedx.Event
  OrderItems : List OrderItem
  Seats : List SeatInfo
  deriving DecidableEq, Repr

/-- `services.GetTicketByToken`: the order is looked up by its number, the token is checked
against the stored hash, then the status, the event, the items and the seats are read. -/
def GetTicketByToken (sha : String → List Nat) (s : Store) (events : List Event)
    (orderNumber accessToken : String) : Except String TicketDetails :=
  if orderNumber = "" ∨ accessToken = "" then .error "orderNumber and token are required"
  else
    match s.orders.find? (fun o => decide (o.OrderNumber = orderNumber)) with
    | none => .error "order not found"
    | some order =>
      match order.AccessTokenHash with
      | none => .error "access token not set for this order"
      | some hash =>
        if !VerifyAccessToken sha accessToken hash then .error "invalid access token"
        else if order.Status ≠ "PAID" ∧ order.Status ≠ "PENDING_CONFIRMATION" then
          .error "order is not confirmed"
        else
          match events.find? (fun e => decide (e.ID = order.EventID)) with
          | none => .error "event not found"
          | some event =>
            let items := s.order_items.filter (fun it => decide (it.OrderID = order.ID))
            let seats := items.filterMap (fun item =>
              (s.seats.find? (fun st => decide (st.ID = item.SeatID))).map (fun seat =>
                { ID := seat.ID, SeatNumber := seat.SeatNumber, SeatType := seat.SeatType,
                  Price := seat.Price }))
            .ok { Order := order, Event := event, OrderItems := items, Seats := seats }

/-- A stand-in digest for the sample runs: the first two character codes of the token. -/
def sampleSha (token : String) : List Nat :=
  (token.data.take 2).map (fun c => c.toNat % 256)

/-- The sample store after the run `opsTwoPaid` with hashes computed from `sampleSha`. -/
def storeTickets : Store :=
  run .seat cfg600 (sha256Hex sampleSha) store0 opsTwoPaid

/-- The event of the sample store. -/
def eventE : Event :=
  { ID := "E", Name := "TEDx", Venue := "Hall" }

/-! ### Lock rows per seat -/

theorem lockSeatIDs_map_keep (f : SeatLock → SeatLock) (hf : ∀ l, (f l).SeatID = l.SeatID)
    (locks : List SeatLock) : lockSeatIDs (locks.map f) = lockSeatIDs locks := by
  induction locks with
  | nil => rfl
  | cons a t ih =>
    simp only [lockSeatIDs, List.map_cons, List.map_map] at ih ⊢
    rw [hf a, ih]

theorem lockSeatIDs_filter (p : SeatLock → Bool) (locks : List SeatLock) :
    (lockSeatIDs (locks.filter p)).Sublist (lockSeatIDs locks) :=
  (List.filter_sublist locks).map _

theorem lockSeatIDs_setExpirySessionLocks (t : Time) (e x : String) (locks : List SeatLock) :
    lockSeatIDs (setExpirySessionLocks t e x locks) = lockSeatIDs locks := by
  apply lockSeatIDs_map_keep
  intro l
  split <;> rfl

theorem lockSeatIDs_setExpirySeatSessionLock (t : Time) (e x : String) (locks : List SeatLock) :
    lockSeatIDs (setExpirySeatSessionLock t e x locks) = lockSeatIDs locks := by
  apply lockSeatIDs_map_keep
  intro l
  split <;> rfl

theorem lockSeatIDs_setExpirySessionSeat (t : Time) (e x : String) (locks : List SeatLock) :
    lockSeatIDs (setExpirySessionSeat t e x locks) = lockSeatIDs locks := by
  apply lockSeatIDs_map_keep
  intro l
  split <;> rfl

theorem lockSeatIDs_setExpirySeat (t : Time) (x : String) (locks : List SeatLock) :
    lockSeatIDs (setExpirySeat t x locks) = lockSeatIDs locks := by
  apply lockSeatIDs_map_keep
  intro l
  split <;> rfl

theorem nodup_upsertLock_seat (new : SeatLock) (locks : List SeatLock)
    (h : (lockSeatIDs locks).Nodup) : (lockSeatIDs (upsertLock .seat new locks)).Nodup := by
  unfold upsertLock
  split
  · rw [lockSeatIDs_map_keep _ _ locks]
    · exact h
    · intro l
      split <;> rfl
  · rename_i hany
    have hnot : new.SeatID ∉ lockSeatIDs locks := by
      intro hmem
      apply hany
      simp only [lockSeatIDs, List.mem_map] at hmem
      obtain ⟨l, hl, hle⟩ := hmem
      simp only [List.any_eq_true]
      exact ⟨l, hl, by simp [LockKey.dup, hle]⟩
    simp only [lockSeatIDs, List.map_append, List.map_cons, List.map_nil] at hnot ⊢
    rw [List.nodup_append]
    refine ⟨h, List.nodup_singleton _, ?_⟩
    intro a ha hb
    simp only [List.mem_singleton] at hb
    exact hnot (hb ▸ ha)

theorem nodup_lockLoop_seat (eventID sessionID : String) (tt : Option String) (t : Time)
    (uuid : Nat → String) (seatIDs : List String) :
    ∀ (i : Nat) (tx tx2 : Store), (lockSeatIDs tx.seat_locks).Nodup →
      lockLoop .seat eventID sessionID tt t uuid i seatIDs tx = .ok tx2 →
      (lockSeatIDs tx2.seat_locks).Nodup := by
  induction seatIDs with
  | nil =>
    intro i tx tx2 h hrun
    simp only [lockLoop, Except.ok.injEq] at hrun
    exact hrun ▸ h
  | cons a rest ih =>
    intro i tx tx2 h hrun
    simp only [lockLoop] at hrun
    split at hrun
    · cases hrun
    · split at hrun
      · cases hrun
      · split at hrun
        · cases hrun
        · exact ih _ _ _ (nodup_upsertLock_seat _ _ h) hrun

theorem sublist_UnlockSeats (s : Store) (eventID : String) (seatIDs : List String)
    (sessionID : String) :
    (lockSeatIDs (UnlockSeats s eventID seatIDs sessionID).1.seat_locks).Sublist
      (lockSeatIDs s.seat_locks) := by
  unfold UnlockSeats
  split
  · exact lockSeatIDs_filter _ _
  · simp only
    generalize hs : s = st
    have key : ∀ (ids : List String) (st : Store),
        (lockSeatIDs (ids.foldl (fun st seatID =>
          { st with seat_locks := deleteSeatSessionLock seatID sessionID st.seat_locks })
          st).seat_locks).Sublist (lockSeatIDs st.seat_locks) := by
      intro ids
      induction ids with
      | nil => intro st; exact List.Sublist.refl _
      | cons a rest ih =>
        intro st
        simp only [List.foldl_cons]
        exact (ih _).trans (lockSeatIDs_filter _ _)
    exact key seatIDs st

theorem lockSeatIDs_ExtendSeatLock (s : Store) (eventID sessionID : String)
    (seatIDs : List String) (d : Int) :
    lockSeatIDs (ExtendSeatLock s eventID sessionID seatIDs d).1.seat_locks =
      lockSeatIDs s.seat_locks := by
  unfold ExtendSeatLock
  simp only
  split
  · exact lockSeatIDs_setExpirySessionLocks _ _ _ _
  · have key : ∀ (ids : List String) (st : Store),
        lockSeatIDs (ids.foldl (fun st seatID =>
          { st with seat_locks :=
              setExpirySeatSessionLock (extendExpiry s.now d) seatID sessionID st.seat_locks })
          st).seat_locks = lockSeatIDs st.seat_locks := by
      intro ids
      induction ids with
      | nil => intro st; rfl
      | cons a rest ih =>
        intro st
        simp only [List.foldl_cons]
        rw [ih]
        exact lockSeatIDs_setExpirySeatSessionLock _ _ _ _
    exact key seatIDs s

theorem insertItems_seat_locks (orderId : String) (uuid : Nat → String) (seatIDs : List String) :
    ∀ (i : Nat) (tx : Store), (insertItems orderId uuid i seatIDs tx).seat_locks = tx.seat_locks := by
  induction seatIDs with
  | nil => intro i tx; rfl
  | cons a rest ih => intro i tx; simp only [insertItems]; rw [ih]

theorem lockSeatIDs_CreatePendingOrder (H : String → String) (r : Rand) (s : Store)
    (input : CreatePendingOrderInput) :
    lockSeatIDs (CreatePendingOrder H r s input).1.seat_locks = lockSeatIDs s.seat_locks := by
  unfold CreatePendingOrder
  split
  · rfl
  · split
    · rfl
    · split
      · rfl
      · split
        · rfl
        · simp only
          rw [lockSeatIDs_setExpirySessionSeat, insertItems_seat_locks]

theorem lockSeatIDs_confirmFold (items : List OrderItem) :
    ∀ (tx : Store), lockSeatIDs (items.foldl (fun tx item =>
        { tx with seats := setSeatStatus "RESERVED" tx.now item.SeatID tx.seats,
                  seat_locks := setExpirySeat (tx.now + 24 * 3600) item.SeatID tx.seat_locks })
        tx).seat_locks = lockSeatIDs tx.seat_locks := by
  induction items with
  | nil => intro tx; rfl
  | cons a rest ih =>
    intro tx
    simp only [List.foldl_cons]
    rw [ih]
    exact lockSeatIDs_setExpirySeat _ _ _

theorem lockSeatIDs_ConfirmPayment (s : Store) (input : ConfirmPaymentInput) :
    lockSeatIDs (ConfirmPayment s input).1.seat_locks = lockSeatIDs s.seat_locks := by
  unfold ConfirmPayment
  split
  · rfl
  · split
    · rfl
    · simp only
      rw [lockSeatIDs_confirmFold]

theorem sublist_finalizeFold (status : String) (items : List OrderItem) :
    ∀ (tx : Store), (lockSeatIDs (items.foldl (fun tx item =>
        { tx with seats := setSeatStatus status tx.now item.SeatID tx.seats,
                  seat_locks := deleteSeatLocks item.SeatID tx.seat_locks })
        tx).seat_locks).Sublist (lockSeatIDs tx.seat_locks) := by
  induction items with
  | nil => intro tx; exact List.Sublist.refl _
  | cons a rest ih =>
    intro tx
    simp only [List.foldl_cons]
    exact (ih _).trans (lockSeatIDs_filter _ _)

theorem sublist_adminConfirmPayment (H : String → String) (r : Rand) (s : Store)
    (orderID adminUserID : String) :
    (lockSeatIDs (admin.ConfirmPayment H r s orderID adminUserID).1.seat_locks).Sublist
      (lockSeatIDs s.seat_locks) := by
  unfold admin.ConfirmPayment
  split
  · exact List.Sublist.refl _
  · exact sublist_finalizeFold _ _ _

theorem sublist_adminRejectPayment (r : Rand) (s : Store) (orderID reason adminUserID : String) :
    (lockSeatIDs (admin.RejectPayment r s orderID reason adminUserID).1.seat_locks).Sublist
      (lockSeatIDs s.seat_locks) := by
  unfold admin.RejectPayment
  split
  · exact List.Sublist.refl _
  · exact sublist_finalizeFold _ _ _

theorem sublist_expireItems (seatIDs : List String) :
    ∀ (acc : Store × Nat),
      (lockSeatIDs (expireItems seatIDs acc).1.seat_locks).Sublist (lockSeatIDs acc.1.seat_locks) := by
  induction seatIDs with
  | nil => intro acc; exact List.Sublist.refl _
  | cons a rest ih =>
    intro acc
    obtain ⟨tx, n⟩ := acc
    simp only [expireItems]
    exact (ih _).trans (lockSeatIDs_filter _ _)

theorem sublist_expireLoop (orderIDs : List String) :
    ∀ (acc : Store × Nat × Nat),
      (lockSeatIDs (expireLoop orderIDs acc).1.seat_locks).Sublist (lockSeatIDs acc.1.seat_locks) := by
  induction orderIDs with
  | nil => intro acc; exact List.Sublist.refl _
  | cons a rest ih =>
    intro acc
    obtain ⟨tx, n, m⟩ := acc
    simp only [expireLoop]
    exact (ih _).trans (sublist_expireItems _ _)

theorem nodup_step_seat (cfg : Config) (H : String → String) (s : Store) (op : Op)
    (h : (lockSeatIDs s.seat_locks).Nodup) :
    (lockSeatIDs (step .seat cfg H s op).seat_locks).Nodup := by
  cases op with
  | lockSeats uuid eventID seatIDs sessionID tt =>
    simp only [step, LockSeats]
    split
    · exact h
    · split
      · exact h
      · rename_i tx hrun
        exact nodup_lockLoop_seat _ _ _ _ _ _ _ _ _ h hrun
  | unlockSeats eventID seatIDs sessionID => exact h.sublist (sublist_UnlockSeats _ _ _ _)
  | extendSeatLock eventID sessionID seatIDs d =>
    simp only [step]
    rw [lockSeatIDs_ExtendSeatLock]
    exact h
  | createPendingOrder r input =>
    simp only [step]
    rw [lockSeatIDs_CreatePendingOrder]
    exact h
  | confirmPayment input =>
    simp only [step]
    rw [lockSeatIDs_ConfirmPayment]
    exact h
  | adminConfirmPayment r orderID adminUserID =>
    exact h.sublist (sublist_adminConfirmPayment _ _ _ _ _)
  | adminRejectPayment r orderID reason adminUserID =>
    exact h.sublist (sublist_adminRejectPayment _ _ _ _ _)
  | expireOrders => exact h.sublist (sublist_expireLoop _ _)
  | cleanupLocks => exact h.sublist (lockSeatIDs_filter _ _)
  | advance seconds => exact h

theorem nodup_run_seat (cfg : Config) (H : String → String) (ops : List Op) :
    ∀ (s : Store), (lockSeatIDs s.seat_locks).Nodup →
      (lockSeatIDs (run .seat cfg H s ops).seat_locks).Nodup := by
  induction ops with
  | nil => intro s h; exact h
  | cons op rest ih =>
    intro s h
    exact ih _ (nodup_step_seat cfg H s op h)

theorem length_le_one_of_same_seat (locks : List SeatLock) (seatID : String)
    (hn : (lockSeatIDs locks).Nodup) (hall : ∀ l ∈ locks, l.SeatID = seatID) :
    locks.length ≤ 1 := by
  match locks, hn, hall with
  | [], _, _ => simp
  | [_], _, _ => simp
  | a :: b :: rest, hn, hall =>
    exfalso
    have ha := hall a (by simp)
    have hb := hall b (by simp)
    simp only [lockSeatIDs, List.map_cons, List.nodup_cons, List.mem_cons] at hn
    exact hn.1 (Or.inl (ha.trans hb.symm))

/-! ### C2, C3: orders per seat -/

theorem store0_fresh : store0.fresh := by
  refine ⟨?_, rfl, rfl, rfl⟩
  decide

/-- C2, evaluated at the failing input: from the fresh store `store0` the run `opsTwoPaid` (under
either unique index of `seat_locks`) ends with the two PAID orders `o-0` and `p-0` both holding an
order item on seat B. -/
theorem C2_seat_sold_twice :
    store0.fresh ∧
      ordersOnSeat (run .seat cfg600 sampleHash store0 opsTwoPaid) ["PAID"] "B" = ["o-0", "p-0"] ∧
      ordersOnSeat (run .seatSession cfg600 sampleHash store0 opsTwoPaid) ["PAID"] "B" =
        ["o-0", "p-0"] := by
  refine ⟨store0_fresh, ?_, ?_⟩ <;> decide

/-- C3, evaluated at the failing input: from the fresh store `store0` the run `opsTwoPending` (under
either unique index of `seat_locks`) ends with the two PENDING orders `o-0` and `p-0` both holding
an order item on seat B. -/
theorem C3_seat_in_two_pending_orders :
    store0.fresh ∧
      ordersOnSeat (run .seat cfg600 sampleHash store0 opsTwoPending)
        ["PENDING", "PENDING_CONFIRMATION"] "B" = ["o-0", "p-0"] ∧
      ordersOnSeat (run .seatSession cfg600 sampleHash store0 opsTwoPending)
        ["PENDING", "PENDING_CONFIRMATION"] "B" = ["o-0", "p-0"] := by
  refine ⟨store0_fresh, ?_, ?_⟩ <;> decide

/-! ### C4: a failed LockSeats leaves no trace -/

/-- C4: if LockSeats returns an error, the store after the call is the store before it. -/
theorem C4_LockSeats_error_keeps_store (k : LockKey) (cfg : Config) (uuid : Nat → String)
    (s : Store) (eventID : String) (seatIDs : List String) (sessionID : String)
    (tt : Option String) (e : String)
    (herr : (LockSeats k cfg uuid s eventID seatIDs sessionID tt).2 = some e) :
    (LockSeats k cfg uuid s eventID seatIDs sessionID tt).1 = s := by
  unfold LockSeats at herr ⊢
  by_cases hlen : seatIDs.length = 0
  · simp [hlen]
  · simp only [hlen, if_false] at herr ⊢
    cases hrun : lockLoop k eventID sessionID tt (s.now + cfg.SeatLockTTL) uuid 0 seatIDs s with
    | error e2 => simp
    | ok tx => simp [hrun] at herr

/-- Witness of C4: S1 asks for A and B while S2 holds B; the call fails on B and the lock on A
that the transaction had written is not kept. -/
theorem C4_LockSeats_error_keeps_store_witness :
    (LockSeats .seat cfg600 (sampleUUID "l") storeBLocked "E" ["A", "B"] "S1" none).2 =
        some "seat already locked by another user: B-01" ∧
      (LockSeats .seat cfg600 (sampleUUID "l") storeBLocked "E" ["A", "B"] "S1" none).1 =
        storeBLocked :=
  ⟨by decide,
   C4_LockSeats_error_keeps_store .seat cfg600 (sampleUUID "l") storeBLocked "E" ["A", "B"] "S1"
     none "seat already locked by another user: B-01" (by decide)⟩

/-! ### C5: when LockSeats succeeds -/

theorem getOtherLock_none_iff (tx : Store) (seatID sessionID : String) :
    getOtherLock tx seatID sessionID = none ↔ ¬ lockedByOther tx seatID sessionID := by
  unfold getOtherLock lockedByOther
  rw [List.find?_eq_none]
  constructor
  · rintro h ⟨l, hl, h1, h2, h3⟩
    exact h l hl (by simp [h1, h2, h3])
  · intro h l hl hc
    simp only [Bool.and_eq_true, decide_eq_true_eq] at hc
    exact h ⟨l, hl, hc.1.1, hc.1.2, hc.2⟩

theorem getSeatInEvent_some (tx : Store) (seatID eventID : String) (st : Seat)
    (h : getSeatInEvent tx seatID eventID = some st) :
    st ∈ tx.seats ∧ st.ID = seatID ∧ st.EventID = eventID := by
  unfold getSeatInEvent at h
  have hp := List.find?_some h
  simp only [Bool.and_eq_true, decide_eq_true_eq] at hp
  exact ⟨List.mem_of_find?_eq_some h, hp.1, hp.2⟩

theorem getSeatInEvent_none (tx : Store) (seatID eventID : String)
    (h : getSeatInEvent tx seatID eventID = none) : ¬ seatInEvent tx eventID seatID := by
  unfold getSeatInEvent at h
  rw [List.find?_eq_none] at h
  rintro ⟨st, hst, h1, h2⟩
  exact h st hst (by simp [h1, h2])

theorem find?_of_nodup_ids (seats : List Seat) (seatID eventID : String) (st : Seat)
    (hpk : (seats.map (fun x => x.ID)).Nodup) (hmem : st ∈ seats) (h1 : st.ID = seatID)
    (h2 : st.EventID = eventID) :
    seats.find? (fun x => decide (x.ID = seatID) && decide (x.EventID = eventID)) = some st := by
  induction seats with
  | nil => cases hmem
  | cons a rest ih =>
    simp only [List.map_cons, List.nodup_cons] at hpk
    rcases List.mem_cons.mp hmem with rfl | hin
    · simp [List.find?_cons, h1, h2]
    · have hne : a.ID ≠ seatID := by
        intro ha
        apply hpk.1
        rw [ha, ← h1]
        exact List.mem_map_of_mem _ hin
      simp only [List.find?_cons, hne, decide_False, Bool.false_and]
      exact ih hpk.2 hin

theorem lockedByOther_upsert (k : LockKey) (tx : Store) (row : SeatLock) (sessionID : String)
    (hrow : row.SessionID = sessionID) (hfree : ¬ lockedByOther tx row.SeatID sessionID)
    (seatID : String) :
    lockedByOther { tx with seat_locks := upsertLock k row tx.seat_locks } seatID sessionID ↔
      lockedByOther tx seatID sessionID := by
  have hdup : ∀ l, k.dup row l = true → l.SeatID = row.SeatID := by
    intro l hl
    cases k <;> simp [LockKey.dup] at hl
    · exact hl
    · exact hl.1
  unfold lockedByOther upsertLock
  simp only
  split
  · constructor
    · rintro ⟨l, hl, h1, h2, h3⟩
      obtain ⟨l0, hl0, rfl⟩ := List.mem_map.mp hl
      by_cases hd : k.dup row l0 = true
      · simp only [hd, if_true] at h2
        exact absurd hrow h2
      · simp only [hd] at h1 h2 h3 ⊢
        exact ⟨l0, hl0, h1, h2, h3⟩
    · rintro ⟨l, hl, h1, h2, h3⟩
      have hd : ¬ k.dup row l = true := by
        intro hd
        apply hfree
        exact ⟨l, hl, hdup l hd, h2, h3⟩
      refine ⟨l, ?_, h1, h2, h3⟩
      apply List.mem_map.mpr
      exact ⟨l, hl, by simp [hd]⟩
  · constructor
    · rintro ⟨l, hl, h1, h2, h3⟩
      rcases List.mem_append.mp hl with hin | hin
      · exact ⟨l, hin, h1, h2, h3⟩
      · simp only [List.mem_singleton] at hin
        subst hin
        exact absurd hrow h2
    · rintro ⟨l, hl, h1, h2, h3⟩
      exact ⟨l, List.mem_append_left _ hl, h1, h2, h3⟩

theorem lockLoop_spec (k : LockKey) (eventID sessionID : String) (tt : Option String) (t : Time)
    (uuid : Nat → String) (s : Store) (seatIDs : List String) :
    ∀ (i : Nat) (tx : Store), tx.seats = s.seats → tx.now = s.now →
      (∀ y, lockedByOther tx y sessionID ↔ lockedByOther s y sessionID) →
      (∀ tx2, lockLoop k eventID sessionID tt t uuid i seatIDs tx = .ok tx2 →
        ∀ seatID ∈ seatIDs, (∃ st, getSeatInEvent s seatID eventID = some st ∧
          st.Status = "AVAILABLE") ∧ ¬ lockedByOther s seatID sessionID) ∧
      (∀ e, lockLoop k eventID sessionID tt t uuid i seatIDs tx = .error e →
        ∃ seatID ∈ seatIDs, lockRefusal s eventID sessionID seatID e) := by
  induction seatIDs with
  | nil =>
    intro i tx _ _ _
    simp [lockLoop]
  | cons a rest ih =>
    intro i tx hs hn hl
    have hgs : getSeatInEvent tx a eventID = getSeatInEvent s a eventID := by
      simp [getSeatInEvent, hs]
    simp only [lockLoop, hgs]
    cases hg : getSeatInEvent s a eventID with
    | none =>
      simp only [false_implies, implies_true, true_and, reduceCtorEq, Except.error.injEq]
      intro e he
      exact ⟨a, List.mem_cons_self _ _, Or.inl ⟨getSeatInEvent_none s a eventID hg, he.symm⟩⟩
    | some st =>
      obtain ⟨hmem, hid, hev⟩ := getSeatInEvent_some s a eventID st hg
      by_cases hav : st.Status = "AVAILABLE"
      · simp only [hav, ne_eq, not_true_eq_false, if_false]
        cases ho : getOtherLock tx a sessionID with
        | some l =>
          simp only [false_implies, implies_true, true_and, reduceCtorEq, Except.error.injEq]
          intro e he
          have hlocked : lockedByOther s a sessionID := by
            rw [← hl a]
            by_contra hc
            rw [← getOtherLock_none_iff] at hc
            rw [hc] at ho
            cases ho
          exact ⟨a, List.mem_cons_self _ _, Or.inr (Or.inr ⟨st, hmem, hid, hev, hlocked, he.symm⟩)⟩
        | none =>
          have hfree : ¬ lockedByOther tx a sessionID := (getOtherLock_none_iff _ _ _).mp ho
          have hnext := ih (i + 1)
            { tx with seat_locks :=
                upsertLock k (SeatLock.mk (uuid i) a eventID sessionID tt t tx.now) tx.seat_locks }
            hs hn
            (fun y => (lockedByOther_upsert k tx _ sessionID rfl hfree y).trans (hl y))
          simp only
          constructor
          · intro tx2 hrun seatID hin
            rcases List.mem_cons.mp hin with rfl | hin
            · exact ⟨⟨st, hg, hav⟩, fun hc => hfree ((hl _).mpr hc)⟩
            · exact hnext.1 tx2 hrun seatID hin
          · intro e hrun
            obtain ⟨seatID, hin, hr⟩ := hnext.2 e hrun
            exact ⟨seatID, List.mem_cons_of_mem _ hin, hr⟩
      · simp only [ne_eq, hav, not_false_eq_true, if_true, false_implies, implies_true, true_and,
          reduceCtorEq, Except.error.injEq]
        intro e he
        exact ⟨a, List.mem_cons_self _ _, Or.inr (Or.inl ⟨st, hmem, hid, hev, hav, he.symm⟩)⟩

/-- C5: for a non-empty seat list (seat ids being the primary key of `seats`), LockSeats succeeds
if and only if every listed seat is an AVAILABLE seat of the event on which no other session holds
an unexpired lock; and when it fails, the error is seat-not-found for a listed seat absent from the
event, seat-not-available for a listed seat whose status is not AVAILABLE, or seat-already-locked
for a listed seat on which another session holds an unexpired lock. -/
theorem C5_LockSeats_succeeds_iff (k : LockKey) (cfg : Config) (uuid : Nat → String) (s : Store)
    (eventID : String) (seatIDs : List String) (sessionID : String) (tt : Option String)
    (hne : seatIDs ≠ []) (hpk : (s.seats.map (fun x => x.ID)).Nodup) :
    ((LockSeats k cfg uuid s eventID seatIDs sessionID tt).2 = none ↔
        ∀ seatID ∈ seatIDs,
          seatAvailable s eventID seatID ∧ ¬ lockedByOther s seatID sessionID) ∧
      (∀ e, (LockSeats k cfg uuid s eventID seatIDs sessionID tt).2 = some e →
        ∃ seatID ∈ seatIDs, lockRefusal s eventID sessionID seatID e) := by
  have hspec := lockLoop_spec k eventID sessionID tt (s.now + cfg.SeatLockTTL) uuid s seatIDs 0 s
    rfl rfl (fun _ => Iff.rfl)
  have hlen : ¬ seatIDs.length = 0 := by
    intro h
    exact hne (List.length_eq_zero.mp h)
  unfold LockSeats
  simp only [hlen, if_false]
  cases hrun : lockLoop k eventID sessionID tt (s.now + cfg.SeatLockTTL) uuid 0 seatIDs s with
  | ok tx2 =>
    simp only [true_iff, reduceCtorEq, false_implies, implies_true, and_true]
    intro seatID hin
    obtain ⟨⟨st, hg, hav⟩, hfree⟩ := hspec.1 tx2 hrun seatID hin
    obtain ⟨hmem, hid, hev⟩ := getSeatInEvent_some s seatID eventID st hg
    exact ⟨⟨st, hmem, hid, hev, hav⟩, hfree⟩
  | error e0 =>
    obtain ⟨seatID, hin, href⟩ := hspec.2 e0 hrun
    simp only [reduceCtorEq, false_iff, Option.some.injEq]
    constructor
    · intro hall
      obtain ⟨⟨st, hmem, hid, hev, hav⟩, hfree⟩ := hall seatID hin
      rcases href with ⟨hno, _⟩ | ⟨st2, hmem2, hid2, _, hav2, _⟩ | ⟨_, _, _, _, hlocked, _⟩
      · exact hno ⟨st, hmem, hid, hev⟩
      · have heq : st = st2 :=
          List.inj_on_of_nodup_map hpk hmem hmem2 (hid.trans hid2.symm)
        exact hav2 (heq ▸ hav)
      · exact hfree hlocked
    · intro e he
      exact ⟨seatID, hin, he ▸ href⟩

/-- Witness of C5: on the store with seats A and B available and unlocked, the request of S1 for
[A, B] meets both hypotheses. -/
theorem C5_LockSeats_succeeds_iff_witness :
    ["A", "B"] ≠ [] ∧ (store0.seats.map (fun x => x.ID)).Nodup ∧
      ((LockSeats .seat cfg600 (sampleUUID "l") store0 "E" ["A", "B"] "S1" none).2 = none ↔
        ∀ seatID ∈ ["A", "B"],
          seatAvailable store0 "E" seatID ∧ ¬ lockedByOther store0 seatID "S1") :=
  ⟨by decide, by decide,
   (C5_LockSeats_succeeds_iff .seat cfg600 (sampleUUID "l") store0 "E" ["A", "B"] "S1" none
     (by decide) (by decide)).1⟩

/-! ### C6: conflict, expiry, cleanup, re-acquisition -/

theorem LockSeats_pair_fresh (k : LockKey) (cfg : Config) (u : Nat → String) (s : Store)
    (E A B S1 : String) (tt : Option String) (stA stB : Seat) (h0 : s.seat_locks = [])
    (hA : getSeatInEvent s A E = some stA) (hAav : stA.Status = "AVAILABLE")
    (hB : getSeatInEvent s B E = some stB) (hBav : stB.Status = "AVAILABLE") :
    LockSeats k cfg u s E [A, B] S1 tt =
      (Store.mk s.seats
        (upsertLock k (SeatLock.mk (u 1) B E S1 tt (s.now + cfg.SeatLockTTL) s.now)
          [SeatLock.mk (u 0) A E S1 tt (s.now + cfg.SeatLockTTL) s.now])
        s.orders s.order_items s.audit_logs s.now, none) := by
  have hB2 : ∀ (x : List SeatLock),
      getSeatInEvent { s with seat_locks := x } B E = some stB := fun _ => hB
  have hO1 : getOtherLock s A S1 = none := by simp [getOtherLock, h0]
  simp [LockSeats, lockLoop, hA, hAav, hB2, hBav, hO1, h0, upsertLock, getOtherLock]

theorem rows_pair_fresh (k : LockKey) (rowA rowB : SeatLock) (S1 : String) (t : Time)
    (hA1 : rowA.SessionID = S1) (hA2 : rowA.ExpiresAt = t) (hB1 : rowB.SessionID = S1)
    (hB2 : rowB.ExpiresAt = t) :
    (∀ l ∈ upsertLock k rowB [rowA], l.SessionID = S1 ∧ l.ExpiresAt = t) ∧
      (∃ l ∈ upsertLock k rowB [rowA], l.SeatID = rowA.SeatID) := by
  unfold upsertLock
  by_cases hd : k.dup rowB rowA = true
  · simp [hd, hB1, hB2]
  · simp [hd, hA1, hA2, hB1, hB2]

/-- C6: let S1 and S2 be distinct sessions and A, B AVAILABLE seats of event E in a store without
lock rows, with the 600 s TTL.  LockSeats([A,B], S1) succeeds; LockSeats([A], S2) at any instant
less than 600 s later fails with seat-already-locked; and once the clock is more than 600 s later
and CleanupLocks has run, LockSeats([A], S2) succeeds and the one unexpired lock row of A is owned
by S2. -/
theorem C6_conflict_then_reacquire (k : LockKey) (u1 u2 u3 : Nat → String) (s : Store)
    (E A B S1 S2 : String) (tt1 tt2 : Option String) (stA stB : Seat)
    (hS : S1 ≠ S2) (h0 : s.seat_locks = [])
    (hA : getSeatInEvent s A E = some stA) (hAav : stA.Status = "AVAILABLE")
    (hB : getSeatInEvent s B E = some stB) (hBav : stB.Status = "AVAILABLE") :
    (LockSeats k cfg600 u1 s E [A, B] S1 tt1).2 = none ∧
      (∀ d : Nat, (d : Int) < 600 →
        (LockSeats k cfg600 u2
            { (LockSeats k cfg600 u1 s E [A, B] S1 tt1).1 with now := s.now + d }
            E [A] S2 tt2).2 =
          some ("seat already locked by another user: " ++ stA.SeatNumber)) ∧
      (∀ d : Nat, 600 < (d : Int) →
        (LockSeats k cfg600 u3
            (CleanupLocks
              { (LockSeats k cfg600 u1 s E [A, B] S1 tt1).1 with now := s.now + d }).1
            E [A] S2 tt2).2 = none ∧
        ∃ l, activeLocks
            (LockSeats k cfg600 u3
              (CleanupLocks
                { (LockSeats k cfg600 u1 s E [A, B] S1 tt1).1 with now := s.now + d }).1
              E [A] S2 tt2).1 A = [l] ∧ l.SessionID = S2) := by
  rw [LockSeats_pair_fresh k cfg600 u1 s E A B S1 tt1 stA stB h0 hA hAav hB hBav]
  obtain ⟨hall, lA, hlA, hlAseat⟩ := rows_pair_fresh k
    (SeatLock.mk (u1 0) A E S1 tt1 (s.now + cfg600.SeatLockTTL) s.now)
    (SeatLock.mk (u1 1) B E S1 tt1 (s.now + cfg600.SeatLockTTL) s.now) S1
    (s.now + cfg600.SeatLockTTL) rfl rfl rfl rfl
  generalize upsertLock k (SeatLock.mk (u1 1) B E S1 tt1 (s.now + cfg600.SeatLockTTL) s.now)
    [SeatLock.mk (u1 0) A E S1 tt1 (s.now + cfg600.SeatLockTTL) s.now] = locks at hall hlA ⊢
  simp only [cfg600] at hall
  refine ⟨rfl, ?_, ?_⟩
  · intro d hd
    have hA2 : getSeatInEvent
        { s with seat_locks := locks, now := s.now + d } A E = some stA := hA
    cases ho : getOtherLock { s with seat_locks := locks, now := s.now + d } A S2 with
    | none =>
      exfalso
      apply (getOtherLock_none_iff _ _ _).mp ho
      refine ⟨lA, hlA, hlAseat, ?_, ?_⟩
      · rw [(hall lA hlA).1]
        exact hS
      · rw [(hall lA hlA).2]
        simp only [gt_iff_lt]
        linarith
    | some l => simp [LockSeats, lockLoop, hA2, hAav, ho]
  · intro d hd
    have hclean : (CleanupLocks { s with seat_locks := locks, now := s.now + d }).1 =
        { s with seat_locks := [], now := s.now + d } := by
      simp only [CleanupLocks]
      congr 1
      rw [List.filter_eq_nil_iff]
      intro l hl
      rw [(hall l hl).2]
      simp only [Bool.not_eq_true, Bool.not_eq_false_eq_eq_true, decide_eq_true_eq]
      linarith
    rw [hclean]
    have hA3 : getSeatInEvent
        { s with seat_locks := [], now := s.now + d } A E = some stA := hA
    simp [LockSeats, lockLoop, hA3, hAav, getOtherLock, upsertLock, activeLocks, cfg600]

/-- Witness of C6: sessions S1, S2 and the seats A, B of the sample store. -/
theorem C6_conflict_then_reacquire_witness :
    "S1" ≠ "S2" ∧ store0.seat_locks = [] ∧
      getSeatInEvent store0 "A" "E" = some seatA ∧ seatA.Status = "AVAILABLE" ∧
      getSeatInEvent store0 "B" "E" = some seatB ∧ seatB.Status = "AVAILABLE" ∧
      (LockSeats .seat cfg600 (sampleUUID "l") store0 "E" ["A", "B"] "S1" none).2 = none ∧
      (LockSeats .seat cfg600 (sampleUUID "m")
          { (LockSeats .seat cfg600 (sampleUUID "l") store0 "E" ["A", "B"] "S1" none).1 with
            now := store0.now + (599 : Nat) }
          "E" ["A"] "S2" none).2 =
        some ("seat already locked by another user: " ++ seatA.SeatNumber) :=
  ⟨by decide, rfl, by decide, rfl, by decide, rfl,
   (C6_conflict_then_reacquire .seat (sampleUUID "l") (sampleUUID "m") (sampleUUID "n") store0
     "E" "A" "B" "S1" "S2" none none seatA seatB (by decide) rfl (by decide) rfl (by decide)
     rfl).1,
   (C6_conflict_then_reacquire .seat (sampleUUID "l") (sampleUUID "m") (sampleUUID "n") store0
     "E" "A" "B" "S1" "S2" none none seatA seatB (by decide) rfl (by decide) rfl (by decide)
     rfl).2.1 599 (by decide)⟩

/-! ### C7: the rows written by a successful LockSeats -/

theorem dup_iff_cols (k : LockKey) (new old : SeatLock) :
    k.dup new old = true ↔ k.cols old = k.cols new := by
  cases k <;> simp [LockKey.dup, LockKey.cols]

theorem dup_seatID (k : LockKey) (new old : SeatLock) (h : k.dup new old = true) :
    old.SeatID = new.SeatID := by
  cases k <;> simp [LockKey.dup] at h
  · exact h
  · exact h.1

theorem cols_update (k : LockKey) (new old : SeatLock) (h : k.dup new old = true) :
    k.cols { old with SessionID := new.SessionID, TicketTypeID := new.TicketTypeID,
                      ExpiresAt := new.ExpiresAt } = k.cols old := by
  cases k <;> simp [LockKey.dup] at h <;> simp [LockKey.cols, h]

theorem uniqueLocks_upsertLock (k : LockKey) (new : SeatLock) (locks : List SeatLock)
    (h : uniqueLocks k locks) : uniqueLocks k (upsertLock k new locks) := by
  unfold uniqueLocks upsertLock at *
  split
  · rw [List.map_map]
    have hsame : (k.cols ∘ fun old =>
        if k.dup new old = true then
          { old with SessionID := new.SessionID, TicketTypeID := new.TicketTypeID,
                     ExpiresAt := new.ExpiresAt }
        else old) = k.cols := by
      funext old
      simp only [Function.comp]
      split
      · rename_i hd
        exact cols_update k new old hd
      · rfl
    rw [hsame]
    exact h
  · rename_i hany
    rw [List.map_append, List.nodup_append]
    refine ⟨h, List.nodup_singleton _, ?_⟩
    intro c hc hc2
    simp only [List.map_cons, List.map_nil, List.mem_singleton] at hc2
    subst hc2
    obtain ⟨l, hl, hle⟩ := List.mem_map.mp hc
    apply hany
    rw [List.any_eq_true]
    exact ⟨l, hl, (dup_iff_cols k new l).mpr hle⟩

theorem holdsUntil_upsertLock_self (k : LockKey) (new : SeatLock) (locks : List SeatLock) :
    holdsUntil (upsertLock k new locks) new.SessionID new.ExpiresAt new.SeatID := by
  unfold holdsUntil upsertLock
  split
  · rename_i hany
    rw [List.any_eq_true] at hany
    obtain ⟨l0, hl0, hd⟩ := hany
    refine ⟨_, List.mem_map_of_mem _ hl0, ?_⟩
    rw [if_pos hd]
    exact ⟨dup_seatID k new l0 hd, rfl, rfl⟩
  · exact ⟨new, by simp, rfl, rfl, rfl⟩

theorem holdsUntil_upsertLock_keep (k : LockKey) (new : SeatLock) (locks : List SeatLock)
    (seatID : String) (h : holdsUntil locks new.SessionID new.ExpiresAt seatID) :
    holdsUntil (upsertLock k new locks) new.SessionID new.ExpiresAt seatID := by
  obtain ⟨l, hl, h1, h2, h3⟩ := h
  unfold holdsUntil upsertLock
  split
  · refine ⟨_, List.mem_map_of_mem _ hl, ?_⟩
    split
    · exact ⟨h1, rfl, rfl⟩
    · exact ⟨h1, h2, h3⟩
  · exact ⟨l, List.mem_append_left _ hl, h1, h2, h3⟩

theorem lockLoop_rows (k : LockKey) (eventID sessionID : String) (tt : Option String) (t : Time)
    (uuid : Nat → String) (seatIDs : List String) :
    ∀ (i : Nat) (tx tx2 : Store),
      lockLoop k eventID sessionID tt t uuid i seatIDs tx = .ok tx2 →
      (uniqueLocks k tx.seat_locks → uniqueLocks k tx2.seat_locks) ∧
      (∀ x, holdsUntil tx.seat_locks sessionID t x → holdsUntil tx2.seat_locks sessionID t x) ∧
      (∀ x ∈ seatIDs, holdsUntil tx2.seat_locks sessionID t x) := by
  induction seatIDs with
  | nil =>
    intro i tx tx2 hrun
    simp only [lockLoop, Except.ok.injEq] at hrun
    subst hrun
    simp
  | cons a rest ih =>
    intro i tx tx2 hrun
    simp only [lockLoop] at hrun
    split at hrun
    · cases hrun
    · split at hrun
      · cases hrun
      · split at hrun
        · cases hrun
        · obtain ⟨hu, hkeep, hnew⟩ := ih _ _ _ hrun
          refine ⟨fun h => hu (uniqueLocks_upsertLock k _ _ h), ?_, ?_⟩
          · intro x hx
            exact hkeep x (holdsUntil_upsertLock_keep k
              (SeatLock.mk (uuid i) a eventID sessionID tt t tx.now) _ x hx)
          · intro x hx
            rcases List.mem_cons.mp hx with rfl | hin
            · exact hkeep _ (holdsUntil_upsertLock_self k
                (SeatLock.mk (uuid i) x eventID sessionID tt t tx.now) _)
            · exact hnew x hin

theorem length_le_one_of_const {α β : Type} (g : α → β) (c : β) (l : List α)
    (hn : (l.map g).Nodup) (hall : ∀ a ∈ l, g a = c) : l.length ≤ 1 := by
  match l, hn, hall with
  | [], _, _ => simp
  | [_], _, _ => simp
  | a :: b :: rest, hn, hall =>
    exfalso
    have ha := hall a (by simp)
    have hb := hall b (by simp)
    simp only [List.map_cons, List.nodup_cons, List.mem_cons] at hn
    exact hn.1 (Or.inl (ha.trans hb.symm))

/-- C7: after a successful LockSeats at time now (on a lock table that satisfies its unique index),
each requested seat has exactly one lock row owned by sessionID, and that row expires at
now + SeatLockTTL seconds, whether or not the session already held a lock on the seat. -/
theorem C7_LockSeats_one_row_per_seat (k : LockKey) (cfg : Config) (uuid : Nat → String)
    (s : Store) (eventID : String) (seatIDs : List String) (sessionID : String)
    (tt : Option String) (hu : uniqueLocks k s.seat_locks)
    (hok : (LockSeats k cfg uuid s eventID seatIDs sessionID tt).2 = none) :
    ∀ seatID ∈ seatIDs, ∃ l,
      (LockSeats k cfg uuid s eventID seatIDs sessionID tt).1.seat_locks.filter
          (fun l => decide (l.SeatID = seatID) && decide (l.SessionID = sessionID)) = [l] ∧
        l.ExpiresAt = s.now + cfg.SeatLockTTL := by
  unfold LockSeats at hok ⊢
  by_cases hlen : seatIDs.length = 0
  · simp [hlen] at hok
  · simp only [hlen, if_false] at hok ⊢
    cases hrun : lockLoop k eventID sessionID tt (s.now + cfg.SeatLockTTL) uuid 0 seatIDs s with
    | error e => simp [hrun] at hok
    | ok tx2 =>
      simp only
      obtain ⟨hu2, _, hnew⟩ := lockLoop_rows k eventID sessionID tt _ uuid seatIDs 0 s tx2 hrun
      intro seatID hin
      obtain ⟨l, hl, h1, h2, h3⟩ := hnew seatID hin
      have hmem : l ∈ tx2.seat_locks.filter
          (fun l => decide (l.SeatID = seatID) && decide (l.SessionID = sessionID)) := by
        simp [List.mem_filter, hl, h1, h2]
      have hlen1 : (tx2.seat_locks.filter
          (fun l => decide (l.SeatID = seatID) && decide (l.SessionID = sessionID))).length ≤ 1 := by
        apply length_le_one_of_const k.cols (k.cols l)
        · exact (hu2 hu).sublist ((List.filter_sublist _).map _)
        · intro a ha
          simp only [List.mem_filter, Bool.and_eq_true, decide_eq_true_eq] at ha
          cases k <;> simp [LockKey.cols, ha.2.1, ha.2.2, h1, h2]
      refine ⟨l, ?_, h3⟩
      match hf : tx2.seat_locks.filter
          (fun l => decide (l.SeatID = seatID) && decide (l.SessionID = sessionID)), hmem, hlen1 with
      | [], hm, _ => simp [hf] at hm
      | [x], hm, _ =>
        rw [hf] at hm
        simp only [List.mem_singleton] at hm
        rw [hm]
        exact hf
      | _ :: _ :: _, _, hl2 => simp [hf] at hl2

/-- Witness of C7: S1 already holds seat A and asks for A and B again; the call succeeds. -/
theorem C7_LockSeats_one_row_per_seat_witness :
    uniqueLocks .seat storeALocked.seat_locks ∧
      (LockSeats .seat cfg600 (sampleUUID "l") storeALocked "E" ["A", "B"] "S1" none).2 = none ∧
      ∀ seatID ∈ ["A", "B"], ∃ l,
        (LockSeats .seat cfg600 (sampleUUID "l") storeALocked "E" ["A", "B"] "S1"
            none).1.seat_locks.filter
            (fun l => decide (l.SeatID = seatID) && decide (l.SessionID = "S1")) = [l] ∧
          l.ExpiresAt = storeALocked.now + cfg600.SeatLockTTL :=
  ⟨by unfold uniqueLocks; decide, by decide,
   C7_LockSeats_one_row_per_seat .seat cfg600 (sampleUUID "l") storeALocked "E" ["A", "B"] "S1"
     none (by unfold uniqueLocks; decide) (by decide)⟩

/-! ### C8: UnlockSeats -/

theorem foldl_deleteSeatSessionLock (sessionID : String) (seatIDs : List String) :
    ∀ (st : Store),
      seatIDs.foldl (fun st seatID =>
          { st with seat_locks := deleteSeatSessionLock seatID sessionID st.seat_locks }) st =
        { st with seat_locks := st.seat_locks.filter (fun l =>
            !(decide (l.SessionID = sessionID) && decide (l.SeatID ∈ seatIDs))) } := by
  induction seatIDs with
  | nil =>
    intro st
    simp
  | cons a rest ih =>
    intro st
    simp only [List.foldl_cons]
    rw [ih]
    simp only [deleteSeatSessionLock, List.filter_filter]
    congr 1
    apply List.filter_congr
    intro l _
    by_cases h1 : l.SessionID = sessionID <;> by_cases h2 : l.SeatID = a <;>
      by_cases h3 : l.SeatID ∈ rest <;> simp [h1, h2, h3]

theorem UnlockSeats_eq (s : Store) (eventID : String) (seatIDs : List String)
    (sessionID : String) :
    UnlockSeats s eventID seatIDs sessionID =
      ({ s with seat_locks :=
          s.seat_locks.filter (fun l => !unlockMatches eventID seatIDs sessionID l) }, none) := by
  unfold UnlockSeats
  cases seatIDs with
  | nil =>
    simp only [List.length_nil, if_true, deleteSessionLocks, unlockMatches]
    congr 2
    apply List.filter_congr
    intro l _
    by_cases h1 : l.SessionID = sessionID <;> by_cases h2 : l.EventID = eventID <;> simp [h1, h2]
  | cons a rest =>
    rw [if_neg (by simp)]
    rw [foldl_deleteSeatSessionLock]
    simp [unlockMatches]

/-- C8, as amended: UnlockSeats returns no error and deletes exactly the lock rows owned by
sessionID whose seat is in seatIDs, whatever their event (when seatIDs is empty: the rows owned by
sessionID in event eventID); every other lock row, all seats, orders, order items, audit records
and the clock are unchanged, and calling it a second time changes nothing. -/
theorem C8_UnlockSeats_effect (s : Store) (eventID : String) (seatIDs : List String)
    (sessionID : String) :
    (UnlockSeats s eventID seatIDs sessionID).2 = none ∧
      (UnlockSeats s eventID seatIDs sessionID).1 =
        { s with seat_locks :=
            s.seat_locks.filter (fun l => !unlockMatches eventID seatIDs sessionID l) } ∧
      (UnlockSeats (UnlockSeats s eventID seatIDs sessionID).1 eventID seatIDs sessionID).1 =
        (UnlockSeats s eventID seatIDs sessionID).1 := by
  refine ⟨by rw [UnlockSeats_eq], by rw [UnlockSeats_eq], ?_⟩
  rw [UnlockSeats_eq, UnlockSeats_eq]
  simp only [List.filter_filter, Bool.and_self]

/-- C8, counterexample: S1 holds a lock on seat A in event E; UnlockSeats for another event F with
seat list [A] deletes that row, although it is not a row of event F. -/
theorem C8_UnlockSeats_ignores_event :
    (UnlockSeats storeALocked "F" ["A"] "S1").1.seat_locks = [] ∧
      storeALocked.seat_locks.filter (fun l => !unlockClaimed "F" ["A"] "S1" l) =
        storeALocked.seat_locks ∧
      (UnlockSeats storeALocked "F" ["A"] "S1").1.seat_locks ≠
        storeALocked.seat_locks.filter (fun l => !unlockClaimed "F" ["A"] "S1" l) := by
  decide

/-! ### C9, C10: ExtendSeatLock -/

theorem foldl_setExpirySeatSessionLock (t : Time) (sessionID : String) (seatIDs : List String) :
    ∀ (st : Store),
      seatIDs.foldl (fun st seatID =>
          { st with seat_locks := setExpirySeatSessionLock t seatID sessionID st.seat_locks }) st =
        { st with seat_locks := st.seat_locks.map (fun l =>
            if l.SessionID = sessionID ∧ l.SeatID ∈ seatIDs then { l with ExpiresAt := t }
            else l) } := by
  induction seatIDs with
  | nil =>
    intro st
    simp
  | cons a rest ih =>
    intro st
    simp only [List.foldl_cons]
    rw [ih]
    simp only [setExpirySeatSessionLock, List.map_map]
    congr 1
    apply List.map_congr_left
    intro l _
    by_cases h1 : l.SessionID = sessionID <;> by_cases h2 : l.SeatID = a <;>
      by_cases h3 : l.SeatID ∈ rest <;> simp [h1, h2, h3]

theorem ExtendSeatLock_eq (s : Store) (eventID sessionID : String) (seatIDs : List String)
    (d : Int) :
    ExtendSeatLock s eventID sessionID seatIDs d =
      ({ s with seat_locks := s.seat_locks.map (fun l =>
          if extendMatches eventID sessionID seatIDs l then
            { l with ExpiresAt := extendExpiry s.now d }
          else l) }, none) := by
  unfold ExtendSeatLock
  cases seatIDs with
  | nil =>
    simp only [List.length_nil, if_true, setExpirySessionLocks, extendMatches]
    congr 2
    apply List.map_congr_left
    intro l _
    by_cases h1 : l.SessionID = sessionID <;> by_cases h2 : l.EventID = eventID <;> simp [h1, h2]
  | cons a rest =>
    simp only
    rw [if_neg (by simp)]
    rw [foldl_setExpirySeatSessionLock]
    simp [extendMatches]

theorem wrapInt64_of_range (x : Int) (hlo : -9223372036854775808 ≤ x)
    (hhi : x < 9223372036854775808) : wrapInt64 x = x := by
  unfold wrapInt64
  rw [Int.emod_eq_of_lt (by omega) (by omega)]
  omega

theorem extendExpiry_of_range (now : Time) (d : Int) (hlo : -153722867 ≤ d)
    (hhi : d ≤ 153722867) : extendExpiry now d = now + d * 60 := by
  unfold extendExpiry
  rw [wrapInt64_of_range _ (by omega) (by omega)]
  have h : d * 60000000000 = (d * 60) * 1000000000 := by ring
  rw [h, Int.mul_ediv_cancel _ (by decide)]

/-- C9, as amended: for a duration whose nanosecond count fits `int64` (at most 153722867 minutes
in absolute value), ExtendSeatLock leaves each lock row unchanged or sets its expiresAt to
now + durationMinutes minutes; so the expiry of a row is not moved backwards whenever its expiresAt
before the call is not later than now + durationMinutes minutes. -/
theorem C9_ExtendSeatLock_expiry (s : Store) (eventID sessionID : String)
    (seatIDs : List String) (d : Int) (hlo : -153722867 ≤ d) (hhi : d ≤ 153722867) :
    List.Forall₂
      (fun before after =>
        (after = before ∨ after = { before with ExpiresAt := s.now + d * 60 }) ∧
          (before.ExpiresAt ≤ s.now + d * 60 → before.ExpiresAt ≤ after.ExpiresAt))
      s.seat_locks (ExtendSeatLock s eventID sessionID seatIDs d).1.seat_locks := by
  rw [ExtendSeatLock_eq, extendExpiry_of_range s.now d hlo hhi]
  simp only
  rw [List.forall₂_map_right_iff, List.forall₂_same]
  intro l _
  split
  · exact ⟨Or.inr rfl, fun h => h⟩
  · exact ⟨Or.inl rfl, fun _ => le_refl _⟩

/-- Witness of C9 as amended: the lock of S1 on seat A, expiring at 600, is extended by 15 minutes
at time 0 and expires at 900. -/
theorem C9_ExtendSeatLock_expiry_witness :
    (-153722867 : Int) ≤ 15 ∧ (15 : Int) ≤ 153722867 ∧
      (ExtendSeatLock storeALocked "E" "S1" ["A"] 15).1.seat_locks.map (fun l => l.ExpiresAt) =
        [900] ∧
      List.Forall₂
        (fun before after =>
          (after = before ∨ after = { before with ExpiresAt := storeALocked.now + 15 * 60 }) ∧
            (before.ExpiresAt ≤ storeALocked.now + 15 * 60 →
              before.ExpiresAt ≤ after.ExpiresAt))
        storeALocked.seat_locks (ExtendSeatLock storeALocked "E" "S1" ["A"] 15).1.seat_locks :=
  ⟨by decide, by decide, by decide,
   C9_ExtendSeatLock_expiry storeALocked "E" "S1" ["A"] 15 (by decide) (by decide)⟩

/-- C9, counterexample: S1 locks seat A with the 600 s TTL at time 0 and then extends by 5 minutes:
the expiry of its lock row moves from 600 back to 300.  With 200000000 minutes the nanosecond count
wraps around in `int64` and the expiry moves back to 6446744074 s before time 0. -/
theorem C9_ExtendSeatLock_shortens :
    (0 : Int) < 5 ∧
      (LockSeats .seat cfg600 (sampleUUID "k") store0 "E" ["A"] "S1" none).1 = storeALocked ∧
      storeALocked.seat_locks.map (fun l => l.ExpiresAt) = [600] ∧
      (ExtendSeatLock storeALocked "E" "S1" ["A"] 5).1.seat_locks.map (fun l => l.ExpiresAt) =
        [300] ∧
      (0 : Int) < 200000000 ∧
      (ExtendSeatLock storeALocked "E" "S1" ["A"] 200000000).1.seat_locks.map
        (fun l => l.ExpiresAt) = [-6446744074] := by
  decide

/-- C10, evaluated at the failing input: at time 700 the lock of S1 on seat A (expiresAt 600) is
no longer active, yet ExtendSeatLock for S1 and seat A rewrites the row to expire at 1600 and the
seat has an active lock again. -/
theorem C10_ExtendSeatLock_revives_expired_lock :
    activeLocks storeAExpired "A" = [] ∧
      GetSessionLocks storeAExpired "E" "S1" = [] ∧
      (ExtendSeatLock storeAExpired "E" "S1" ["A"] 15).1.seat_locks.map (fun l => l.ExpiresAt) =
        [1600] ∧
      (activeLocks (ExtendSeatLock storeAExpired "E" "S1" ["A"] 15).1 "A").map
        (fun l => l.SessionID) = ["S1"] := by
  decide

/-! ### CreatePendingOrder: what a call does -/

theorem getOwnLock_none_iff (tx : Store) (seatID sessionID : String) :
    getOwnLock tx seatID sessionID = none ↔ ¬ heldBy tx sessionID seatID := by
  unfold getOwnLock heldBy
  rw [List.find?_eq_none]
  constructor
  · rintro h ⟨l, hl, h1, h2, h3⟩
    exact h l hl (by simp [h1, h2, h3])
  · intro h l hl hc
    simp only [Bool.and_eq_true, decide_eq_true_eq] at hc
    exact h ⟨l, hl, hc.1.1, hc.1.2, hc.2⟩

theorem verifyLocks_first_unlocked (tx : Store) (sessionID : String) (x : String)
    (post : List String) (hx : ¬ heldBy tx sessionID x) :
    ∀ (pre : List String), (∀ y ∈ pre, heldBy tx sessionID y) →
      verifyLocks tx sessionID (pre ++ x :: post) =
        .error ("seat not locked by your session: " ++ x) := by
  intro pre
  induction pre with
  | nil =>
    intro _
    simp only [List.nil_append, verifyLocks, (getOwnLock_none_iff tx x sessionID).mpr hx]
  | cons a rest ih =>
    intro hpre
    have ha : heldBy tx sessionID a := hpre a (List.mem_cons_self _ _)
    cases hg : getOwnLock tx a sessionID with
    | none => exact absurd ha ((getOwnLock_none_iff tx a sessionID).mp hg)
    | some l =>
      simp only [List.cons_append, verifyLocks, hg]
      exact ih (fun y hy => hpre y (List.mem_cons_of_mem _ hy))

theorem verifyLocks_ok_iff (tx : Store) (sessionID : String) (ids : List String) :
    verifyLocks tx sessionID ids = .ok () ↔ ∀ y ∈ ids, heldBy tx sessionID y := by
  induction ids with
  | nil => simp [verifyLocks]
  | cons a rest ih =>
    cases hg : getOwnLock tx a sessionID with
    | none =>
      have hna := (getOwnLock_none_iff tx a sessionID).mp hg
      simp only [verifyLocks, hg, reduceCtorEq, false_iff]
      intro hall
      exact hna (hall a (List.mem_cons_self _ _))
    | some l =>
      have ha : heldBy tx sessionID a := by
        by_contra hc
        rw [← getOwnLock_none_iff] at hc
        rw [hc] at hg
        cases hg
      simp only [verifyLocks, hg, ih, List.mem_cons, forall_eq_or_imp, ha, true_and]

theorem sumPrices_ok (tx : Store) (ids : List String) :
    ∀ (acc total : Rat), sumPrices tx ids acc = .ok total →
      (∀ x ∈ ids, ∃ st, getSeat tx x = some st) ∧
        total = acc + (ids.map (fun x => (seatRow tx x).Price)).sum := by
  induction ids with
  | nil =>
    intro acc total h
    simp only [sumPrices, Except.ok.injEq] at h
    simp [h]
  | cons a rest ih =>
    intro acc total h
    cases hg : getSeat tx a with
    | none => simp [sumPrices, hg] at h
    | some st =>
      simp only [sumPrices, hg] at h
      obtain ⟨hex, htot⟩ := ih _ _ h
      refine ⟨?_, ?_⟩
      · intro x hx
        rcases List.mem_cons.mp hx with rfl | hin
        · exact ⟨st, hg⟩
        · exact hex x hin
      · simp only [List.map_cons, List.sum_cons, seatRow, hg, Option.getD_some]
        rw [htot]
        simp only [seatRow]
        ring

theorem sumPrices_of_seats (tx : Store) (ids : List String) :
    ∀ (acc : Rat), (∀ x ∈ ids, ∃ st, getSeat tx x = some st) →
      ∃ total, sumPrices tx ids acc = .ok total := by
  induction ids with
  | nil =>
    intro acc _
    exact ⟨acc, rfl⟩
  | cons a rest ih =>
    intro acc hall
    obtain ⟨st, hst⟩ := hall a (List.mem_cons_self _ _)
    simp only [sumPrices, hst]
    exact ih _ (fun x hx => hall x (List.mem_cons_of_mem _ hx))

theorem insertItems_spec (oid : String) (uuid : Nat → String) (ids : List String) :
    ∀ (i : Nat) (tx : Store),
      (insertItems oid uuid i ids tx).seats = tx.seats ∧
        (insertItems oid uuid i ids tx).orders = tx.orders ∧
        (insertItems oid uuid i ids tx).audit_logs = tx.audit_logs ∧
        (insertItems oid uuid i ids tx).now = tx.now ∧
        ∃ items, (insertItems oid uuid i ids tx).order_items = tx.order_items ++ items ∧
          items.map (fun it => it.Price) = ids.map (fun x => (seatRow tx x).Price) ∧
          List.Forall₂ (fun x it =>
            it.OrderID = oid ∧ it.SeatID = x ∧ it.SeatNumber = (seatRow tx x).SeatNumber ∧
              it.SeatType = (seatRow tx x).SeatType ∧ it.Price = (seatRow tx x).Price ∧
              it.CreatedAt = tx.now) ids items := by
  induction ids with
  | nil =>
    intro i tx
    exact ⟨rfl, rfl, rfl, rfl, [], by simp [insertItems], rfl, List.Forall₂.nil⟩
  | cons a rest ih =>
    intro i tx
    simp only [insertItems]
    obtain ⟨h1, h2, h3, h4, items, h5, h6, h7⟩ := ih (i + 1)
      (Store.mk tx.seats tx.seat_locks tx.orders
        (tx.order_items ++ [OrderItem.mk (uuid i) oid a ((getSeat tx a).getD zeroSeat).SeatNumber
          ((getSeat tx a).getD zeroSeat).SeatType ((getSeat tx a).getD zeroSeat).Price tx.now])
        tx.audit_logs tx.now)
    refine ⟨h1, h2, h3, h4,
      OrderItem.mk (uuid i) oid a ((getSeat tx a).getD zeroSeat).SeatNumber
        ((getSeat tx a).getD zeroSeat).SeatType ((getSeat tx a).getD zeroSeat).Price tx.now ::
        items, ?_, ?_, ?_⟩
    · rw [h5]
      simp
    · simp only [List.map_cons]
      rw [h6]
      rfl
    · exact List.Forall₂.cons ⟨rfl, rfl, rfl, rfl, rfl, rfl⟩ h7

theorem CreatePendingOrder_ok_fields (H : String → String) (r : Rand) (s s2 : Store)
    (input : CreatePendingOrderInput) (resp : CreatePendingOrderResponse)
    (h : CreatePendingOrder H r s input = (s2, .ok resp)) :
    input.EventID ≠ "" ∧ input.SessionID ≠ "" ∧
      verifyLocks s input.SessionID input.SeatIDs = .ok () ∧
      resp = CreatePendingOrderResponse.mk (r.uuid 0) r.orderNumber (s.now + 15 * 60) r.token ∧
      s2.seats = s.seats ∧ s2.now = s.now ∧ s2.audit_logs = s.audit_logs ∧
      (∃ first rest, input.SeatIDs = first :: rest ∧
        s2.seat_locks = setExpirySessionSeat (s.now + 15 * 60) input.SessionID first s.seat_locks) ∧
      (∃ total, sumPrices s input.SeatIDs 0 = .ok total ∧
        s2.orders = s.orders ++ [Order.mk (r.uuid 0) r.orderNumber input.EventID "" "" "" total
          "PENDING" (some (s.now + 15 * 60)) none none none (some (H r.token)) s.now s.now]) ∧
      (∃ items, s2.order_items = s.order_items ++ items ∧
        items.map (fun it => it.Price) = input.SeatIDs.map (fun x => (seatRow s x).Price) ∧
        List.Forall₂ (fun x it =>
          it.OrderID = r.uuid 0 ∧ it.SeatID = x ∧ it.SeatNumber = (seatRow s x).SeatNumber ∧
            it.SeatType = (seatRow s x).SeatType ∧ it.Price = (seatRow s x).Price ∧
            it.CreatedAt = s.now) input.SeatIDs items) := by
  unfold CreatePendingOrder at h
  split at h
  · simp at h
  · rename_i first rest hids
    split at h
    · simp at h
    · rename_i hval
      simp only [not_or] at hval
      split at h
      · simp at h
      · rename_i u hv
        split at h
        · simp at h
        · rename_i total hp
          simp only [Prod.mk.injEq, Except.ok.injEq] at h
          obtain ⟨hs2, hresp⟩ := h
          subst hs2
          obtain ⟨h1, h2, h3, h4, items, h5, h6, h7⟩ := insertItems_spec (r.uuid 0) r.uuid
            input.SeatIDs 1
            (Store.mk s.seats s.seat_locks
              (s.orders ++ [Order.mk (r.uuid 0) r.orderNumber input.EventID "" "" "" total
                "PENDING" (some (s.now + 15 * 60)) none none none (some (H r.token)) s.now s.now])
              s.order_items s.audit_logs s.now)
          refine ⟨hval.1, hval.2, hv, hresp.symm, h1, h4, h3, ⟨first, rest, hids, ?_⟩,
            ⟨total, hp, h2⟩, ⟨items, h5, h6, h7⟩⟩
          simp only [GenerateAccessToken, insertItems_seat_locks]

theorem CreatePendingOrder_succeeds (H : String → String) (r : Rand) (s : Store)
    (input : CreatePendingOrderInput) (hE : input.EventID ≠ "") (hS : input.SessionID ≠ "")
    (hne : input.SeatIDs ≠ []) (hheld : ∀ x ∈ input.SeatIDs, heldBy s input.SessionID x)
    (hseats : ∀ x ∈ input.SeatIDs, ∃ st, getSeat s x = some st) :
    ∃ s2 resp, CreatePendingOrder H r s input = (s2, .ok resp) := by
  have hv := (verifyLocks_ok_iff s input.SessionID input.SeatIDs).mpr hheld
  obtain ⟨total, hp⟩ := sumPrices_of_seats s input.SeatIDs 0 hseats
  unfold CreatePendingOrder
  split
  · rename_i hnil
    exact absurd hnil hne
  · rw [if_neg (by simp [hE, hS])]
    simp only [hv, hp]
    exact ⟨_, _, rfl⟩

theorem forall₂_of_mem {α β : Type} {R S : α → β → Prop} {l1 : List α} {l2 : List β}
    (h : List.Forall₂ R l1 l2) : (∀ x ∈ l1, ∀ y, R x y → S x y) → List.Forall₂ S l1 l2 := by
  induction h with
  | nil => intro _; exact List.Forall₂.nil
  | cons hab _ ih =>
    intro hall
    exact List.Forall₂.cons (hall _ (List.mem_cons_self _ _) _ hab)
      (ih (fun x hx y hr => hall x (List.mem_cons_of_mem _ hx) y hr))

/-! ### C11: CreatePendingOrder on a seat the session does not hold -/

/-- C11, as amended: for every input with a non-empty event id and session id, if some requested
seat has no lock row owned by input.SessionID with expiresAt later than now, CreatePendingOrder
fails with the seat-not-locked-by-your-session error naming the first such seat of the list, and
the store is unchanged. -/
theorem C11_CreatePendingOrder_unlocked_seat (H : String → String) (r : Rand) (s : Store)
    (input : CreatePendingOrderInput) (pre : List String) (x : String) (post : List String)
    (hE : input.EventID ≠ "") (hS : input.SessionID ≠ "")
    (hsplit : input.SeatIDs = pre ++ x :: post)
    (hpre : ∀ y ∈ pre, heldBy s input.SessionID y) (hx : ¬ heldBy s input.SessionID x) :
    CreatePendingOrder H r s input =
      (s, .error ("seat not locked by your session: " ++ x)) := by
  have hv : verifyLocks s input.SessionID input.SeatIDs =
      .error ("seat not locked by your session: " ++ x) := by
    rw [hsplit]
    exact verifyLocks_first_unlocked s input.SessionID x post hx pre hpre
  unfold CreatePendingOrder
  split
  · rename_i hnil
    rw [hnil] at hsplit
    simp at hsplit
  · rw [if_neg (by simp [hE, hS])]
    simp only [hv]

/-- Witness of C11 as amended: S1 holds seat A only and asks for A and B; the error names B. -/
theorem C11_CreatePendingOrder_unlocked_seat_witness :
    inputAB.EventID ≠ "" ∧ inputAB.SessionID ≠ "" ∧ inputAB.SeatIDs = ["A"] ++ "B" :: [] ∧
      (∀ y ∈ ["A"], heldBy storeALocked inputAB.SessionID y) ∧
      ¬ heldBy storeALocked inputAB.SessionID "B" ∧
      CreatePendingOrder sampleHash (sampleRand "o") storeALocked inputAB =
        (storeALocked, .error ("seat not locked by your session: " ++ "B")) :=
  ⟨by decide, by decide, rfl, by unfold heldBy; decide, by unfold heldBy; decide,
   C11_CreatePendingOrder_unlocked_seat sampleHash (sampleRand "o") storeALocked inputAB ["A"]
     "B" [] (by decide) (by decide) rfl (by unfold heldBy; decide) (by unfold heldBy; decide)⟩

/-- C11, counterexample: seat A is not locked by S1, but the request has an empty event id, so
CreatePendingOrder fails with the required-fields error and not with the seat-not-locked error. -/
theorem C11_required_fields_error_first :
    "A" ∈ inputNoEvent.SeatIDs ∧ ¬ heldBy store0 inputNoEvent.SessionID "A" ∧
      CreatePendingOrder sampleHash (sampleRand "o") store0 inputNoEvent =
        (store0, .error "eventId, seatIds, and sessionId are required") ∧
      "eventId, seatIds, and sessionId are required" ≠
        "seat not locked by your session: " ++ "A" := by
  refine ⟨by decide, by unfold heldBy; decide, ?_, by decide⟩
  simp [CreatePendingOrder, inputNoEvent]

/-! ### C12: the event of the lock rows -/

/-- C12, as amended: CreatePendingOrder does not look at the event of the lock rows.  For every
input with non-empty event id, session id and seat list, if every requested seat has a seat row
and an unexpired lock row owned by input.SessionID (in whatever event), the call succeeds and adds
one PENDING order whose event is input.EventID. -/
theorem C12_CreatePendingOrder_any_lock_event (H : String → String) (r : Rand) (s : Store)
    (input : CreatePendingOrderInput) (hE : input.EventID ≠ "") (hS : input.SessionID ≠ "")
    (hne : input.SeatIDs ≠ []) (hheld : ∀ x ∈ input.SeatIDs, heldBy s input.SessionID x)
    (hseats : ∀ x ∈ input.SeatIDs, ∃ st, getSeat s x = some st) :
    ∃ s2 resp o, CreatePendingOrder H r s input = (s2, .ok resp) ∧
      s2.orders = s.orders ++ [o] ∧ o.ID = resp.OrderID ∧ o.EventID = input.EventID ∧
      o.Status = "PENDING" := by
  obtain ⟨s2, resp, hrun⟩ := CreatePendingOrder_succeeds H r s input hE hS hne hheld hseats
  obtain ⟨_, _, _, hresp, _, _, _, _, ⟨total, _, hord⟩, _⟩ :=
    CreatePendingOrder_ok_fields H r s s2 input resp hrun
  refine ⟨s2, resp, _, hrun, hord, ?_, rfl, rfl⟩
  rw [hresp]

/-- Witness of C12 as amended: S1 holds seat A through a lock row of event E and orders it for
event F. -/
theorem C12_CreatePendingOrder_any_lock_event_witness :
    inputOtherEvent.EventID ≠ "" ∧ inputOtherEvent.SessionID ≠ "" ∧
      inputOtherEvent.SeatIDs ≠ [] ∧
      (∀ x ∈ inputOtherEvent.SeatIDs, heldBy storeALocked inputOtherEvent.SessionID x) ∧
      (∀ x ∈ inputOtherEvent.SeatIDs, ∃ st, getSeat storeALocked x = some st) ∧
      ∃ s2 resp o,
        CreatePendingOrder sampleHash (sampleRand "o") storeALocked inputOtherEvent =
          (s2, .ok resp) ∧
        s2.orders = storeALocked.orders ++ [o] ∧ o.ID = resp.OrderID ∧
        o.EventID = inputOtherEvent.EventID ∧ o.Status = "PENDING" :=
  ⟨by decide, by decide, by decide, by unfold heldBy; decide,
   by intro x hx; simp [inputOtherEvent] at hx; subst hx; exact ⟨seatA, by decide⟩,
   C12_CreatePendingOrder_any_lock_event sampleHash (sampleRand "o") storeALocked inputOtherEvent
     (by decide) (by decide) (by decide) (by unfold heldBy; decide)
     (by intro x hx; simp [inputOtherEvent] at hx; subst hx; exact ⟨seatA, by decide⟩)⟩

/-- C12, counterexample: the only lock of S1 on seat A is a row of event E; CreatePendingOrder for
event F and seat A succeeds and creates the PENDING order `o-0` of event F. -/
theorem C12_order_created_for_other_event :
    storeALocked.seat_locks.map (fun l => (l.SeatID, l.EventID, l.SessionID)) =
        [("A", "E", "S1")] ∧
      (∃ resp, (CreatePendingOrder sampleHash (sampleRand "o") storeALocked inputOtherEvent).2 =
        .ok resp) ∧
      (CreatePendingOrder sampleHash (sampleRand "o") storeALocked inputOtherEvent).1.orders.map
        (fun o => (o.ID, o.EventID, o.Status)) = [("o-0", "F", "PENDING")] := by
  refine ⟨by decide, ⟨_, rfl⟩, by decide⟩

/-! ### C13: the locks after CreatePendingOrder -/

/-- C13, evaluated at the failing input: S1 locks A and B (expiry 600) and starts an order for both
at time 0; the order expires at 900, the lock on A is moved to 900, the lock on B still expires at
600 (under either unique index of `seat_locks`). -/
theorem C13_only_first_lock_extended :
    (run .seat cfg600 sampleHash store0 opsLockAndOrder).orders.map (fun o => o.ExpiresAt) =
        [some 900] ∧
      (run .seat cfg600 sampleHash store0 opsLockAndOrder).seat_locks.map
        (fun l => (l.SeatID, l.SessionID, l.ExpiresAt)) = [("A", "S1", 900), ("B", "S1", 600)] ∧
      (run .seatSession cfg600 sampleHash store0 opsLockAndOrder).seat_locks.map
        (fun l => (l.SeatID, l.SessionID, l.ExpiresAt)) = [("A", "S1", 900), ("B", "S1", 600)] := by
  decide

/-! ### C14, C15: the order and the items that CreatePendingOrder creates -/

theorem CreatePendingOrder_sample :
    CreatePendingOrder sampleHash (sampleRand "o") storeABLocked inputAB =
      ((CreatePendingOrder sampleHash (sampleRand "o") storeABLocked inputAB).1, .ok respO) := by
  rfl

/-- C14: after a successful CreatePendingOrder every requested seat id has a seat row, and the
totalAmount of the created order is the sum, over the requested seat ids, of the prices of those
rows. -/
theorem C14_total_is_sum_of_prices (H : String → String) (r : Rand) (s s2 : Store)
    (input : CreatePendingOrderInput) (resp : CreatePendingOrderResponse)
    (h : CreatePendingOrder H r s input = (s2, .ok resp)) :
    ∃ o seats, s2.orders = s.orders ++ [o] ∧ o.ID = resp.OrderID ∧
      List.Forall₂ (fun x st => getSeat s x = some st) input.SeatIDs seats ∧
      o.TotalAmount = (seats.map (fun st => st.Price)).sum := by
  obtain ⟨_, _, _, hresp, _, _, _, _, ⟨total, hp, hord⟩, _⟩ :=
    CreatePendingOrder_ok_fields H r s s2 input resp h
  obtain ⟨hex, htot⟩ := sumPrices_ok s input.SeatIDs 0 total hp
  refine ⟨_, input.SeatIDs.map (seatRow s), hord, by rw [hresp], ?_, ?_⟩
  · rw [List.forall₂_map_right_iff, List.forall₂_same]
    intro x hx
    obtain ⟨st, hst⟩ := hex x hx
    simp [seatRow, hst]
  · simp only [htot, zero_add, List.map_map]
    rfl

/-- Witness of C14: S1 holds A (price 100) and B (price 50) and orders both. -/
theorem C14_total_is_sum_of_prices_witness :
    CreatePendingOrder sampleHash (sampleRand "o") storeABLocked inputAB =
        ((CreatePendingOrder sampleHash (sampleRand "o") storeABLocked inputAB).1, .ok respO) ∧
      ∃ o seats,
        (CreatePendingOrder sampleHash (sampleRand "o") storeABLocked inputAB).1.orders =
          storeABLocked.orders ++ [o] ∧ o.ID = respO.OrderID ∧
        List.Forall₂ (fun x st => getSeat storeABLocked x = some st) inputAB.SeatIDs seats ∧
        o.TotalAmount = (seats.map (fun st => st.Price)).sum :=
  ⟨CreatePendingOrder_sample,
   C14_total_is_sum_of_prices sampleHash (sampleRand "o") storeABLocked _ inputAB respO
     CreatePendingOrder_sample⟩

/-- C15: a successful CreatePendingOrder at time now adds exactly one order, with status PENDING,
event input.EventID, empty customer fields and expiresAt = now + 15 minutes (the instant it
returns), and adds one order item per requested seat id, in order, carrying the seat number, seat
type and price of that seat's row; the prices of the added items sum to the order's totalAmount,
and the seat rows are unchanged. -/
theorem C15_CreatePendingOrder_effect (H : String → String) (r : Rand) (s s2 : Store)
    (input : CreatePendingOrderInput) (resp : CreatePendingOrderResponse)
    (h : CreatePendingOrder H r s input = (s2, .ok resp)) :
    ∃ o items, s2.orders = s.orders ++ [o] ∧ o.ID = resp.OrderID ∧ o.Status = "PENDING" ∧
      o.EventID = input.EventID ∧ o.CustomerName = "" ∧ o.CustomerEmail = "" ∧
      o.CustomerPhone = "" ∧ o.ExpiresAt = some (s.now + 15 * 60) ∧
      resp.ExpiresAt = s.now + 15 * 60 ∧
      s2.order_items = s.order_items ++ items ∧
      List.Forall₂ (fun x it => it.OrderID = o.ID ∧ it.SeatID = x ∧
        ∃ st, getSeat s x = some st ∧ it.SeatNumber = st.SeatNumber ∧
          it.SeatType = st.SeatType ∧ it.Price = st.Price) input.SeatIDs items ∧
      (items.map (fun it => it.Price)).sum = o.TotalAmount ∧
      s2.seats = s.seats := by
  obtain ⟨_, _, _, hresp, hseats, _, _, _, ⟨total, hp, hord⟩, ⟨items, hitems, hprices, hall⟩⟩ :=
    CreatePendingOrder_ok_fields H r s s2 input resp h
  obtain ⟨hex, htot⟩ := sumPrices_ok s input.SeatIDs 0 total hp
  refine ⟨_, items, hord, by rw [hresp], rfl, rfl, rfl, rfl, rfl, rfl, by rw [hresp], hitems,
    ?_, ?_, hseats⟩
  · apply forall₂_of_mem hall
    intro x hx it hit
    obtain ⟨st, hst⟩ := hex x hx
    obtain ⟨h1, h2, h3, h4, h5, _⟩ := hit
    have hrow : seatRow s x = st := by simp [seatRow, hst]
    rw [hrow] at h3 h4 h5
    exact ⟨h1, h2, st, hst, h3, h4, h5⟩
  · rw [hprices, htot, zero_add]

/-- Witness of C15: the same sample order of S1 for seats A and B. -/
theorem C15_CreatePendingOrder_effect_witness :
    CreatePendingOrder sampleHash (sampleRand "o") storeABLocked inputAB =
        ((CreatePendingOrder sampleHash (sampleRand "o") storeABLocked inputAB).1, .ok respO) ∧
      (CreatePendingOrder sampleHash (sampleRand "o") storeABLocked inputAB).1.seats =
        storeABLocked.seats :=
  ⟨CreatePendingOrder_sample,
   (C15_CreatePendingOrder_effect sampleHash (sampleRand "o") storeABLocked _ inputAB respO
     CreatePendingOrder_sample).elim (fun _ ho => ho.elim (fun _ hc => hc.2.2.2.2.2.2.2.2.2.2.2.2))⟩

/-! ### ConfirmPayment: what a call does -/

theorem foldl_confirm (items : List OrderItem) :
    ∀ (tx : Store),
      items.foldl (fun tx item =>
          { tx with seats := setSeatStatus "RESERVED" tx.now item.SeatID tx.seats,
                    seat_locks := setExpirySeat (tx.now + 24 * 3600) item.SeatID tx.seat_locks })
          tx =
        Store.mk
          (tx.seats.map (fun st =>
            if st.ID ∈ items.map (fun it => it.SeatID) then
              { st with Status := "RESERVED", UpdatedAt := tx.now }
            else st))
          (tx.seat_locks.map (fun l =>
            if l.SeatID ∈ items.map (fun it => it.SeatID) then
              { l with ExpiresAt := tx.now + 24 * 3600 }
            else l))
          tx.orders tx.order_items tx.audit_logs tx.now := by
  induction items with
  | nil =>
    intro tx
    simp
  | cons a rest ih =>
    intro tx
    simp only [List.foldl_cons]
    rw [ih]
    simp only [setSeatStatus, setExpirySeat, List.map_map, List.map_cons, List.mem_cons]
    generalize rest.map (fun it => it.SeatID) = ids
    congr 1
    · apply List.map_congr_left
      intro st _
      by_cases h1 : st.ID = a.SeatID <;> by_cases h2 : st.ID ∈ ids <;> simp_all
    · apply List.map_congr_left
      intro l _
      by_cases h1 : l.SeatID = a.SeatID <;> by_cases h2 : l.SeatID ∈ ids <;> simp_all

theorem ConfirmPayment_ok_fields (s s2 : Store) (input : ConfirmPaymentInput) (o : Order)
    (h : ConfirmPayment s input = (s2, .ok o)) :
    input.OrderID ≠ "" ∧
      (∃ o0 ∈ s.orders, o0.ID = input.OrderID ∧ o0.Status = "PENDING") ∧
      s2 = Store.mk
        (s.seats.map (fun st =>
          if st.ID ∈ (orderItems s input.OrderID).map (fun it => it.SeatID) then
            { st with Status := "RESERVED", UpdatedAt := s.now }
          else st))
        (s.seat_locks.map (fun l =>
          if l.SeatID ∈ (orderItems s input.OrderID).map (fun it => it.SeatID) then
            { l with ExpiresAt := s.now + 24 * 3600 }
          else l))
        (s.orders.map (fun o1 =>
          if o1.ID = input.OrderID then
            { o1 with Status := "PENDING_CONFIRMATION", CustomerName := input.CustomerName,
                      CustomerEmail := input.CustomerEmail, CustomerPhone := input.CustomerPhone,
                      ExpiresAt := none, UpdatedAt := s.now }
          else o1))
        s.order_items s.audit_logs s.now ∧
      o ∈ s2.orders ∧ o.ID = input.OrderID := by
  unfold ConfirmPayment at h
  split at h
  · simp at h
  · rename_i hval
    simp only [not_or] at hval
    split at h
    · simp at h
    · rename_i order hfind
      simp only [Prod.mk.injEq, Except.ok.injEq] at h
      obtain ⟨hs2, ho⟩ := h
      have hmem := List.mem_of_find?_eq_some hfind
      have hp := List.find?_some hfind
      simp only [Bool.and_eq_true, decide_eq_true_eq] at hp
      rw [foldl_confirm] at hs2
      simp only [orderItems] at hs2 ⊢
      refine ⟨hval.1, ⟨order, hmem, hp.1, hp.2⟩, hs2.symm, ?_⟩
      rw [foldl_confirm] at ho
      simp only at ho
      cases hf : List.find? (fun o1 => decide (o1.ID = input.OrderID))
          (s.orders.map (fun o1 =>
            if o1.ID = input.OrderID then
              { o1 with Status := "PENDING_CONFIRMATION", CustomerName := input.CustomerName,
                        CustomerEmail := input.CustomerEmail,
                        CustomerPhone := input.CustomerPhone,
                        ExpiresAt := none, UpdatedAt := s.now }
            else o1)) with
      | none =>
        exfalso
        rw [List.find?_eq_none] at hf
        have := hf _ (List.mem_map_of_mem _ hmem)
        simp [hp.1] at this
      | some o2 =>
        rw [hf] at ho
        simp only [Option.getD_some] at ho
        subst ho
        have hmem2 := List.mem_of_find?_eq_some hf
        have hp2 := List.find?_some hf
        simp only [decide_eq_true_eq] at hp2
        rw [← hs2]
        exact ⟨hmem2, hp2⟩

/-! ### C16: ConfirmPayment on an order that is not PENDING -/

/-- C16, as amended: for every non-empty order id and non-empty customer fields, if no order with
that id has status PENDING, ConfirmPayment fails with order-not-found-or-already-processed and the
store (every order, seat and lock) is unchanged. -/
theorem C16_ConfirmPayment_not_pending (s : Store) (input : ConfirmPaymentInput)
    (hid : input.OrderID ≠ "") (hn : input.CustomerName ≠ "") (he : input.CustomerEmail ≠ "")
    (hp : input.CustomerPhone ≠ "")
    (hnone : ∀ o ∈ s.orders, o.ID = input.OrderID → o.Status ≠ "PENDING") :
    ConfirmPayment s input = (s, .error "order not found or already processed") := by
  have hfind : s.orders.find?
      (fun o => decide (o.ID = input.OrderID) && decide (o.Status = "PENDING")) = none := by
    rw [List.find?_eq_none]
    intro o ho hc
    simp only [Bool.and_eq_true, decide_eq_true_eq] at hc
    exact hnone o ho hc.1 hc.2
  unfold ConfirmPayment
  rw [if_neg (by simp [hid, hn, he, hp])]
  simp only [hfind]

/-- Witness of C16 as amended: order `o-0` is already PAID. -/
theorem C16_ConfirmPayment_not_pending_witness :
    confirmO.OrderID ≠ "" ∧ confirmO.CustomerName ≠ "" ∧ confirmO.CustomerEmail ≠ "" ∧
      confirmO.CustomerPhone ≠ "" ∧
      (∀ o ∈ storePaid.orders, o.ID = confirmO.OrderID → o.Status ≠ "PENDING") ∧
      ConfirmPayment storePaid confirmO =
        (storePaid, .error "order not found or already processed") :=
  ⟨by decide, by decide, by decide, by decide, by decide,
   C16_ConfirmPayment_not_pending storePaid confirmO (by decide) (by decide) (by decide)
     (by decide) (by decide)⟩

/-- C16, counterexample: with an empty order id and non-empty customer fields no order with that id
is PENDING, yet ConfirmPayment fails with the required-fields error and not with
order-not-found-or-already-processed. -/
theorem C16_required_fields_error_first :
    confirmNoOrderID.CustomerName ≠ "" ∧ confirmNoOrderID.CustomerEmail ≠ "" ∧
      confirmNoOrderID.CustomerPhone ≠ "" ∧
      (∀ o ∈ store0.orders, o.ID = confirmNoOrderID.OrderID → o.Status ≠ "PENDING") ∧
      ConfirmPayment store0 confirmNoOrderID =
        (store0,
          .error "orderId, customerName, customerEmail, and customerPhone are required") ∧
      "orderId, customerName, customerEmail, and customerPhone are required" ≠
        "order not found or already processed" := by
  refine ⟨by decide, by decide, by decide, by decide, ?_, by decide⟩
  simp [ConfirmPayment, confirmNoOrderID]

/-! ### C17: the effect of ConfirmPayment -/

/-- C17: after a successful ConfirmPayment at time now, the order of the request (the returned
one, and every order row with that id) has status PENDING_CONFIRMATION, the customer name, email
and phone of the request and a null expiresAt; every seat row referenced by an item of the order
has status RESERVED, and every lock row on such a seat expires at now + 24 hours. -/
theorem C17_ConfirmPayment_effect (s s2 : Store) (input : ConfirmPaymentInput) (o : Order)
    (h : ConfirmPayment s input = (s2, .ok o)) :
    o ∈ s2.orders ∧ o.ID = input.OrderID ∧
      (∀ o1 ∈ s2.orders, o1.ID = input.OrderID →
        o1.Status = "PENDING_CONFIRMATION" ∧ o1.CustomerName = input.CustomerName ∧
          o1.CustomerEmail = input.CustomerEmail ∧ o1.CustomerPhone = input.CustomerPhone ∧
          o1.ExpiresAt = none) ∧
      (∀ it ∈ s2.order_items, it.OrderID = input.OrderID →
        (∀ st ∈ s2.seats, st.ID = it.SeatID → st.Status = "RESERVED") ∧
          (∀ l ∈ s2.seat_locks, l.SeatID = it.SeatID → l.ExpiresAt = s.now + 24 * 3600)) := by
  obtain ⟨_, _, hs2, hmem, hoid⟩ := ConfirmPayment_ok_fields s s2 input o h
  refine ⟨hmem, hoid, ?_, ?_⟩
  · intro o1 ho1 hid1
    rw [hs2] at ho1
    simp only at ho1
    obtain ⟨o0, _, rfl⟩ := List.mem_map.mp ho1
    by_cases hc : o0.ID = input.OrderID
    · simp [hc]
    · simp [hc] at hid1
  · intro it hit hitid
    rw [hs2] at hit
    simp only at hit
    have hin : it.SeatID ∈ (orderItems s input.OrderID).map (fun it => it.SeatID) := by
      apply List.mem_map.mpr
      exact ⟨it, by simp [orderItems, hit, hitid], rfl⟩
    constructor
    · intro st hst hstid
      rw [hs2] at hst
      simp only at hst
      obtain ⟨st0, _, rfl⟩ := List.mem_map.mp hst
      by_cases hc : st0.ID ∈ (orderItems s input.OrderID).map (fun it => it.SeatID)
      · rw [if_pos hc]
      · rw [if_neg hc] at hstid
        exact absurd (hstid ▸ hin) hc
    · intro l hl hlid
      rw [hs2] at hl
      simp only at hl
      obtain ⟨l0, _, rfl⟩ := List.mem_map.mp hl
      by_cases hc : l0.SeatID ∈ (orderItems s input.OrderID).map (fun it => it.SeatID)
      · rw [if_pos hc]
      · rw [if_neg hc] at hlid
        exact absurd (hlid ▸ hin) hc

theorem ConfirmPayment_sample :
    ConfirmPayment storeOrdered confirmO =
      ((ConfirmPayment storeOrdered confirmO).1, .ok orderOConfirmed) := by
  rfl

/-- Witness of C17: the customer of the PENDING order `o-0` (seats A and B) confirms. -/
theorem C17_ConfirmPayment_effect_witness :
    ConfirmPayment storeOrdered confirmO =
        ((ConfirmPayment storeOrdered confirmO).1, .ok orderOConfirmed) ∧
      orderOConfirmed ∈ (ConfirmPayment storeOrdered confirmO).1.orders ∧
      orderOConfirmed.ID = confirmO.OrderID :=
  ⟨ConfirmPayment_sample,
   (C17_ConfirmPayment_effect storeOrdered _ confirmO orderOConfirmed ConfirmPayment_sample).1,
   (C17_ConfirmPayment_effect storeOrdered _ confirmO orderOConfirmed ConfirmPayment_sample).2.1⟩

/-! ### The admin operations: what a call does -/

theorem foldl_finalize (status : String) (items : List OrderItem) :
    ∀ (tx : Store),
      items.foldl (fun tx item =>
          { tx with seats := setSeatStatus status tx.now item.SeatID tx.seats,
                    seat_locks := deleteSeatLocks item.SeatID tx.seat_locks })
          tx =
        Store.mk
          (tx.seats.map (fun st =>
            if st.ID ∈ items.map (fun it => it.SeatID) then
              { st with Status := status, UpdatedAt := tx.now }
            else st))
          (tx.seat_locks.filter (fun l => !decide (l.SeatID ∈ items.map (fun it => it.SeatID))))
          tx.orders tx.order_items tx.audit_logs tx.now := by
  induction items with
  | nil =>
    intro tx
    simp
  | cons a rest ih =>
    intro tx
    simp only [List.foldl_cons]
    rw [ih]
    simp only [setSeatStatus, deleteSeatLocks, List.map_map, List.filter_filter, List.map_cons,
      List.mem_cons]
    generalize rest.map (fun it => it.SeatID) = ids
    congr 1
    · apply List.map_congr_left
      intro st _
      by_cases h1 : st.ID = a.SeatID <;> by_cases h2 : st.ID ∈ ids <;> simp_all
    · apply List.filter_congr
      intro l _
      by_cases h1 : l.SeatID = a.SeatID <;> by_cases h2 : l.SeatID ∈ ids <;> simp_all

theorem find?_pc_none (s : Store) (orderID : String)
    (hnone : ∀ o ∈ s.orders, o.ID = orderID → o.Status ≠ "PENDING_CONFIRMATION") :
    s.orders.find? (fun o =>
      decide (o.ID = orderID) && decide (o.Status = "PENDING_CONFIRMATION")) = none := by
  rw [List.find?_eq_none]
  intro o ho hc
  simp only [Bool.and_eq_true, decide_eq_true_eq] at hc
  exact hnone o ho hc.1 hc.2

theorem find?_pc_some (s : Store) (orderID : String)
    (hex : ∃ o0 ∈ s.orders, o0.ID = orderID ∧ o0.Status = "PENDING_CONFIRMATION") :
    ∃ order, s.orders.find? (fun o =>
      decide (o.ID = orderID) && decide (o.Status = "PENDING_CONFIRMATION")) = some order := by
  cases hf : s.orders.find? (fun o =>
      decide (o.ID = orderID) && decide (o.Status = "PENDING_CONFIRMATION")) with
  | some order => exact ⟨order, rfl⟩
  | none =>
    exfalso
    obtain ⟨o0, hmem, h1, h2⟩ := hex
    rw [List.find?_eq_none] at hf
    exact hf o0 hmem (by simp [h1, h2])

theorem adminConfirmPayment_of_pc (H : String → String) (r : Rand) (s : Store)
    (orderID adminUserID : String)
    (hex : ∃ o0 ∈ s.orders, o0.ID = orderID ∧ o0.Status = "PENDING_CONFIRMATION") :
    ∃ o log, admin.ConfirmPayment H r s orderID adminUserID =
      (Store.mk
        (s.seats.map (fun st =>
          if st.ID ∈ (orderItems s orderID).map (fun it => it.SeatID) then
            { st with Status := "SOLD", UpdatedAt := s.now }
          else st))
        (s.seat_locks.filter (fun l =>
          !decide (l.SeatID ∈ (orderItems s orderID).map (fun it => it.SeatID))))
        (s.orders.map (fun o1 =>
          if o1.ID = orderID then
            { o1 with Status := "PAID", PaidAt := some s.now,
                      AccessTokenHash := some (H r.token), UpdatedAt := s.now }
          else o1))
        s.order_items (s.audit_logs ++ [log]) s.now, .ok o) := by
  obtain ⟨order, hf⟩ := find?_pc_some s orderID hex
  unfold admin.ConfirmPayment
  simp only [hf]
  rw [foldl_finalize]
  exact ⟨_, _, rfl⟩

theorem adminRejectPayment_of_pc (r : Rand) (s : Store) (orderID reason adminUserID : String)
    (hex : ∃ o0 ∈ s.orders, o0.ID = orderID ∧ o0.Status = "PENDING_CONFIRMATION") :
    ∃ log, admin.RejectPayment r s orderID reason adminUserID =
      (Store.mk
        (s.seats.map (fun st =>
          if st.ID ∈ (orderItems s orderID).map (fun it => it.SeatID) then
            { st with Status := "AVAILABLE", UpdatedAt := s.now }
          else st))
        (s.seat_locks.filter (fun l =>
          !decide (l.SeatID ∈ (orderItems s orderID).map (fun it => it.SeatID))))
        (s.orders.map (fun o1 =>
          if o1.ID = orderID then
            { o1 with Status := "CANCELLED", CancelledAt := some s.now,
                      CancellationReason := some reason, UpdatedAt := s.now }
          else o1))
        s.order_items (s.audit_logs ++ [log]) s.now, none) := by
  obtain ⟨order, hf⟩ := find?_pc_some s orderID hex
  unfold admin.RejectPayment
  simp only [hf]
  rw [foldl_finalize]
  exact ⟨_, rfl⟩

/-! ### C18: the admin operations on an order that is not PENDING_CONFIRMATION -/

/-- C18: if no order with the given id has status PENDING_CONFIRMATION (it is missing, PENDING,
PAID, CANCELLED or EXPIRED), admin.ConfirmPayment and admin.RejectPayment both fail with
order-not-found-or-not-pending-confirmation and return the store unchanged: no seat, lock row,
order or audit record is changed. -/
theorem C18_admin_not_pending_confirmation (H : String → String) (r1 r2 : Rand) (s : Store)
    (orderID reason adminUserID : String)
    (hnone : ∀ o ∈ s.orders, o.ID = orderID → o.Status ≠ "PENDING_CONFIRMATION") :
    admin.ConfirmPayment H r1 s orderID adminUserID =
        (s, .error "order not found or not pending confirmation") ∧
      admin.RejectPayment r2 s orderID reason adminUserID =
        (s, some "order not found or not pending confirmation") := by
  have hf := find?_pc_none s orderID hnone
  constructor
  · unfold admin.ConfirmPayment
    simp only [hf]
  · unfold admin.RejectPayment
    simp only [hf]

/-- Witness of C18: order `o-0` is already PAID. -/
theorem C18_admin_not_pending_confirmation_witness :
    (∀ o ∈ storePaid.orders, o.ID = "o-0" → o.Status ≠ "PENDING_CONFIRMATION") ∧
      admin.ConfirmPayment sampleHash (sampleRand "x") storePaid "o-0" "admin-1" =
        (storePaid, .error "order not found or not pending confirmation") ∧
      admin.RejectPayment (sampleRand "y") storePaid "o-0" "late" "admin-1" =
        (storePaid, some "order not found or not pending confirmation") :=
  ⟨by decide,
   C18_admin_not_pending_confirmation sampleHash (sampleRand "x") (sampleRand "y") storePaid "o-0"
     "late" "admin-1" (by decide)⟩

/-! ### C19, C20: from checkout to PAID or CANCELLED -/

theorem forall₂_exists {α β : Type} {R : α → β → Prop} {l1 : List α} {l2 : List β}
    (h : List.Forall₂ R l1 l2) : ∀ x ∈ l1, ∃ y ∈ l2, R x y := by
  induction h with
  | nil => intro x hx; cases hx
  | cons hab _ ih =>
    intro x hx
    rcases List.mem_cons.mp hx with rfl | hin
    · exact ⟨_, List.mem_cons_self _ _, hab⟩
    · obtain ⟨y, hy, hr⟩ := ih x hin
      exact ⟨y, List.mem_cons_of_mem _ hy, hr⟩

theorem getSeat_some (tx : Store) (seatID : String) (st : Seat) (h : getSeat tx seatID = some st) :
    st ∈ tx.seats ∧ st.ID = seatID := by
  unfold getSeat at h
  have hp := List.find?_some h
  simp only [decide_eq_true_eq] at hp
  exact ⟨List.mem_of_find?_eq_some h, hp⟩

theorem ConfirmPayment_order_status (s s2 : Store) (input : ConfirmPaymentInput) (o : Order)
    (h : ConfirmPayment s input = (s2, .ok o)) :
    ∀ o1 ∈ s2.orders, o1.ID = input.OrderID → o1.Status = "PENDING_CONFIRMATION" := by
  obtain ⟨_, _, hs2, _, _⟩ := ConfirmPayment_ok_fields s s2 input o h
  intro o1 ho1 hid1
  rw [hs2] at ho1
  simp only at ho1
  obtain ⟨o0, _, rfl⟩ := List.mem_map.mp ho1
  by_cases hc : o0.ID = input.OrderID
  · simp [hc]
  · simp [hc] at hid1

theorem created_then_confirmed (H : String → String) (r1 : Rand) (s s1 s2 : Store)
    (input : CreatePendingOrderInput) (resp : CreatePendingOrderResponse)
    (cin : ConfirmPaymentInput) (o2 : Order)
    (h1 : CreatePendingOrder H r1 s input = (s1, .ok resp)) (hc : cin.OrderID = resp.OrderID)
    (h2 : ConfirmPayment s1 cin = (s2, .ok o2)) :
    (∃ o0 ∈ s2.orders, o0.ID = resp.OrderID ∧ o0.Status = "PENDING_CONFIRMATION") ∧
      (∀ x ∈ input.SeatIDs, ∃ it ∈ s2.order_items, it.OrderID = resp.OrderID ∧ it.SeatID = x) ∧
      (∀ x ∈ input.SeatIDs, ∃ st ∈ s2.seats, st.ID = x) := by
  have hall := ConfirmPayment_order_status s1 s2 cin o2 h2
  obtain ⟨_, _, hs2, hmem, hoid⟩ := ConfirmPayment_ok_fields s1 s2 cin o2 h2
  obtain ⟨_, _, _, hresp, hseats, _, _, _, ⟨total, hp, _⟩, ⟨items, hitems, _, hf⟩⟩ :=
    CreatePendingOrder_ok_fields H r1 s s1 input resp h1
  obtain ⟨hex, _⟩ := sumPrices_ok s input.SeatIDs 0 total hp
  have hrid : resp.OrderID = r1.uuid 0 := by rw [hresp]
  refine ⟨⟨o2, hmem, hoid.trans hc, hall o2 hmem hoid⟩, ?_, ?_⟩
  · intro x hx
    obtain ⟨it, hit, h3, h4, _⟩ := forall₂_exists hf x hx
    refine ⟨it, ?_, h3.trans hrid.symm, h4⟩
    rw [hs2]
    simp only
    rw [hitems]
    exact List.mem_append_right _ hit
  · intro x hx
    obtain ⟨st, hst⟩ := hex x hx
    obtain ⟨hstmem, hstid⟩ := getSeat_some s x st hst
    rw [hs2]
    simp only
    rw [hseats]
    refine ⟨_, List.mem_map_of_mem _ hstmem, ?_⟩
    split <;> exact hstid

theorem finalized_seats (status : String) (now : Time) (ids : List String) (seats : List Seat)
    (locks : List SeatLock) (x : String) (hx : x ∈ ids) :
    (∀ st ∈ seats.map (fun st =>
        if st.ID ∈ ids then { st with Status := status, UpdatedAt := now } else st),
      st.ID = x → st.Status = status) ∧
    (∀ l ∈ locks.filter (fun l => !decide (l.SeatID ∈ ids)), l.SeatID ≠ x) := by
  constructor
  · intro st hst hid
    obtain ⟨st0, _, rfl⟩ := List.mem_map.mp hst
    by_cases hc : st0.ID ∈ ids
    · rw [if_pos hc]
    · rw [if_neg hc] at hid
      exact absurd (hid ▸ hx) hc
  · intro l hl hid
    simp only [List.mem_filter, Bool.not_eq_true', decide_eq_false_iff_not] at hl
    exact hl.2 (hid ▸ hx)

theorem seat_row_kept (status : String) (now : Time) (ids : List String) (seats : List Seat)
    (x : String) (h : ∃ st ∈ seats, st.ID = x) :
    ∃ st ∈ seats.map (fun st =>
        if st.ID ∈ ids then { st with Status := status, UpdatedAt := now } else st),
      st.ID = x := by
  obtain ⟨st, hmem, hid⟩ := h
  refine ⟨_, List.mem_map_of_mem _ hmem, ?_⟩
  split <;> exact hid

/-- C19: when CreatePendingOrder succeeds and ConfirmPayment on the resulting order succeeds,
admin.ConfirmPayment on that order succeeds and ends in a state where the order is PAID with
paidAt set, every requested seat has an item of the order and a seat row, every seat row of an
item of the order has status SOLD, and no lock row remains on any of those seats. -/
theorem C19_round_trip_paid (H : String → String) (r1 r3 : Rand) (s s1 s2 : Store)
    (input : CreatePendingOrderInput) (resp : CreatePendingOrderResponse)
    (cin : ConfirmPaymentInput) (o2 : Order) (adminUserID : String)
    (h1 : CreatePendingOrder H r1 s input = (s1, .ok resp)) (hc : cin.OrderID = resp.OrderID)
    (h2 : ConfirmPayment s1 cin = (s2, .ok o2)) :
    (∃ o3, (admin.ConfirmPayment H r3 s2 resp.OrderID adminUserID).2 = .ok o3) ∧
      (∃ o ∈ (admin.ConfirmPayment H r3 s2 resp.OrderID adminUserID).1.orders,
        o.ID = resp.OrderID) ∧
      (∀ o ∈ (admin.ConfirmPayment H r3 s2 resp.OrderID adminUserID).1.orders,
        o.ID = resp.OrderID → o.Status = "PAID" ∧ o.PaidAt = some s2.now) ∧
      (∀ x ∈ input.SeatIDs,
        (∃ it ∈ (admin.ConfirmPayment H r3 s2 resp.OrderID adminUserID).1.order_items,
          it.OrderID = resp.OrderID ∧ it.SeatID = x) ∧
        (∃ st ∈ (admin.ConfirmPayment H r3 s2 resp.OrderID adminUserID).1.seats, st.ID = x)) ∧
      (∀ it ∈ (admin.ConfirmPayment H r3 s2 resp.OrderID adminUserID).1.order_items,
        it.OrderID = resp.OrderID →
        (∀ st ∈ (admin.ConfirmPayment H r3 s2 resp.OrderID adminUserID).1.seats,
          st.ID = it.SeatID → st.Status = "SOLD") ∧
        (∀ l ∈ (admin.ConfirmPayment H r3 s2 resp.OrderID adminUserID).1.seat_locks,
          l.SeatID ≠ it.SeatID)) := by
  obtain ⟨hpc, hitems, hrows⟩ := created_then_confirmed H r1 s s1 s2 input resp cin o2 h1 hc h2
  obtain ⟨o3, log, heq⟩ := adminConfirmPayment_of_pc H r3 s2 resp.OrderID adminUserID hpc
  rw [heq]
  simp only
  refine ⟨⟨o3, rfl⟩, ?_, ?_, ?_, ?_⟩
  · obtain ⟨o0, hmem, hid, _⟩ := hpc
    refine ⟨_, List.mem_map_of_mem _ hmem, ?_⟩
    rw [if_pos hid]
    exact hid
  · intro o ho hid
    obtain ⟨o0, _, rfl⟩ := List.mem_map.mp ho
    by_cases hcase : o0.ID = resp.OrderID
    · simp [hcase]
    · simp [hcase] at hid
  · intro x hx
    exact ⟨hitems x hx, seat_row_kept "SOLD" s2.now _ s2.seats x (hrows x hx)⟩
  · intro it hit hid
    have hin : it.SeatID ∈ (orderItems s2 resp.OrderID).map (fun it => it.SeatID) := by
      apply List.mem_map.mpr
      exact ⟨it, by simp [orderItems, hit, hid], rfl⟩
    exact finalized_seats "SOLD" s2.now _ s2.seats s2.seat_locks it.SeatID hin

/-- Witness of C19: the sample order `o-0` of S1 for seats A and B, confirmed by the customer. -/
theorem C19_round_trip_paid_witness :
    CreatePendingOrder sampleHash (sampleRand "o") storeABLocked inputAB =
        (storeOrdered, .ok respO) ∧
      confirmO.OrderID = respO.OrderID ∧
      ConfirmPayment storeOrdered confirmO =
        ((ConfirmPayment storeOrdered confirmO).1, .ok orderOConfirmed) ∧
      ∃ o3, (admin.ConfirmPayment sampleHash (sampleRand "x")
        (ConfirmPayment storeOrdered confirmO).1 respO.OrderID "admin-1").2 = .ok o3 :=
  ⟨CreatePendingOrder_sample, rfl, ConfirmPayment_sample,
   (C19_round_trip_paid sampleHash (sampleRand "o") (sampleRand "x") storeABLocked storeOrdered
     _ inputAB respO confirmO orderOConfirmed "admin-1" CreatePendingOrder_sample rfl
     ConfirmPayment_sample).1⟩

/-- C20: when CreatePendingOrder succeeds and ConfirmPayment on the resulting order succeeds (the
order is then PENDING_CONFIRMATION), admin.RejectPayment on that order returns no error and ends
in a state where the order is CANCELLED with the given reason and cancelledAt set, every
requested seat has an item of the order and a seat row, every seat row of an item of the order
has status AVAILABLE, and no lock row remains on any of those seats. -/
theorem C20_reject_cancels (H : String → String) (r1 r3 : Rand) (s s1 s2 : Store)
    (input : CreatePendingOrderInput) (resp : CreatePendingOrderResponse)
    (cin : ConfirmPaymentInput) (o2 : Order) (reason adminUserID : String)
    (h1 : CreatePendingOrder H r1 s input = (s1, .ok resp)) (hc : cin.OrderID = resp.OrderID)
    (h2 : ConfirmPayment s1 cin = (s2, .ok o2)) :
    (admin.RejectPayment r3 s2 resp.OrderID reason adminUserID).2 = none ∧
      (∃ o ∈ (admin.RejectPayment r3 s2 resp.OrderID reason adminUserID).1.orders,
        o.ID = resp.OrderID) ∧
      (∀ o ∈ (admin.RejectPayment r3 s2 resp.OrderID reason adminUserID).1.orders,
        o.ID = resp.OrderID →
        o.Status = "CANCELLED" ∧ o.CancellationReason = some reason ∧
          o.CancelledAt = some s2.now) ∧
      (∀ x ∈ input.SeatIDs,
        (∃ it ∈ (admin.RejectPayment r3 s2 resp.OrderID reason adminUserID).1.order_items,
          it.OrderID = resp.OrderID ∧ it.SeatID = x) ∧
        (∃ st ∈ (admin.RejectPayment r3 s2 resp.OrderID reason adminUserID).1.seats,
          st.ID = x)) ∧
      (∀ it ∈ (admin.RejectPayment r3 s2 resp.OrderID reason adminUserID).1.order_items,
        it.OrderID = resp.OrderID →
        (∀ st ∈ (admin.RejectPayment r3 s2 resp.OrderID reason adminUserID).1.seats,
          st.ID = it.SeatID → st.Status = "AVAILABLE") ∧
        (∀ l ∈ (admin.RejectPayment r3 s2 resp.OrderID reason adminUserID).1.seat_locks,
          l.SeatID ≠ it.SeatID)) := by
  obtain ⟨hpc, hitems, hrows⟩ := created_then_confirmed H r1 s s1 s2 input resp cin o2 h1 hc h2
  obtain ⟨log, heq⟩ := adminRejectPayment_of_pc r3 s2 resp.OrderID reason adminUserID hpc
  rw [heq]
  simp only
  refine ⟨trivial, ?_, ?_, ?_, ?_⟩
  · obtain ⟨o0, hmem, hid, _⟩ := hpc
    refine ⟨_, List.mem_map_of_mem _ hmem, ?_⟩
    rw [if_pos hid]
    exact hid
  · intro o ho hid
    obtain ⟨o0, _, rfl⟩ := List.mem_map.mp ho
    by_cases hcase : o0.ID = resp.OrderID
    · simp [hcase]
    · simp [hcase] at hid
  · intro x hx
    exact ⟨hitems x hx, seat_row_kept "AVAILABLE" s2.now _ s2.seats x (hrows x hx)⟩
  · intro it hit hid
    have hin : it.SeatID ∈ (orderItems s2 resp.OrderID).map (fun it => it.SeatID) := by
      apply List.mem_map.mpr
      exact ⟨it, by simp [orderItems, hit, hid], rfl⟩
    exact finalized_seats "AVAILABLE" s2.now _ s2.seats s2.seat_locks it.SeatID hin

/-- Witness of C20: the sample order `o-0` of S1 for seats A and B, confirmed by the customer and
then rejected by staff. -/
theorem C20_reject_cancels_witness :
    CreatePendingOrder sampleHash (sampleRand "o") storeABLocked inputAB =
        (storeOrdered, .ok respO) ∧
      confirmO.OrderID = respO.OrderID ∧
      ConfirmPayment storeOrdered confirmO =
        ((ConfirmPayment storeOrdered confirmO).1, .ok orderOConfirmed) ∧
      (admin.RejectPayment (sampleRand "y") (ConfirmPayment storeOrdered confirmO).1
        respO.OrderID "no transfer received" "admin-1").2 = none :=
  ⟨CreatePendingOrder_sample, rfl, ConfirmPayment_sample,
   (C20_reject_cancels sampleHash (sampleRand "o") (sampleRand "y") storeABLocked storeOrdered
     _ inputAB respO confirmO orderOConfirmed "no transfer received" "admin-1"
     CreatePendingOrder_sample rfl ConfirmPayment_sample).1⟩

/-! ### ExpireOrders: what a call does -/

theorem expiredOrderIDs_eq (s : Store) :
    expiredOrderIDs s = (s.orders.filter (Order.stale s.now)).map (fun o => o.ID) := rfl

theorem releaseSeat_eq (now : Time) (a : String) (seats : List Seat) :
    releaseSeat now a seats = seats.map (releaseRow now [a]) := by
  unfold releaseSeat
  apply List.map_congr_left
  intro st _
  simp [releaseRow]

theorem releaseRow_append (now : Time) (xs ys : List String) (st : Seat) :
    releaseRow now ys (releaseRow now xs st) = releaseRow now (xs ++ ys) st := by
  unfold releaseRow
  by_cases hs : st.Status = "SOLD"
  · simp [hs]
  · by_cases hx : st.ID ∈ xs
    · simp [hs, hx]
    · by_cases hy : st.ID ∈ ys <;> simp [hs, hx, hy]

theorem releaseRow_ID (now : Time) (ids : List String) (st : Seat) :
    (releaseRow now ids st).ID = st.ID := by
  unfold releaseRow
  split <;> rfl

theorem expireItems_store (ids : List String) :
    ∀ (tx : Store) (n : Nat),
      (expireItems ids (tx, n)).1 =
        Store.mk (tx.seats.map (releaseRow tx.now ids))
          (tx.seat_locks.filter (fun l => !decide (l.SeatID ∈ ids)))
          tx.orders tx.order_items tx.audit_logs tx.now := by
  induction ids with
  | nil =>
    intro tx n
    have hid : releaseRow tx.now [] = id := by
      funext st
      simp [releaseRow]
    simp [expireItems, hid]
  | cons a rest ih =>
    intro tx n
    simp only [expireItems]
    rw [ih]
    simp only [releaseSeat_eq, deleteSeatLocks, List.map_map, List.filter_filter]
    congr 1
    · apply List.map_congr_left
      intro st _
      simp only [Function.comp]
      rw [releaseRow_append]
      rfl
    · apply List.filter_congr
      intro l _
      by_cases h1 : l.SeatID = a <;> by_cases h2 : l.SeatID ∈ rest <;> simp [h1, h2]

theorem expireItems_count_fst (ids : List String) (tx : Store) (n : Nat) :
    (expireItems ids (tx, n)).1.now = tx.now := by
  rw [expireItems_store]

theorem releaseRow_released (now : Time) (ids : List String) (st : Seat) :
    releaseRow now ids { st with Status := "AVAILABLE", UpdatedAt := now } =
      { st with Status := "AVAILABLE", UpdatedAt := now } := by
  unfold releaseRow
  split <;> rfl

theorem releaseRow_ne (now : Time) (ids : List String) (st : Seat)
    (h : releaseRow now ids st ≠ st) :
    releaseRow now ids st = { st with Status := "AVAILABLE", UpdatedAt := now } := by
  unfold releaseRow at h ⊢
  split
  · rfl
  · rename_i hc
    rw [if_neg hc] at h
    exact absurd rfl h

theorem changed_append_row (now : Time) (xs ys : List String) (st : Seat) :
    (if decide (releaseRow now (xs ++ ys) st ≠ st) = true then 1 else 0) =
      (if decide (releaseRow now xs st ≠ st) = true then 1 else 0) +
        (if decide (releaseRow now ys (releaseRow now xs st) ≠ releaseRow now xs st) = true then 1
         else 0) := by
  rw [← releaseRow_append]
  by_cases h : releaseRow now xs st = st
  · rw [h]
    simp
  · have hr := releaseRow_ne now xs st h
    rw [hr, releaseRow_released]
    rw [hr] at h
    simp [h]

theorem countP_changed_append (now : Time) (xs ys : List String) (seats : List Seat) :
    seats.countP (fun st => decide (releaseRow now (xs ++ ys) st ≠ st)) =
      seats.countP (fun st => decide (releaseRow now xs st ≠ st)) +
        (seats.map (releaseRow now xs)).countP (fun st => decide (releaseRow now ys st ≠ st)) := by
  induction seats with
  | nil => simp
  | cons a rest ih =>
    simp only [List.map_cons, List.countP_cons]
    rw [ih, changed_append_row now xs ys a]
    omega

theorem releaseAffected_eq (tx : Store) (a : String) :
    releaseAffected tx a =
      tx.seats.countP (fun st => decide (releaseRow tx.now [a] st ≠ st)) := by
  unfold releaseAffected
  rw [← List.countP_eq_length_filter]
  apply List.countP_congr
  intro st _
  obtain ⟨i, e, sn, ty, pr, stt, u⟩ := st
  unfold releaseRow
  by_cases h1 : i = a <;> by_cases h2 : stt = "SOLD" <;> by_cases h3 : stt = "AVAILABLE" <;>
    by_cases h4 : u = tx.now <;> simp [h1, h2, h3, h4] <;>
    first
    | exact fun h => h4 h.symm
    | exact fun h => h3 h.symm
    | exact Or.inl (fun h => h3 h.symm)

theorem releaseAffected_le_one (tx : Store) (a : String)
    (hpk : (tx.seats.map (fun st => st.ID)).Nodup) : releaseAffected tx a ≤ 1 := by
  unfold releaseAffected
  apply length_le_one_of_const (fun st : Seat => st.ID) a
  · exact hpk.sublist ((List.filter_sublist _).map _)
  · intro st hst
    simp only [List.mem_filter, Bool.and_eq_true, decide_eq_true_eq] at hst
    exact hst.2.1.1

theorem expireItems_count (ids : List String) :
    ∀ (tx : Store) (n : Nat), (tx.seats.map (fun st => st.ID)).Nodup →
      (expireItems ids (tx, n)).2 =
        n + tx.seats.countP (fun st => decide (releaseRow tx.now ids st ≠ st)) := by
  induction ids with
  | nil =>
    intro tx n _
    simp [expireItems, releaseRow]
  | cons a rest ih =>
    intro tx n hpk
    have hpk1 : ((releaseSeat tx.now a tx.seats).map (fun st => st.ID)).Nodup := by
      rw [releaseSeat_eq, List.map_map]
      have hfun : ((fun st : Seat => st.ID) ∘ releaseRow tx.now [a]) = fun st => st.ID := by
        funext st
        exact releaseRow_ID _ _ _
      rw [hfun]
      exact hpk
    simp only [expireItems]
    rw [ih _ _ hpk1]
    simp only
    have hle := releaseAffected_le_one tx a hpk
    have hsplit := countP_changed_append tx.now [a] rest tx.seats
    rw [List.singleton_append] at hsplit
    rw [hsplit, releaseSeat_eq, ← releaseAffected_eq]
    split <;> omega

theorem seatIDsOfOrders_cons (s : Store) (oid : String) (rest : List String) :
    seatIDsOfOrders s (oid :: rest) =
      (orderItems s oid).map (fun it => it.SeatID) ++ seatIDsOfOrders s rest := by
  simp [seatIDsOfOrders]

theorem seatIDsOfOrders_mk (seats : List Seat) (locks : List SeatLock) (orders : List Order)
    (items : List OrderItem) (logs : List AuditLog) (now : Time) (tx : Store)
    (oids : List String) (h : items = tx.order_items) :
    seatIDsOfOrders (Store.mk seats locks orders items logs now) oids =
      seatIDsOfOrders tx oids := by
  subst h
  rfl

theorem expireLoop_store (oids : List String) :
    ∀ (tx : Store) (e n : Nat),
      (expireLoop oids (tx, e, n)).1 =
        Store.mk (tx.seats.map (releaseRow tx.now (seatIDsOfOrders tx oids)))
          (tx.seat_locks.filter (fun l => !decide (l.SeatID ∈ seatIDsOfOrders tx oids)))
          (tx.orders.map (fun o =>
            if o.ID ∈ oids then { o with Status := "EXPIRED", UpdatedAt := tx.now } else o))
          tx.order_items tx.audit_logs tx.now := by
  induction oids with
  | nil =>
    intro tx e n
    have hid : releaseRow tx.now [] = id := by
      funext st
      simp [releaseRow]
    simp [expireLoop, seatIDsOfOrders, hid]
  | cons oid rest ih =>
    intro tx e n
    simp only [expireLoop]
    rw [ih]
    rw [expireItems_store]
    simp only
    rw [seatIDsOfOrders_mk _ _ _ _ _ _ tx rest rfl, seatIDsOfOrders_cons]
    generalize (orderItems tx oid).map (fun it => it.SeatID) = ids1
    generalize seatIDsOfOrders tx rest = ids2
    simp only [List.map_map, List.filter_filter]
    congr 1
    · apply List.map_congr_left
      intro st _
      simp only [Function.comp]
      exact releaseRow_append _ _ _ _
    · apply List.filter_congr
      intro l _
      by_cases h1 : l.SeatID ∈ ids1 <;> by_cases h2 : l.SeatID ∈ ids2 <;> simp [h1, h2]
    · apply List.map_congr_left
      intro o _
      by_cases h1 : o.ID = oid <;> by_cases h2 : o.ID ∈ rest <;> simp [h1, h2]

theorem expireLoop_expiredCount (oids : List String) :
    ∀ (tx : Store) (e n : Nat), (expireLoop oids (tx, e, n)).2.1 = e + oids.length := by
  induction oids with
  | nil => intro tx e n; rfl
  | cons oid rest ih =>
    intro tx e n
    simp only [expireLoop]
    rw [ih]
    simp only [List.length_cons]
    omega

theorem expireLoop_released (oids : List String) :
    ∀ (tx : Store) (e n : Nat), (tx.seats.map (fun st => st.ID)).Nodup →
      (expireLoop oids (tx, e, n)).2.2 =
        n + tx.seats.countP
          (fun st => decide (releaseRow tx.now (seatIDsOfOrders tx oids) st ≠ st)) := by
  induction oids with
  | nil =>
    intro tx e n _
    simp [expireLoop, seatIDsOfOrders, releaseRow]
  | cons oid rest ih =>
    intro tx e n hpk
    have hpk1 : ((tx.seats.map
        (releaseRow tx.now ((orderItems tx oid).map (fun it => it.SeatID)))).map
        (fun st => st.ID)).Nodup := by
      rw [List.map_map]
      have hfun : ((fun st : Seat => st.ID) ∘
          releaseRow tx.now ((orderItems tx oid).map (fun it => it.SeatID))) =
          fun st => st.ID := by
        funext st
        exact releaseRow_ID _ _ _
      rw [hfun]
      exact hpk
    simp only [expireLoop]
    rw [ih]
    · rw [expireItems_store, expireItems_count _ _ _ hpk]
      simp only
      rw [seatIDsOfOrders_mk _ _ _ _ _ _ tx rest rfl, seatIDsOfOrders_cons,
        countP_changed_append]
      omega
    · rw [expireItems_store]
      exact hpk1

theorem ExpireOrders_store (s : Store) :
    (ExpireOrders s).1 =
      Store.mk (s.seats.map (releaseRow s.now (seatIDsOfOrders s (expiredOrderIDs s))))
        (s.seat_locks.filter (fun l =>
          !decide (l.SeatID ∈ seatIDsOfOrders s (expiredOrderIDs s))))
        (s.orders.map (fun o =>
          if o.ID ∈ expiredOrderIDs s then { o with Status := "EXPIRED", UpdatedAt := s.now }
          else o))
        s.order_items s.audit_logs s.now := by
  unfold ExpireOrders
  simp only
  rw [expireLoop_store]

theorem mem_expiredOrderIDs (s : Store) (oid : String) :
    oid ∈ expiredOrderIDs s ↔ ∃ o ∈ s.orders, o.stale s.now = true ∧ o.ID = oid := by
  rw [expiredOrderIDs_eq]
  simp only [List.mem_map, List.mem_filter]
  constructor
  · rintro ⟨o, ⟨hmem, hst⟩, hid⟩
    exact ⟨o, hmem, hst, hid⟩
  · rintro ⟨o, hmem, hst, hid⟩
    exact ⟨o, ⟨hmem, hst⟩, hid⟩

theorem mem_seatIDsOfOrders (s : Store) (x : String) :
    x ∈ seatIDsOfOrders s (expiredOrderIDs s) ↔ seatOfStaleOrder s x := by
  unfold seatIDsOfOrders seatOfStaleOrder
  simp only [List.mem_flatMap, List.mem_map, orderItems, List.mem_filter, decide_eq_true_eq]
  constructor
  · rintro ⟨oid, hoid, it, ⟨hit, hitid⟩, hx⟩
    obtain ⟨o, hmem, hst, hid⟩ := (mem_expiredOrderIDs s oid).mp hoid
    exact ⟨o, hmem, hst, it, hit, hitid.trans hid.symm, hx⟩
  · rintro ⟨o, hmem, hst, it, hit, hitid, hx⟩
    exact ⟨o.ID, (mem_expiredOrderIDs s o.ID).mpr ⟨o, hmem, hst, rfl⟩, it, ⟨hit, hitid⟩, hx⟩

theorem countP_zip_map (f : Seat → Seat) (seats : List Seat) :
    (List.zip seats (seats.map f)).countP (fun p => decide (p.1 ≠ p.2)) =
      seats.countP (fun st => decide (f st ≠ st)) := by
  induction seats with
  | nil => rfl
  | cons a rest ih =>
    simp only [List.map_cons, List.zip_cons_cons, List.countP_cons, ih]
    by_cases h : f a = a
    · simp [h]
    · have h2 : ¬ a = f a := fun hc => h hc.symm
      simp [h, h2]

/-! ### C23: the effect of ExpireOrders -/

/-- C23: after ExpireOrders at time now (seat ids being the primary key of `seats`), every order
that was PENDING with a non-null expiresAt earlier than now has status EXPIRED; every seat row
referenced by an item of such an order is AVAILABLE if it was not SOLD and unchanged if it was
SOLD; no lock row remains on a seat of such an order; expiredOrders is the number of such orders
and releasedSeats is the number of seat rows that the call rewrote, each of them to AVAILABLE. -/
theorem C23_ExpireOrders_effect (s : Store) (hpk : (s.seats.map (fun st => st.ID)).Nodup) :
    List.Forall₂ (fun b a => b.stale s.now = true → a.Status = "EXPIRED")
        s.orders (ExpireOrders s).1.orders ∧
      List.Forall₂ (fun b a =>
          (a = b ∨ a = { b with Status := "AVAILABLE", UpdatedAt := s.now }) ∧
          (seatOfStaleOrder s b.ID →
            (b.Status ≠ "SOLD" → a.Status = "AVAILABLE") ∧ (b.Status = "SOLD" → a = b)))
        s.seats (ExpireOrders s).1.seats ∧
      (∀ l ∈ (ExpireOrders s).1.seat_locks, ¬ seatOfStaleOrder s l.SeatID) ∧
      (ExpireOrders s).2.ExpiredOrders = ((s.orders.filter (Order.stale s.now)).length : Nat) ∧
      (ExpireOrders s).2.ReleasedSeats =
        ((List.zip s.seats (ExpireOrders s).1.seats).countP (fun p => decide (p.1 ≠ p.2)) :
          Nat) := by
  rw [ExpireOrders_store]
  refine ⟨?_, ?_, ?_, ?_, ?_⟩
  · simp only
    rw [List.forall₂_map_right_iff, List.forall₂_same]
    intro o ho hst
    have hin : o.ID ∈ expiredOrderIDs s := (mem_expiredOrderIDs s o.ID).mpr ⟨o, ho, hst, rfl⟩
    rw [if_pos hin]
  · simp only
    rw [List.forall₂_map_right_iff, List.forall₂_same]
    intro st _
    unfold releaseRow
    refine ⟨?_, ?_⟩
    · split
      · exact Or.inr rfl
      · exact Or.inl rfl
    · intro hstale
      have hin := (mem_seatIDsOfOrders s st.ID).mpr hstale
      constructor
      · intro hns
        rw [if_pos ⟨hin, hns⟩]
      · intro hsold
        rw [if_neg (fun hc => hc.2 hsold)]
  · intro l hl hstale
    simp only [List.mem_filter, Bool.not_eq_true', decide_eq_false_iff_not] at hl
    exact hl.2 ((mem_seatIDsOfOrders s l.SeatID).mpr hstale)
  · unfold ExpireOrders
    simp only
    rw [expireLoop_expiredCount, expiredOrderIDs_eq]
    simp
  · simp only
    rw [countP_zip_map]
    unfold ExpireOrders
    simp only
    rw [expireLoop_released _ _ _ _ hpk]
    simp

/-- Witness of C23: seats A and B are in the never-confirmed order `o-0` whose deadline (900) has
passed at second 901; ExpireOrders leaves the order EXPIRED, A and B AVAILABLE and no lock, and
returns 1 expired order and 2 released seats. -/
theorem C23_ExpireOrders_effect_witness :
    (storeOrderedLate.seats.map (fun st => st.ID)).Nodup ∧
      (ExpireOrders storeOrderedLate).1.orders.map (fun o => (o.ID, o.Status)) =
        [("o-0", "EXPIRED")] ∧
      (ExpireOrders storeOrderedLate).1.seats.map (fun st => (st.ID, st.Status)) =
        [("A", "AVAILABLE"), ("B", "AVAILABLE")] ∧
      (ExpireOrders storeOrderedLate).1.seat_locks = [] ∧
      (ExpireOrders storeOrderedLate).2 =
        { ExpiredOrders := 1, CleanedLocks := 0, ReleasedSeats := 2 } ∧
      (ExpireOrders storeOrderedLate).2.ReleasedSeats =
        ((List.zip storeOrderedLate.seats (ExpireOrders storeOrderedLate).1.seats).countP
          (fun p => decide (p.1 ≠ p.2)) : Nat) :=
  ⟨by decide, by decide, by decide, by decide, by decide,
   (C23_ExpireOrders_effect storeOrderedLate (by decide)).2.2.2.2⟩

/-! ### C24: ExpireOrders twice -/

theorem expiredOrderIDs_after (s : Store) : expiredOrderIDs (ExpireOrders s).1 = [] := by
  rw [ExpireOrders_store, expiredOrderIDs_eq]
  simp only
  rw [List.map_eq_nil_iff, List.filter_eq_nil_iff]
  intro o2 ho2
  obtain ⟨o, ho, rfl⟩ := List.mem_map.mp ho2
  by_cases hin : o.ID ∈ expiredOrderIDs s
  · rw [if_pos hin]
    simp [Order.stale]
  · rw [if_neg hin]
    intro hst
    exact hin ((mem_expiredOrderIDs s o.ID).mpr ⟨o, ho, hst, rfl⟩)

theorem ExpireOrders_of_nil (s : Store) (h : expiredOrderIDs s = []) :
    ExpireOrders s = (s, { ExpiredOrders := 0, CleanedLocks := 0, ReleasedSeats := 0 }) := by
  unfold ExpireOrders
  rw [h]
  rfl

/-- C24: running ExpireOrders a second time at the same clock value leaves the store as the first
run left it and returns zero expired orders and zero released seats. -/
theorem C24_ExpireOrders_idempotent (s : Store) :
    (ExpireOrders (ExpireOrders s).1).1 = (ExpireOrders s).1 ∧
      (ExpireOrders (ExpireOrders s).1).2 =
        { ExpiredOrders := 0, CleanedLocks := 0, ReleasedSeats := 0 } := by
  have hrun := ExpireOrders_of_nil (ExpireOrders s).1 (expiredOrderIDs_after s)
  rw [hrun]
  exact ⟨rfl, rfl⟩

/-! ### C30: what ExpireOrders leaves alone -/

/-- C30: ExpireOrders (order ids being the primary key of `orders`) leaves unchanged every order
that is not PENDING with a non-null expiresAt earlier than now, every seat row that no item of
such an order references, and every lock row on a seat that no item of such an order references;
it adds no lock row and changes no order item. -/
theorem C30_ExpireOrders_frame (s : Store) (hpk : (s.orders.map (fun o => o.ID)).Nodup) :
    List.Forall₂ (fun b a => b.stale s.now = false → a = b) s.orders (ExpireOrders s).1.orders ∧
      List.Forall₂ (fun b a => ¬ seatOfStaleOrder s b.ID → a = b)
        s.seats (ExpireOrders s).1.seats ∧
      (ExpireOrders s).1.seat_locks.Sublist s.seat_locks ∧
      (∀ l ∈ s.seat_locks, ¬ seatOfStaleOrder s l.SeatID → l ∈ (ExpireOrders s).1.seat_locks) ∧
      (ExpireOrders s).1.order_items = s.order_items := by
  rw [ExpireOrders_store]
  refine ⟨?_, ?_, List.filter_sublist _, ?_, rfl⟩
  · simp only
    rw [List.forall₂_map_right_iff, List.forall₂_same]
    intro o ho hst
    have hnot : o.ID ∉ expiredOrderIDs s := by
      intro hin
      obtain ⟨o2, ho2, hst2, hid⟩ := (mem_expiredOrderIDs s o.ID).mp hin
      have heq : o2 = o := List.inj_on_of_nodup_map hpk ho2 ho hid
      rw [heq, hst] at hst2
      cases hst2
    rw [if_neg hnot]
  · simp only
    rw [List.forall₂_map_right_iff, List.forall₂_same]
    intro st _ hns
    unfold releaseRow
    rw [if_neg (fun hc => hns ((mem_seatIDsOfOrders s st.ID).mp hc.1))]
  · intro l hl hns
    simp only [List.mem_filter, Bool.not_eq_true', decide_eq_false_iff_not]
    exact ⟨hl, fun hc => hns ((mem_seatIDsOfOrders s l.SeatID).mp hc)⟩

/-- Witness of C30: at second 1000 order `o-0` is stale and order `p-0` is not; `p-0` keeps all its
fields. -/
theorem C30_ExpireOrders_frame_witness :
    (storeTwoPendingLate.orders.map (fun o => o.ID)).Nodup ∧
      storeTwoPendingLate.orders.map (fun o => (o.ID, o.stale storeTwoPendingLate.now)) =
        [("o-0", true), ("p-0", false)] ∧
      List.Forall₂ (fun b a => b.stale storeTwoPendingLate.now = false → a = b)
        storeTwoPendingLate.orders (ExpireOrders storeTwoPendingLate).1.orders :=
  ⟨by decide, by decide, (C30_ExpireOrders_frame storeTwoPendingLate (by decide)).1⟩

/-! ### C25, C26: CleanupLocks -/

/-- C25: CleanupLocks keeps exactly the lock rows whose expiresAt is not earlier than now, each
unchanged and in place (so every row expiring later than now is kept and every row expiring earlier
is removed), returns the number of removed rows as cleanedLocks, and changes no seat, order, order
item or audit record. -/
theorem C25_CleanupLocks_effect (s : Store) :
    (CleanupLocks s).1.seat_locks.Sublist s.seat_locks ∧
      (∀ l ∈ s.seat_locks, l ∈ (CleanupLocks s).1.seat_locks ↔ ¬ l.ExpiresAt < s.now) ∧
      (∀ l ∈ (CleanupLocks s).1.seat_locks, ¬ l.ExpiresAt < s.now) ∧
      (∀ l ∈ s.seat_locks, l.ExpiresAt > s.now → l ∈ (CleanupLocks s).1.seat_locks) ∧
      (CleanupLocks s).2.CleanedLocks =
        ((s.seat_locks.filter (fun l => decide (l.ExpiresAt < s.now))).length : Nat) ∧
      (CleanupLocks s).1.seats = s.seats ∧ (CleanupLocks s).1.orders = s.orders ∧
      (CleanupLocks s).1.order_items = s.order_items ∧
      (CleanupLocks s).1.audit_logs = s.audit_logs ∧ (CleanupLocks s).1.now = s.now := by
  unfold CleanupLocks
  simp only
  refine ⟨List.filter_sublist _, ?_, ?_, ?_, ?_, trivial, trivial, trivial, trivial, trivial⟩
  · intro l hl
    simp [List.mem_filter, hl]
  · intro l hl
    simp only [List.mem_filter, Bool.not_eq_true', decide_eq_false_iff_not] at hl
    exact hl.2
  · intro l hl hgt
    simp only [List.mem_filter, Bool.not_eq_true', decide_eq_false_iff_not]
    exact ⟨hl, fun hlt => absurd hgt (not_lt.mpr (le_of_lt hlt))⟩
  · have hlen := List.length_eq_countP_add_countP (fun l : SeatLock => decide (l.ExpiresAt < s.now))
      s.seat_locks
    have h1 : (s.seat_locks.filter (fun l => !decide (l.ExpiresAt < s.now))).length =
        s.seat_locks.countP (fun a => decide ¬(decide (a.ExpiresAt < s.now)) = true) := by
      rw [List.countP_eq_length_filter]
      congr 1
      apply List.filter_congr
      intro l _
      by_cases h : l.ExpiresAt < s.now <;> simp [h]
    rw [List.countP_eq_length_filter] at hlen
    congr 1
    omega

/-- C26: running CleanupLocks a second time at the same clock value reports zero cleaned locks and
leaves the store as the first run left it. -/
theorem C26_CleanupLocks_idempotent (s : Store) :
    (CleanupLocks (CleanupLocks s).1).1 = (CleanupLocks s).1 ∧
      (CleanupLocks (CleanupLocks s).1).2.CleanedLocks = 0 := by
  have hff : (s.seat_locks.filter (fun l => !decide (l.ExpiresAt < s.now))).filter
      (fun l => !decide (l.ExpiresAt < s.now)) =
      s.seat_locks.filter (fun l => !decide (l.ExpiresAt < s.now)) := by
    rw [List.filter_filter]
    apply List.filter_congr
    intro l _
    simp
  unfold CleanupLocks
  simp only
  rw [hff]
  simp

/-! ### C29: the lock manager and the durable tables -/

theorem lockLoop_frame (k : LockKey) (eventID sessionID : String) (tt : Option String) (t : Time)
    (uuid : Nat → String) (seatIDs : List String) :
    ∀ (i : Nat) (tx tx2 : Store),
      lockLoop k eventID sessionID tt t uuid i seatIDs tx = .ok tx2 →
      tx2.seats = tx.seats ∧ tx2.orders = tx.orders ∧ tx2.order_items = tx.order_items ∧
        tx2.audit_logs = tx.audit_logs ∧ tx2.now = tx.now := by
  induction seatIDs with
  | nil =>
    intro i tx tx2 hrun
    simp only [lockLoop, Except.ok.injEq] at hrun
    subst hrun
    exact ⟨rfl, rfl, rfl, rfl, rfl⟩
  | cons a rest ih =>
    intro i tx tx2 hrun
    simp only [lockLoop] at hrun
    split at hrun
    · cases hrun
    · split at hrun
      · cases hrun
      · split at hrun
        · cases hrun
        · have hrest := ih _ _ _ hrun
          exact hrest

theorem LockSeats_frame (k : LockKey) (cfg : Config) (uuid : Nat → String) (s : Store)
    (eventID : String) (seatIDs : List String) (sessionID : String) (tt : Option String) :
    (LockSeats k cfg uuid s eventID seatIDs sessionID tt).1.seats = s.seats ∧
      (LockSeats k cfg uuid s eventID seatIDs sessionID tt).1.orders = s.orders ∧
      (LockSeats k cfg uuid s eventID seatIDs sessionID tt).1.order_items = s.order_items := by
  unfold LockSeats
  by_cases hlen : seatIDs.length = 0
  · simp [hlen]
  · simp only [hlen, if_false]
    cases hrun : lockLoop k eventID sessionID tt (s.now + cfg.SeatLockTTL) uuid 0 seatIDs s with
    | error e => exact ⟨rfl, rfl, rfl⟩
    | ok tx2 =>
      obtain ⟨h1, h2, h3, _, _⟩ := lockLoop_frame k eventID sessionID tt _ uuid seatIDs 0 s tx2 hrun
      exact ⟨h1, h2, h3⟩

/-- C29: LockSeats, UnlockSeats and ExtendSeatLock leave every seat row, every order and every
order item unchanged, for every store and every argument list, whether they succeed or fail
(GetSessionLocks is a query: it returns rows and has no store to return). -/
theorem C29_lock_manager_frame (k : LockKey) (cfg : Config) (uuid : Nat → String) (s : Store)
    (eventID : String) (seatIDs : List String) (sessionID : String) (tt : Option String)
    (durationMinutes : Int) :
    ((LockSeats k cfg uuid s eventID seatIDs sessionID tt).1.seats = s.seats ∧
        (LockSeats k cfg uuid s eventID seatIDs sessionID tt).1.orders = s.orders ∧
        (LockSeats k cfg uuid s eventID seatIDs sessionID tt).1.order_items = s.order_items) ∧
      ((UnlockSeats s eventID seatIDs sessionID).1.seats = s.seats ∧
        (UnlockSeats s eventID seatIDs sessionID).1.orders = s.orders ∧
        (UnlockSeats s eventID seatIDs sessionID).1.order_items = s.order_items) ∧
      ((ExtendSeatLock s eventID sessionID seatIDs durationMinutes).1.seats = s.seats ∧
        (ExtendSeatLock s eventID sessionID seatIDs durationMinutes).1.orders = s.orders ∧
        (ExtendSeatLock s eventID sessionID seatIDs durationMinutes).1.order_items =
          s.order_items) ∧
      (GetSessionLocks s eventID sessionID).Sublist s.seat_locks := by
  refine ⟨LockSeats_frame k cfg uuid s eventID seatIDs sessionID tt, ?_, ?_, ?_⟩
  · rw [UnlockSeats_eq]
    exact ⟨rfl, rfl, rfl⟩
  · rw [ExtendSeatLock_eq]
    exact ⟨rfl, rfl, rfl⟩
  · exact List.filter_sublist _

/-! ### C28: ConfirmPayment after the order's deadline -/

/-- C28: ConfirmPayment does not look at the order's expiresAt or at the clock: for every order
row with status PENDING (and a non-empty id, as every generated id is) and every request for that
id with non-empty customer fields, ConfirmPayment succeeds and every order row with that id,
this one included, has status PENDING_CONFIRMATION afterwards. -/
theorem C28_ConfirmPayment_ignores_deadline (s : Store) (o : Order) (input : ConfirmPaymentInput)
    (hmem : o ∈ s.orders) (hst : o.Status = "PENDING") (hid : input.OrderID = o.ID)
    (hne : o.ID ≠ "") (hn : input.CustomerName ≠ "") (he : input.CustomerEmail ≠ "")
    (hp : input.CustomerPhone ≠ "") :
    ∃ s2 o2, ConfirmPayment s input = (s2, .ok o2) ∧
      (∃ o1 ∈ s2.orders, o1.ID = o.ID) ∧
      (∀ o1 ∈ s2.orders, o1.ID = o.ID → o1.Status = "PENDING_CONFIRMATION") := by
  have hrun : ∃ s2 o2, ConfirmPayment s input = (s2, .ok o2) := by
    cases hf : s.orders.find?
        (fun o1 => decide (o1.ID = input.OrderID) && decide (o1.Status = "PENDING")) with
    | none =>
      exfalso
      rw [List.find?_eq_none] at hf
      exact hf o hmem (by simp [hid, hst])
    | some order =>
      unfold ConfirmPayment
      rw [if_neg (by simp [hid, hne, hn, he, hp])]
      simp only [hf]
      exact ⟨_, _, rfl⟩
  obtain ⟨s2, o2, h⟩ := hrun
  obtain ⟨_, _, _, hmem2, hoid2⟩ := ConfirmPayment_ok_fields s s2 input o2 h
  refine ⟨s2, o2, h, ⟨o2, hmem2, hoid2.trans hid⟩, ?_⟩
  intro o1 ho1 hid1
  exact ConfirmPayment_order_status s s2 input o2 h o1 ho1 (hid1.trans hid.symm)

/-- Witness of C28: at second 901 the deadline (900) of the PENDING order `o-0` has passed and
ExpireOrders has not run; the customer's confirmation still succeeds. -/
theorem C28_ConfirmPayment_ignores_deadline_witness :
    storeOrderedLate.orders.map (fun o => (o.ID, o.Status, o.ExpiresAt)) =
        [("o-0", "PENDING", some 900)] ∧
      storeOrderedLate.now = 901 ∧
      ∃ s2 o2, ConfirmPayment storeOrderedLate confirmO = (s2, .ok o2) ∧
        (∃ o1 ∈ s2.orders, o1.ID = "o-0") ∧
        (∀ o1 ∈ s2.orders, o1.ID = "o-0" → o1.Status = "PENDING_CONFIRMATION") :=
  ⟨by decide, rfl,
   C28_ConfirmPayment_ignores_deadline storeOrderedLate
     (Order.mk "o-0" "TDX-20260101-o" "E" "" "" "" (0 + 100 + 50) "PENDING" (some 900) none none
       none (some "sha256:token-o") 0 0)
     confirmO (by simp [storeOrderedLate, storeOrdered, CreatePendingOrder, inputAB, sampleRand,
       sampleUUID, sampleHash, GenerateAccessToken, storeABLocked, LockSeats, lockLoop, store0,
       getSeatInEvent, getOtherLock, upsertLock, LockKey.dup, seatA, seatB, verifyLocks,
       getOwnLock, cfg600, sumPrices, getSeat, insertItems])
     rfl rfl (by decide) (by decide) (by decide) (by decide)⟩

/-! ### C22: SOLD seats -/

/-- C22, evaluated at the failing inputs under either unique index of `seat_locks`: from the
fresh store `store0`, after the run `opsSoldWhilePending` seat B is SOLD and ConfirmPayment for
order `p-0` turns it to RESERVED; after the run `opsSoldWhileConfirming` seat B is SOLD and
admin.RejectPayment for order `p-0` turns it to AVAILABLE. -/
theorem C22_sold_seat_leaves_sold (k : LockKey) :
    store0.fresh ∧
      (run k cfg600 sampleHash store0 opsSoldWhilePending).seats.map
        (fun st => (st.ID, st.Status)) = [("A", "SOLD"), ("B", "SOLD")] ∧
      (ConfirmPayment (run k cfg600 sampleHash store0 opsSoldWhilePending) confirmP).1.seats.map
        (fun st => (st.ID, st.Status)) = [("A", "SOLD"), ("B", "RESERVED")] ∧
      (run k cfg600 sampleHash store0 opsSoldWhileConfirming).seats.map
        (fun st => (st.ID, st.Status)) = [("A", "SOLD"), ("B", "SOLD")] ∧
      (admin.RejectPayment (sampleRand "y")
        (run k cfg600 sampleHash store0 opsSoldWhileConfirming) "p-0" "no transfer"
        "admin-1").1.seats.map (fun st => (st.ID, st.Status)) =
        [("A", "SOLD"), ("B", "AVAILABLE")] := by
  cases k <;> refine ⟨store0_fresh, ?_, ?_, ?_, ?_⟩ <;> decide

/-! ### C21: the order state machine -/

theorem forall₂_map_self {α : Type} {R : α → α → Prop} (f : α → α) (l : List α)
    (h : ∀ x ∈ l, R x (f x)) : List.Forall₂ R l (l.map f) := by
  rw [List.forall₂_map_right_iff, List.forall₂_same]
  exact h

theorem forall₂_self {α : Type} {R : α → α → Prop} (l : List α) (h : ∀ x, R x x) :
    List.Forall₂ R l l := by
  rw [List.forall₂_same]
  exact fun x _ => h x

theorem CreatePendingOrder_orders (H : String → String) (r : Rand) (s : Store)
    (input : CreatePendingOrderInput) :
    ∃ added, (CreatePendingOrder H r s input).1.orders = s.orders ++ added := by
  unfold CreatePendingOrder
  split
  · exact ⟨[], by simp⟩
  · split
    · exact ⟨[], by simp⟩
    · split
      · exact ⟨[], by simp⟩
      · split
        · exact ⟨[], by simp⟩
        · simp only
          rw [(insertItems_spec _ _ _ _ _).2.1]
          exact ⟨_, rfl⟩

theorem ConfirmPayment_orders (s : Store) (input : ConfirmPaymentInput) :
    (ConfirmPayment s input).1.orders = s.orders ∨
      ((∃ o0 ∈ s.orders, o0.ID = input.OrderID ∧ o0.Status = "PENDING") ∧
        (ConfirmPayment s input).1.orders = s.orders.map (fun o1 =>
          if o1.ID = input.OrderID then
            { o1 with Status := "PENDING_CONFIRMATION", CustomerName := input.CustomerName,
                      CustomerEmail := input.CustomerEmail, CustomerPhone := input.CustomerPhone,
                      ExpiresAt := none, UpdatedAt := s.now }
          else o1)) := by
  unfold ConfirmPayment
  split
  · exact Or.inl rfl
  · split
    · exact Or.inl rfl
    · rename_i order hfind
      right
      have hmem := List.mem_of_find?_eq_some hfind
      have hp := List.find?_some hfind
      simp only [Bool.and_eq_true, decide_eq_true_eq] at hp
      refine ⟨⟨order, hmem, hp.1, hp.2⟩, ?_⟩
      simp only
      rw [foldl_confirm]

theorem adminConfirmPayment_orders (H : String → String) (r : Rand) (s : Store)
    (orderID adminUserID : String) :
    (admin.ConfirmPayment H r s orderID adminUserID).1.orders = s.orders ∨
      ((∃ o0 ∈ s.orders, o0.ID = orderID ∧ o0.Status = "PENDING_CONFIRMATION") ∧
        (admin.ConfirmPayment H r s orderID adminUserID).1.orders = s.orders.map (fun o1 =>
          if o1.ID = orderID then
            { o1 with Status := "PAID", PaidAt := some s.now,
                      AccessTokenHash := some (H r.token), UpdatedAt := s.now }
          else o1)) := by
  by_cases hex : ∃ o0 ∈ s.orders, o0.ID = orderID ∧ o0.Status = "PENDING_CONFIRMATION"
  · obtain ⟨o, log, heq⟩ := adminConfirmPayment_of_pc H r s orderID adminUserID hex
    rw [heq]
    exact Or.inr ⟨hex, rfl⟩
  · left
    have hf := find?_pc_none s orderID (fun o ho hid hst => hex ⟨o, ho, hid, hst⟩)
    unfold admin.ConfirmPayment
    simp only [hf]

theorem adminRejectPayment_orders (r : Rand) (s : Store) (orderID reason adminUserID : String) :
    (admin.RejectPayment r s orderID reason adminUserID).1.orders = s.orders ∨
      ((∃ o0 ∈ s.orders, o0.ID = orderID ∧ o0.Status = "PENDING_CONFIRMATION") ∧
        (admin.RejectPayment r s orderID reason adminUserID).1.orders = s.orders.map (fun o1 =>
          if o1.ID = orderID then
            { o1 with Status := "CANCELLED", CancelledAt := some s.now,
                      CancellationReason := some reason, UpdatedAt := s.now }
          else o1)) := by
  by_cases hex : ∃ o0 ∈ s.orders, o0.ID = orderID ∧ o0.Status = "PENDING_CONFIRMATION"
  · obtain ⟨log, heq⟩ := adminRejectPayment_of_pc r s orderID reason adminUserID hex
    rw [heq]
    exact Or.inr ⟨hex, rfl⟩
  · left
    have hf := find?_pc_none s orderID (fun o ho hid hst => hex ⟨o, ho, hid, hst⟩)
    unfold admin.RejectPayment
    simp only [hf]

theorem status_of_pk (s : Store) (hpk : (s.orders.map (fun o => o.ID)).Nodup) (orderID st : String)
    (hex : ∃ o0 ∈ s.orders, o0.ID = orderID ∧ o0.Status = st) (o : Order) (ho : o ∈ s.orders)
    (hid : o.ID = orderID) : o.Status = st := by
  obtain ⟨o0, ho0, hid0, hst0⟩ := hex
  have heq : o = o0 := List.inj_on_of_nodup_map hpk ho ho0 (hid.trans hid0.symm)
  rw [heq]
  exact hst0

theorem statusStep_terminal (op : Op) (before after : String) (h : statusStep op before after)
    (hb : before = "PAID" ∨ before = "CANCELLED" ∨ before = "EXPIRED") : after = before := by
  cases op <;> simp only [statusStep] at h <;>
  first
  | exact h
  | (rcases h with h | ⟨h1, _⟩
     · exact h
     · subst h1
       simp at hb)

theorem stale_status (now : Time) (o : Order) (h : o.stale now = true) : o.Status = "PENDING" := by
  unfold Order.stale at h
  simp only [Bool.and_eq_true, decide_eq_true_eq] at h
  exact h.1

/-- C21: for every core operation (and clock advance) on a store in which order ids are unique,
the orders after the operation are the orders before it, in place and with the same ids, followed
by the orders the operation created; the status of each existing order is unchanged or makes one
of the steps PENDING to PENDING_CONFIRMATION (ConfirmPayment only), PENDING_CONFIRMATION to PAID
(admin.ConfirmPayment only), PENDING_CONFIRMATION to CANCELLED (admin.RejectPayment only), PENDING
to EXPIRED (ExpireOrders only); an order that is PAID, CANCELLED or EXPIRED keeps its status, and
no order is deleted. -/
theorem C21_order_state_machine (k : LockKey) (cfg : Config) (H : String → String) (s : Store)
    (op : Op) (hpk : (s.orders.map (fun o => o.ID)).Nodup) :
    ∃ kept added, (step k cfg H s op).orders = kept ++ added ∧
      List.Forall₂ (fun b a => a.ID = b.ID ∧ statusStep op b.Status a.Status ∧
        ((b.Status = "PAID" ∨ b.Status = "CANCELLED" ∨ b.Status = "EXPIRED") →
          a.Status = b.Status)) s.orders kept := by
  have hsame : ∀ (op : Op), (∀ x : String, statusStep op x x) →
      List.Forall₂ (fun b a => a.ID = b.ID ∧ statusStep op b.Status a.Status ∧
        ((b.Status = "PAID" ∨ b.Status = "CANCELLED" ∨ b.Status = "EXPIRED") →
          a.Status = b.Status)) s.orders s.orders :=
    fun op hrefl => forall₂_self _ (fun o => ⟨rfl, hrefl _, fun _ => rfl⟩)
  cases op with
  | lockSeats uuid e ids sid tt =>
    refine ⟨s.orders, [], ?_, hsame _ (fun x => by simp [statusStep])⟩
    simp [step, (LockSeats_frame k cfg uuid s e ids sid tt).2.1]
  | unlockSeats e ids sid =>
    refine ⟨s.orders, [], ?_, hsame _ (fun x => by simp [statusStep])⟩
    simp [step, UnlockSeats_eq]
  | extendSeatLock e sid ids d =>
    refine ⟨s.orders, [], ?_, hsame _ (fun x => by simp [statusStep])⟩
    simp [step, ExtendSeatLock_eq]
  | createPendingOrder r input =>
    obtain ⟨added, h⟩ := CreatePendingOrder_orders H r s input
    exact ⟨s.orders, added, h, hsame _ (fun x => by simp [statusStep])⟩
  | confirmPayment input =>
    rcases ConfirmPayment_orders s input with h | ⟨hex, h⟩
    · refine ⟨s.orders, [], ?_, hsame _ (fun x => by simp [statusStep])⟩
      simp [step, h]
    · refine ⟨_, [], (by simp only [step, List.append_nil]; exact h), ?_⟩
      apply forall₂_map_self
      intro o ho
      by_cases hid : o.ID = input.OrderID
      · have hst := status_of_pk s hpk input.OrderID "PENDING" hex o ho hid
        rw [if_pos hid]
        refine ⟨rfl, ?_, ?_⟩
        · simp [statusStep, hst]
        · intro ht
          rw [hst] at ht
          simp at ht
      · rw [if_neg hid]
        exact ⟨rfl, by simp [statusStep], fun _ => rfl⟩
  | adminConfirmPayment r orderID adminUserID =>
    rcases adminConfirmPayment_orders H r s orderID adminUserID with h | ⟨hex, h⟩
    · refine ⟨s.orders, [], ?_, hsame _ (fun x => by simp [statusStep])⟩
      simp [step, h]
    · refine ⟨_, [], (by simp only [step, List.append_nil]; exact h), ?_⟩
      apply forall₂_map_self
      intro o ho
      by_cases hid : o.ID = orderID
      · have hst := status_of_pk s hpk orderID "PENDING_CONFIRMATION" hex o ho hid
        rw [if_pos hid]
        refine ⟨rfl, ?_, ?_⟩
        · simp [statusStep, hst]
        · intro ht
          rw [hst] at ht
          simp at ht
      · rw [if_neg hid]
        exact ⟨rfl, by simp [statusStep], fun _ => rfl⟩
  | adminRejectPayment r orderID reason adminUserID =>
    rcases adminRejectPayment_orders r s orderID reason adminUserID with h | ⟨hex, h⟩
    · refine ⟨s.orders, [], ?_, hsame _ (fun x => by simp [statusStep])⟩
      simp [step, h]
    · refine ⟨_, [], (by simp only [step, List.append_nil]; exact h), ?_⟩
      apply forall₂_map_self
      intro o ho
      by_cases hid : o.ID = orderID
      · have hst := status_of_pk s hpk orderID "PENDING_CONFIRMATION" hex o ho hid
        rw [if_pos hid]
        refine ⟨rfl, ?_, ?_⟩
        · simp [statusStep, hst]
        · intro ht
          rw [hst] at ht
          simp at ht
      · rw [if_neg hid]
        exact ⟨rfl, by simp [statusStep], fun _ => rfl⟩
  | expireOrders =>
    refine ⟨_, [], (by simp only [step, List.append_nil]; exact congrArg Store.orders (ExpireOrders_store s)), ?_⟩
    apply forall₂_map_self
    intro o ho
    by_cases hin : o.ID ∈ expiredOrderIDs s
    · obtain ⟨o2, ho2, hst2, hid2⟩ := (mem_expiredOrderIDs s o.ID).mp hin
      have heq : o2 = o := List.inj_on_of_nodup_map hpk ho2 ho hid2
      rw [heq] at hst2
      have hst := stale_status s.now o hst2
      rw [if_pos hin]
      refine ⟨rfl, ?_, ?_⟩
      · simp [statusStep, hst]
      · intro ht
        rw [hst] at ht
        simp at ht
    · rw [if_neg hin]
      exact ⟨rfl, by simp [statusStep], fun _ => rfl⟩
  | cleanupLocks =>
    exact ⟨s.orders, [], by simp [step, CleanupLocks], hsame _ (fun x => by simp [statusStep])⟩
  | advance seconds =>
    exact ⟨s.orders, [], by simp [step], hsame _ (fun x => by simp [statusStep])⟩

/-- Witness of C21: ExpireOrders on the store in which order `o-0` is stale and `p-0` is not. -/
theorem C21_order_state_machine_witness :
    (storeTwoPendingLate.orders.map (fun o => o.ID)).Nodup ∧
      ∃ kept added,
        (step .seat cfg600 sampleHash storeTwoPendingLate .expireOrders).orders = kept ++ added ∧
        List.Forall₂ (fun b a => a.ID = b.ID ∧ statusStep .expireOrders b.Status a.Status ∧
          ((b.Status = "PAID" ∨ b.Status = "CANCELLED" ∨ b.Status = "EXPIRED") →
            a.Status = b.Status)) storeTwoPendingLate.orders kept :=
  ⟨by decide,
   C21_order_state_machine .seat cfg600 sampleHash storeTwoPendingLate .expireOrders (by decide)⟩

/-! ### C27: the access token check -/

theorem or_eq_zero_iff (a b : Nat) : a ||| b = 0 ↔ a = 0 ∧ b = 0 := by
  constructor
  · intro h
    have ha : ∀ i, a.testBit i = false := by
      intro i
      have := congrArg (fun n => n.testBit i) h
      simp only [Nat.testBit_or, Nat.zero_testBit, Bool.or_eq_false_iff] at this
      exact this.1
    have hb : ∀ i, b.testBit i = false := by
      intro i
      have := congrArg (fun n => n.testBit i) h
      simp only [Nat.testBit_or, Nat.zero_testBit, Bool.or_eq_false_iff] at this
      exact this.2
    exact ⟨Nat.eq_of_testBit_eq (by simpa using ha), Nat.eq_of_testBit_eq (by simpa using hb)⟩
  · rintro ⟨rfl, rfl⟩
    rfl

theorem foldl_or_xor (x : List Nat) : ∀ (y : List Nat) (acc : Nat), x.length = y.length →
    ((List.zip x y).foldl (fun v p => v ||| (p.1 ^^^ p.2)) acc = 0 ↔ acc = 0 ∧ x = y) := by
  induction x with
  | nil =>
    intro y acc hlen
    cases y with
    | nil => simp
    | cons b y => simp at hlen
  | cons a x ih =>
    intro y acc hlen
    cases y with
    | nil => simp at hlen
    | cons b y =>
      simp only [List.length_cons, Nat.add_right_cancel_iff] at hlen
      simp only [List.zip_cons_cons, List.foldl_cons]
      rw [ih y _ hlen, or_eq_zero_iff, Nat.xor_eq_zero]
      constructor
      · rintro ⟨⟨h1, h2⟩, h3⟩
        exact ⟨h1, by rw [h2, h3]⟩
      · rintro ⟨h1, h2⟩
        injection h2 with h2 h3
        exact ⟨⟨h1, h2⟩, h3⟩

theorem ConstantTimeCompare_eq_one (x y : List Nat) : ConstantTimeCompare x y = 1 ↔ x = y := by
  unfold ConstantTimeCompare
  by_cases hlen : x.length = y.length
  · simp only [hlen, ne_eq, not_true_eq_false, if_false]
    have h := foldl_or_xor x y 0 hlen
    by_cases hv : (List.zip x y).foldl (fun v p => v ||| (p.1 ^^^ p.2)) 0 = 0
    · simp only [hv, if_true, true_iff]
      exact (h.mp hv).2
    · simp only [hv, if_false]
      constructor
      · intro h0
        simp at h0
      · intro hxy
        exact absurd (h.mpr ⟨rfl, hxy⟩) hv
  · simp only [ne_eq, hlen, not_false_eq_true, if_true]
    constructor
    · intro h0
      simp at h0
    · intro hxy
      exact absurd (congrArg List.length hxy) hlen

theorem strBytes_injective (a b : String) (h : strBytes a = strBytes b) : a = b := by
  unfold strBytes at h
  have hinj : Function.Injective Char.toNat := by
    intro c d hcd
    have := congrArg Char.ofNat hcd
    simpa [Char.ofNat_toNat] using this
  exact String.ext ((List.map_injective_iff.mpr hinj) h)

theorem VerifyAccessToken_iff (sha : String → List Nat) (token storedHash : String) :
    VerifyAccessToken sha token storedHash = true ↔ storedHash = hexEncodeToString (sha token) := by
  unfold VerifyAccessToken
  simp only [beq_iff_eq, ConstantTimeCompare_eq_one]
  constructor
  · intro h
    exact (strBytes_injective _ _ h).symm
  · intro h
    rw [h]

/-- C27: with SHA-256 as a function `sha` from strings to digest bytes, VerifyAccessToken is true
exactly when the stored hash is the lowercase hex encoding of the digest of the token; every pair
produced by GenerateAccessToken passes the check; and GetTicketByToken returns an error whenever
the check of the token against the stored hash of the order found fails, the error being
"invalid access token" when order number and token are non-empty. -/
theorem C27_access_token_check (sha : String → List Nat) :
    (∀ token storedHash, VerifyAccessToken sha token storedHash = true ↔
        storedHash = hexEncodeToString (sha token)) ∧
    (∀ r : Rand, VerifyAccessToken sha (GenerateAccessToken (sha256Hex sha) r).1
        (GenerateAccessToken (sha256Hex sha) r).2 = true) ∧
    (∀ (s : Store) (events : List Event) (orderNumber token : String) (order : Order)
        (hash : String),
        s.orders.find? (fun o => decide (o.OrderNumber = orderNumber)) = some order →
        order.AccessTokenHash = some hash →
        VerifyAccessToken sha token hash = false →
        (∃ e, GetTicketByToken sha s events orderNumber token = .error e) ∧
        (orderNumber ≠ "" → token ≠ "" →
          GetTicketByToken sha s events orderNumber token = .error "invalid access token")) := by
  refine ⟨VerifyAccessToken_iff sha, ?_, ?_⟩
  · intro r
    rw [VerifyAccessToken_iff]
    rfl
  · intro s events orderNumber token order hash hfind hhash hver
    have hmain : orderNumber ≠ "" → token ≠ "" →
        GetTicketByToken sha s events orderNumber token = .error "invalid access token" := by
      intro h1 h2
      unfold GetTicketByToken
      rw [if_neg (by simp [h1, h2])]
      simp only [hfind, hhash, hver, Bool.not_false, if_true]
    refine ⟨?_, hmain⟩
    by_cases h1 : orderNumber = ""
    · exact ⟨_, by unfold GetTicketByToken; rw [if_pos (Or.inl h1)]⟩
    · by_cases h2 : token = ""
      · exact ⟨_, by unfold GetTicketByToken; rw [if_pos (Or.inr h2)]⟩
      · exact ⟨_, hmain h1 h2⟩

/-- Witness of C27 on the sample store: the token of order `o-0` passes the check and opens the
ticket, a different token fails it and is refused. -/
theorem C27_access_token_check_witness :
    VerifyAccessToken sampleSha "token-o" "746f" = true ∧
    VerifyAccessToken sampleSha "guess" "746f" = false ∧
    (∃ t, GetTicketByToken sampleSha storeTickets [eventE] "TDX-20260101-o" "token-o" = .ok t) ∧
    GetTicketByToken sampleSha storeTickets [eventE] "TDX-20260101-o" "guess" =
      .error "invalid access token" :=
  ⟨by decide, by decide, ⟨_, rfl⟩,
   ((C27_access_token_check sampleSha).2.2 storeTickets [eventE] "TDX-20260101-o" "guess"
      _ "746f" rfl rfl (by decide)).2 (by decide) (by decide)⟩

/-! ### C1: at most one active lock per seat -/

theorem activeLocks_length (s : Store) (x : String) :
    (activeLocks s x).length =
      s.seat_locks.countP (fun l => decide (l.SeatID = x) && decide (l.ExpiresAt > s.now)) := by
  unfold activeLocks
  rw [List.countP_eq_length_filter]

theorem activeLocks_le_of_sublist (s s2 : Store) (x : String)
    (hsub : s2.seat_locks.Sublist s.seat_locks) (hnow : s2.now = s.now) :
    (activeLocks s2 x).length ≤ (activeLocks s x).length := by
  unfold activeLocks
  rw [hnow]
  exact (hsub.filter _).length_le

theorem activeLocks_le_of_map (s s2 : Store) (x : String) (f : SeatLock → SeatLock)
    (hlocks : s2.seat_locks = s.seat_locks.map f)
    (hf : ∀ l ∈ s.seat_locks, (f l).SeatID = l.SeatID ∧
      ((f l).ExpiresAt > s2.now → l.ExpiresAt > s.now)) :
    (activeLocks s2 x).length ≤ (activeLocks s x).length := by
  rw [activeLocks_length, activeLocks_length, hlocks, List.countP_map]
  apply List.countP_mono_left
  intro l hl h
  simp only [Function.comp, Bool.and_eq_true, decide_eq_true_eq] at h ⊢
  obtain ⟨h1, h2⟩ := hf l hl
  exact ⟨h1 ▸ h.1, h2 h.2⟩

theorem uniqueLocks_of_sublist (k : LockKey) (l1 l2 : List SeatLock) (h : l1.Sublist l2)
    (hu : uniqueLocks k l2) : uniqueLocks k l1 :=
  List.Nodup.sublist (h.map _) hu

theorem uniqueLocks_map (k : LockKey) (f : SeatLock → SeatLock) (locks : List SeatLock)
    (hf : ∀ l ∈ locks, k.cols (f l) = k.cols l) (hu : uniqueLocks k locks) :
    uniqueLocks k (locks.map f) := by
  unfold uniqueLocks at *
  rw [List.map_map]
  have h : locks.map (k.cols ∘ f) = locks.map k.cols := List.map_congr_left (fun l hl => hf l hl)
  rw [h]
  exact hu

theorem mem_upsertLock (k : LockKey) (new a : SeatLock) (locks : List SeatLock)
    (h : a ∈ upsertLock k new locks) : k.cols a = k.cols new ∨ a ∈ locks := by
  unfold upsertLock at h
  split at h
  · obtain ⟨old, hold, heq⟩ := List.mem_map.mp h
    by_cases hd : k.dup new old = true
    · rw [if_pos hd] at heq
      left
      rw [← heq, cols_update k new old hd]
      exact (dup_iff_cols k new old).mp hd
    · rw [if_neg hd] at heq
      right
      exact heq ▸ hold
  · rcases List.mem_append.mp h with h1 | h1
    · exact Or.inr h1
    · left
      simp only [List.mem_singleton] at h1
      rw [h1]

theorem cols_of_same_session (k : LockKey) (a b : SeatLock) (h1 : a.SeatID = b.SeatID)
    (h2 : a.SessionID = b.SessionID) : k.cols a = k.cols b := by
  cases k <;> simp [LockKey.cols, h1, h2]

theorem activeLocks_upsertLock (k : LockKey) (tx : Store) (new : SeatLock)
    (hu : uniqueLocks k tx.seat_locks)
    (hfree : ¬ lockedByOther tx new.SeatID new.SessionID)
    (hone : ∀ x, (activeLocks tx x).length ≤ 1) (x : String) :
    (activeLocks { tx with seat_locks := upsertLock k new tx.seat_locks } x).length ≤ 1 := by
  by_cases hx : x = new.SeatID
  · apply length_le_one_of_const k.cols (k.cols new)
    · exact List.Nodup.sublist ((List.filter_sublist _).map _) (uniqueLocks_upsertLock k new _ hu)
    · intro a ha
      simp only [activeLocks, List.mem_filter, Bool.and_eq_true, decide_eq_true_eq] at ha
      obtain ⟨hmem, hseat, hact⟩ := ha
      rcases mem_upsertLock k new a _ hmem with h | h
      · exact h
      · apply cols_of_same_session k a new (hseat.trans hx)
        by_contra hne
        exact hfree ⟨a, h, hseat.trans hx, hne, hact⟩
  · refine le_trans (le_of_eq ?_) (hone x)
    rw [activeLocks_length, activeLocks_length]
    simp only
    unfold upsertLock
    split
    · rw [List.countP_map]
      apply List.countP_congr
      intro l _
      by_cases hd : k.dup new l = true
      · have hs := dup_seatID k new l hd
        simp only [Function.comp, hd, if_true, Bool.and_eq_true, decide_eq_true_eq]
        constructor
        · intro h
          exact absurd (h.1.symm.trans hs) hx
        · intro h
          exact absurd (h.1.symm.trans hs) hx
      · simp only [Function.comp, hd, if_false]
        simp
    · rw [List.countP_append]
      have h0 : List.countP (fun l => decide (l.SeatID = x) && decide (l.ExpiresAt > tx.now))
          [new] = 0 := by
        rw [List.countP_eq_zero]
        intro a ha
        simp only [List.mem_singleton] at ha
        simp only [Bool.and_eq_true, decide_eq_true_eq, not_and]
        intro h
        exact absurd (ha ▸ h).symm hx
      rw [h0]
      rfl

theorem lockLoop_inv (k : LockKey) (eventID sessionID : String) (tt : Option String) (t : Time)
    (uuid : Nat → String) (seatIDs : List String) :
    ∀ (i : Nat) (tx tx2 : Store), uniqueLocks k tx.seat_locks →
      (∀ x, (activeLocks tx x).length ≤ 1) →
      lockLoop k eventID sessionID tt t uuid i seatIDs tx = .ok tx2 →
      uniqueLocks k tx2.seat_locks ∧ (∀ x, (activeLocks tx2 x).length ≤ 1) := by
  induction seatIDs with
  | nil =>
    intro i tx tx2 hu hone hrun
    simp only [lockLoop, Except.ok.injEq] at hrun
    subst hrun
    exact ⟨hu, hone⟩
  | cons a rest ih =>
    intro i tx tx2 hu hone hrun
    simp only [lockLoop] at hrun
    split at hrun
    · cases hrun
    · split at hrun
      · cases hrun
      · split at hrun
        · cases hrun
        · rename_i hnone
          have hfree := (getOtherLock_none_iff tx a sessionID).mp hnone
          refine ih _ _ _ (uniqueLocks_upsertLock k _ _ hu) ?_ hrun
          intro x
          exact activeLocks_upsertLock k tx _ hu hfree hone x

theorem LockSeats_inv (k : LockKey) (cfg : Config) (uuid : Nat → String) (s : Store)
    (eventID : String) (seatIDs : List String) (sessionID : String) (tt : Option String)
    (hu : uniqueLocks k s.seat_locks) (hone : ∀ x, (activeLocks s x).length ≤ 1) :
    uniqueLocks k (LockSeats k cfg uuid s eventID seatIDs sessionID tt).1.seat_locks ∧
      (∀ x, (activeLocks (LockSeats k cfg uuid s eventID seatIDs sessionID tt).1 x).length ≤ 1) := by
  unfold LockSeats
  split
  · exact ⟨hu, hone⟩
  · simp only
    cases hrun : lockLoop k eventID sessionID tt (s.now + cfg.SeatLockTTL) uuid 0 seatIDs s with
    | error e => exact ⟨hu, hone⟩
    | ok tx => exact lockLoop_inv k eventID sessionID tt _ uuid seatIDs 0 s tx hu hone hrun

theorem CreatePendingOrder_locks (H : String → String) (r : Rand) (s : Store)
    (input : CreatePendingOrderInput) :
    (CreatePendingOrder H r s input).1.now = s.now ∧
      ((CreatePendingOrder H r s input).1.seat_locks = s.seat_locks ∨
        ∃ first, heldBy s input.SessionID first ∧
          (CreatePendingOrder H r s input).1.seat_locks =
            setExpirySessionSeat (s.now + 15 * 60) input.SessionID first s.seat_locks) := by
  cases hres : CreatePendingOrder H r s input with
  | mk s2 res =>
    cases res with
    | ok resp =>
      obtain ⟨_, _, hver, _, _, hnow, _, ⟨first, rest, hids, hlocks⟩, _⟩ :=
        CreatePendingOrder_ok_fields H r s s2 input resp hres
      refine ⟨hnow, Or.inr ⟨first, ?_, hlocks⟩⟩
      exact (verifyLocks_ok_iff s input.SessionID input.SeatIDs).mp hver first
        (by rw [hids]; exact List.mem_cons_self _ _)
    | error e =>
      have hs : s2 = s := by
        unfold CreatePendingOrder at hres
        split at hres
        · exact (Prod.mk.inj hres).1.symm
        · split at hres
          · exact (Prod.mk.inj hres).1.symm
          · split at hres
            · exact (Prod.mk.inj hres).1.symm
            · split at hres
              · exact (Prod.mk.inj hres).1.symm
              · simp at hres
      rw [hs]
      exact ⟨rfl, Or.inl rfl⟩

theorem CreatePendingOrder_inv (k : LockKey) (H : String → String) (r : Rand) (s : Store)
    (input : CreatePendingOrderInput)
    (hu : uniqueLocks k s.seat_locks) (hone : ∀ x, (activeLocks s x).length ≤ 1) :
    uniqueLocks k (CreatePendingOrder H r s input).1.seat_locks ∧
      (∀ x, (activeLocks (CreatePendingOrder H r s input).1 x).length ≤ 1) := by
  obtain ⟨hnow, hl | ⟨first, hheld, hl⟩⟩ := CreatePendingOrder_locks H r s input
  · rw [hl]
    refine ⟨hu, fun x => le_trans ?_ (hone x)⟩
    exact activeLocks_le_of_sublist s _ x (by rw [hl]) hnow
  · obtain ⟨l0, hl0, hseat0, hsess0, hact0⟩ := hheld
    refine ⟨?_, fun x => le_trans ?_ (hone x)⟩
    · rw [hl]
      apply uniqueLocks_map k _ _ _ hu
      intro l _
      split
      · cases k <;> rfl
      · rfl
    · apply activeLocks_le_of_map s _ x _ hl
      intro l hmem
      refine ⟨by split <;> rfl, ?_⟩
      rw [hnow]
      by_cases hm : l.SessionID = input.SessionID ∧ l.SeatID = first
      · intro _
        have hcols : k.cols l = k.cols l0 :=
          cols_of_same_session k l l0 (hm.2.trans hseat0.symm) (hm.1.trans hsess0.symm)
        have heq : l = l0 := List.inj_on_of_nodup_map hu hmem hl0 hcols
        rw [heq]
        exact hact0
      · rw [if_neg hm]
        exact fun h => h

theorem adminConfirmPayment_locks (H : String → String) (r : Rand) (s : Store)
    (orderID adminUserID : String) :
    (admin.ConfirmPayment H r s orderID adminUserID).1.seat_locks.Sublist s.seat_locks ∧
      (admin.ConfirmPayment H r s orderID adminUserID).1.now = s.now := by
  by_cases hex : ∃ o0 ∈ s.orders, o0.ID = orderID ∧ o0.Status = "PENDING_CONFIRMATION"
  · obtain ⟨o, log, heq⟩ := adminConfirmPayment_of_pc H r s orderID adminUserID hex
    rw [heq]
    exact ⟨List.filter_sublist _, rfl⟩
  · have hf := find?_pc_none s orderID (fun o ho hid hst => hex ⟨o, ho, hid, hst⟩)
    unfold admin.ConfirmPayment
    simp only [hf]
    exact ⟨List.Sublist.refl _, trivial⟩

theorem adminRejectPayment_locks (r : Rand) (s : Store) (orderID reason adminUserID : String) :
    (admin.RejectPayment r s orderID reason adminUserID).1.seat_locks.Sublist s.seat_locks ∧
      (admin.RejectPayment r s orderID reason adminUserID).1.now = s.now := by
  by_cases hex : ∃ o0 ∈ s.orders, o0.ID = orderID ∧ o0.Status = "PENDING_CONFIRMATION"
  · obtain ⟨log, heq⟩ := adminRejectPayment_of_pc r s orderID reason adminUserID hex
    rw [heq]
    exact ⟨List.filter_sublist _, rfl⟩
  · have hf := find?_pc_none s orderID (fun o ho hid hst => hex ⟨o, ho, hid, hst⟩)
    unfold admin.RejectPayment
    simp only [hf]
    exact ⟨List.Sublist.refl _, trivial⟩

theorem inv_of_sublist (k : LockKey) (s s2 : Store)
    (hsub : s2.seat_locks.Sublist s.seat_locks) (hnow : s2.now = s.now)
    (hu : uniqueLocks k s.seat_locks) (hone : ∀ x, (activeLocks s x).length ≤ 1) :
    uniqueLocks k s2.seat_locks ∧ (∀ x, (activeLocks s2 x).length ≤ 1) :=
  ⟨uniqueLocks_of_sublist k _ _ hsub hu,
   fun x => le_trans (activeLocks_le_of_sublist s s2 x hsub hnow) (hone x)⟩

theorem step_inv (k : LockKey) (cfg : Config) (H : String → String) (s : Store) (op : Op)
    (hop : op.setsExpiryUnchecked = false)
    (hu : uniqueLocks k s.seat_locks) (hone : ∀ x, (activeLocks s x).length ≤ 1) :
    uniqueLocks k (step k cfg H s op).seat_locks ∧
      (∀ x, (activeLocks (step k cfg H s op) x).length ≤ 1) := by
  cases op with
  | lockSeats uuid e ids sid tt => exact LockSeats_inv k cfg uuid s e ids sid tt hu hone
  | unlockSeats e ids sid =>
    apply inv_of_sublist k s _ _ _ hu hone
    · simp only [step, UnlockSeats_eq]
      exact List.filter_sublist _
    · simp only [step, UnlockSeats_eq]
  | extendSeatLock e sid ids d => simp [Op.setsExpiryUnchecked] at hop
  | createPendingOrder r input => exact CreatePendingOrder_inv k H r s input hu hone
  | confirmPayment input => simp [Op.setsExpiryUnchecked] at hop
  | adminConfirmPayment r orderID adminUserID =>
    exact inv_of_sublist k s _ (adminConfirmPayment_locks H r s orderID adminUserID).1
      (adminConfirmPayment_locks H r s orderID adminUserID).2 hu hone
  | adminRejectPayment r orderID reason adminUserID =>
    exact inv_of_sublist k s _ (adminRejectPayment_locks r s orderID reason adminUserID).1
      (adminRejectPayment_locks r s orderID reason adminUserID).2 hu hone
  | expireOrders =>
    apply inv_of_sublist k s _ _ _ hu hone
    · simp only [step, ExpireOrders_store]
      exact List.filter_sublist _
    · simp only [step, ExpireOrders_store]
  | cleanupLocks =>
    apply inv_of_sublist k s _ _ _ hu hone
    · simp only [step, CleanupLocks]
      exact List.filter_sublist _
    · simp only [step, CleanupLocks]
  | advance seconds =>
    refine ⟨hu, fun x => le_trans ?_ (hone x)⟩
    apply activeLocks_le_of_map s _ x id (by simp [step])
    intro l _
    refine ⟨rfl, ?_⟩
    simp only [step, id]
    intro h
    have hs : (0 : Int) ≤ (seconds : Int) := Int.ofNat_nonneg _
    linarith

theorem run_inv (k : LockKey) (cfg : Config) (H : String → String) (ops : List Op) :
    ∀ (s : Store), (∀ op ∈ ops, op.setsExpiryUnchecked = false) →
      uniqueLocks k s.seat_locks → (∀ x, (activeLocks s x).length ≤ 1) →
      uniqueLocks k (run k cfg H s ops).seat_locks ∧
        (∀ x, (activeLocks (run k cfg H s ops) x).length ≤ 1) := by
  induction ops with
  | nil => intro s _ hu hone; exact ⟨hu, hone⟩
  | cons op rest ih =>
    intro s hops hu hone
    obtain ⟨hu2, hone2⟩ := step_inv k cfg H s op (hops op (List.mem_cons_self _ _)) hu hone
    exact ih _ (fun o ho => hops o (List.mem_cons_of_mem _ ho)) hu2 hone2

/-- C1: from a store with no lock rows, after every finite sequence of the nine core operations
and clock advances, every seat has at most one lock row whose `expiresAt` is later than the current
time, the unique index of `seat_locks` being on `seat_id`.  Whatever the unique index, the checks
of the code keep the same bound in every run made of LockSeats, UnlockSeats, CreatePendingOrder,
admin.ConfirmPayment, admin.RejectPayment, ExpireOrders, CleanupLocks and clock advances: LockSeats
refuses a seat on which another session has an unexpired row, and CreatePendingOrder writes the
expiry of a row only after finding it unexpired. -/
theorem C1_one_active_lock_per_seat (cfg : Config) (H : String → String) (s0 : Store)
    (ops : List Op) (seatID : String) (h0 : s0.seat_locks = []) :
    (activeLocks (run .seat cfg H s0 ops) seatID).length ≤ 1 ∧
      ((∀ op ∈ ops, op.setsExpiryUnchecked = false) →
        ∀ k : LockKey, (activeLocks (run k cfg H s0 ops) seatID).length ≤ 1) := by
  constructor
  · have hn : (lockSeatIDs (run .seat cfg H s0 ops).seat_locks).Nodup :=
      nodup_run_seat cfg H ops s0 (by rw [h0]; exact List.nodup_nil)
    apply length_le_one_of_same_seat _ seatID
    · exact hn.sublist (lockSeatIDs_filter _ _)
    · intro l hl
      simp only [activeLocks, List.mem_filter, Bool.and_eq_true, decide_eq_true_eq] at hl
      exact hl.2.1
  · intro hops k
    have hu : uniqueLocks k s0.seat_locks := by
      rw [h0]
      exact List.nodup_nil
    have hone : ∀ x, (activeLocks s0 x).length ≤ 1 := by
      intro x
      simp [activeLocks, h0]
    exact (run_inv k cfg H ops s0 hops hu hone).2 seatID

/-- Witness of C1: S1 locks seat A, the lock expires, S2 locks A.  With the unique index on
`(seat_id, session_id)` seat A then has two lock rows, of which one is unexpired. -/
theorem C1_one_active_lock_per_seat_witness :
    store0.seat_locks = [] ∧ (∀ op ∈ opsRelock, op.setsExpiryUnchecked = false) ∧
      (run .seatSession cfg600 sampleHash store0 opsRelock).seat_locks.map
        (fun l => (l.SeatID, l.SessionID, l.ExpiresAt)) = [("A", "S1", 600), ("A", "S2", 1300)] ∧
      (activeLocks (run .seat cfg600 sampleHash store0 opsRelock) "A").length ≤ 1 ∧
      (activeLocks (run .seatSession cfg600 sampleHash store0 opsRelock) "A").length ≤ 1 :=
  ⟨rfl, by decide, by decide,
   (C1_one_active_lock_per_seat cfg600 sampleHash store0 opsRelock "A" rfl).1,
   (C1_one_active_lock_per_seat cfg600 sampleHash store0 opsRelock "A" rfl).2 (by decide)
     .seatSession⟩

/-- Why the bound for either index leaves out ExtendSeatLock and ConfirmPayment: with the unique
index on `(seat_id, session_id)`, S1 locks A, the lock expires, S2 locks A, and S1 calls
ExtendSeatLock, which rewrites its expired row; or S1 has started an order for A and confirms the
payment after S2 has locked A, which rewrites every row of the seat.  Seat A then has two
unexpired lock rows. -/
theorem two_active_locks_seatSession :
    store0.seat_locks = [] ∧
      ¬ (activeLocks (run .seatSession cfg600 sampleHash store0 opsRevive) "A").length ≤ 1 ∧
      ¬ (activeLocks (run .seatSession cfg600 sampleHash store0 opsConfirmLate) "A").length ≤ 1 := by
  decide

end Tedx
